import Mathlib

/-!
# cfstack: deployment and diff orchestration

A shallow embedding of the Go sources of cfstack
(`internal/pkg/aws/cloudformation`, `internal/pkg/stack`, `internal/pkg/worker`,
`internal/pkg/cmd/cfstack`) and theorems about it.

Conventions of the embedding

* A Go `error` is a `GoError`; `nil` is `none : Option GoError`.
* A `for { select { case <-timeout: ... case <-ticker: ... } }` loop takes the
  list of `Select` events it observes: which channel fired and, for a tick, what
  the remote call made in that iteration answered.  When the list ends while the
  loop is still polling the result is `none`.
* Remote calls are recorded in a log of `Call`s, in program order.
* Logging and console output are left out.
-/

namespace Cfstack

/-! ## Go strings -/

/-- Go `strings.HasPrefix`. -/
def hasPrefix (s p : String) : Bool := p.toList.isPrefixOf s.toList

/-- Substring test on characters. -/
def containsChars : List Char → List Char → Bool
  | [], sub => sub.isPrefixOf []
  | c :: cs, sub => sub.isPrefixOf (c :: cs) || containsChars cs sub

/-- Go `strings.Contains`. -/
def stringsContains (s sub : String) : Bool := containsChars s.toList sub.toList

/-- Left-to-right replacement of every non-overlapping occurrence of the non-empty
`old` by `new`; `skip` counts the characters of a matched occurrence still to be passed. -/
def replaceChars (old new : List Char) : Nat → List Char → List Char
  | _, [] => []
  | skip + 1, _ :: cs => replaceChars old new skip cs
  | 0, c :: cs =>
    if old.isPrefixOf (c :: cs) then new ++ replaceChars old new (old.length - 1) cs
    else c :: replaceChars old new 0 cs

/-- Go `strings.Replace(s, old, new, -1)` for a non-empty `old`. -/
def stringsReplaceAll (s old new : String) : String :=
  ⟨replaceChars old.toList new.toList 0 s.toList⟩

/-- Go `strings.Join`. -/
def stringsJoin (l : List String) (sep : String) : String := sep.intercalate l

/-- Go `filepath.IsAbs` on a Unix system. -/
def filepathIsAbs (p : String) : Bool := hasPrefix p "/"

/-- Go `aws.StringValue`: the pointed-to string, or the empty string for a nil pointer. -/
def StringValue (p : Option String) : String := p.getD ""

/-! ## Errors and polling events -/

/-- A Go error value: an `awserr.Error` with its code and message, or any other error
with its message. -/
inductive GoError where
  | aws (code message : String)
  | plain (message : String)
  deriving DecidableEq, Repr

/-- Go `err.Error()`; an `awserr.Error` prints as `code: message`. -/
def GoError.Error : GoError → String
  | .aws code message => code ++ ": " ++ message
  | .plain message => message

/-- Outcome of one `select` over the deadline channel and the ticker channel. -/
inductive Select (α : Type) where
  | timeout
  | tick (resp : α)
  deriving Repr

/-! ## internal/pkg/aws/cloudformation -/

def noChangeErrorReason : String :=
  "The submitted information didn't contain changes. Submit different information to create a change set."

def ChangeSetStatusFailed : String := "FAILED"
def ChangeSetStatusCreateComplete : String := "CREATE_COMPLETE"

def StackStatusCreateInProgress : String := "CREATE_IN_PROGRESS"
def StackStatusCreateFailed : String := "CREATE_FAILED"
def StackStatusCreateComplete : String := "CREATE_COMPLETE"
def StackStatusRollbackInProgress : String := "ROLLBACK_IN_PROGRESS"
def StackStatusRollbackComplete : String := "ROLLBACK_COMPLETE"
def StackStatusDeleteInProgress : String := "DELETE_IN_PROGRESS"
def StackStatusDeleteFailed : String := "DELETE_FAILED"
def StackStatusDeleteComplete : String := "DELETE_COMPLETE"
def StackStatusUpdateInProgress : String := "UPDATE_IN_PROGRESS"
def StackStatusUpdateCompleteCleanupInProgress : String := "UPDATE_COMPLETE_CLEANUP_IN_PROGRESS"
def StackStatusUpdateComplete : String := "UPDATE_COMPLETE"
def StackStatusUpdateRollbackInProgress : String := "UPDATE_ROLLBACK_IN_PROGRESS"
def StackStatusUpdateRollbackFailed : String := "UPDATE_ROLLBACK_FAILED"
def StackStatusUpdateRollbackCompleteCleanupInProgress : String :=
  "UPDATE_ROLLBACK_COMPLETE_CLEANUP_IN_PROGRESS"
def StackStatusUpdateRollbackComplete : String := "UPDATE_ROLLBACK_COMPLETE"
def StackStatusReviewInProgress : String := "REVIEW_IN_PROGRESS"

structure GetStackChangesOpts where
  StackName : String
  TemplateUrl : String
  TemplateBody : String
  Parameters : List (String × String)
  StackPolicy : String
  ChangeSetName : String
  Type_ : String
  RoleArn : String
  deriving DecidableEq, Repr

structure CreateStackOpts where
  StackName : String
  TemplateUrl : String
  TemplateBody : String
  Parameters : List (String × String)
  Serverless : Bool
  StackPolicy : String
  RoleArn : String
  deriving DecidableEq, Repr

structure DeleteStackOpts where
  StackName : String
  RoleArn : String
  deriving DecidableEq, Repr

structure ChangeResource where
  Name : String
  Type_ : String
  Action : String
  Replacement : String
  deriving DecidableEq, Repr

structure Changes where
  Status : String
  StatusReason : String
  Resources : List ChangeResource
  StackPolicyChange : Bool
  ForceStackUpdate : Bool
  deriving DecidableEq, Repr

/-- SDK `cloudformation.ResourceChange`, the fields the program reads. -/
structure ResourceChange where
  LogicalResourceId : Option String
  ResourceType : Option String
  Action : Option String
  Replacement : Option String
  deriving DecidableEq, Repr

/-- SDK `cloudformation.Change`. -/
structure Change where
  ResourceChange : ResourceChange
  deriving DecidableEq, Repr

/-- SDK `cloudformation.DescribeChangeSetOutput`, the fields the program reads. -/
structure DescribeChangeSetOutput where
  Status : Option String
  StatusReason : Option String
  Changes : List Change
  deriving DecidableEq, Repr

/-- SDK `cloudformation.Stack` as listed by `DescribeStacks`. -/
structure StackDescription where
  StackName : Option String
  StackStatus : Option String
  StackStatusReason : Option String
  deriving DecidableEq, Repr

/-- SDK `cloudformation.Parameter`. -/
structure Parameter where
  ParameterKey : String
  ParameterValue : String
  deriving DecidableEq, Repr

/-- SDK `cloudformation.CreateChangeSetInput`; an unset pointer field is `none`. -/
structure CreateChangeSetInput where
  StackName : String
  ChangeSetName : String
  ChangeSetType : String
  Parameters : List Parameter
  Capabilities : List String
  TemplateBody : Option String
  TemplateURL : Option String
  RoleARN : Option String
  deriving DecidableEq, Repr

/-- SDK `CreateStackInput` and `UpdateStackInput` (the latter never sets `StackPolicyBody`). -/
structure StackInput where
  StackName : String
  Parameters : List Parameter
  Capabilities : List String
  StackPolicyBody : Option String
  TemplateBody : Option String
  TemplateURL : Option String
  RoleARN : Option String
  deriving DecidableEq, Repr

/-- A call on the remote client (`client*`, `UploadToS3`) or an entry into one of the
`CloudFormation` methods that the stack state machine invokes (`cf*`). -/
inductive Call where
  | clientValidateTemplate (templateUrl : String)
  | clientDescribeStacks (stackName : String)
  | clientDescribeStackResource (stackName resource : String)
  | clientGetStackPolicy (stackName : String)
  | clientCreateChangeSet (input : CreateChangeSetInput)
  | clientDescribeChangeSet (changeSetName stackName : String)
  | clientDeleteChangeSet (changeSetName stackName : String)
  | clientSetStackPolicy (stackName stackPolicy : String)
  | clientCreateStack (input : StackInput)
  | clientUpdateStack (input : StackInput)
  | clientDeleteStack (stackName : String) (roleARN : Option String)
  | cfGetStackChanges (opts : GetStackChangesOpts)
  | cfSetStackPolicy (stackName stackPolicy : String)
  | cfCreateNewStack (opts : CreateStackOpts)
  | cfUpdateExistingStack (opts : CreateStackOpts)
  | cfDeleteStack (opts : DeleteStackOpts)
  | UploadToS3 (bucket filepath key : String)
  deriving DecidableEq, Repr

/-- `templates.PolicyDocument`; the `interface{}` fields of a statement are kept as text. -/
structure PolicyStatement where
  Action : String
  Effect : String
  Principal : String
  Resource : String
  Sid : String
  deriving DecidableEq, Repr

structure PolicyDocument where
  Id : String
  Statement : List PolicyStatement
  Version : String
  deriving DecidableEq, Repr

/-- Standard-library functions the program calls and whose code is not part of it:
`strconv.Unquote`, `json.Marshal` of a `PolicyDocument`, and `json.Unmarshal` into a
`PolicyDocument` followed by `json.Marshal` (the unmarshal error is overwritten in the
source, so only the marshal can fail), and `filepath.Join`. -/
structure GoLib where
  unquote : String → Except GoError String
  marshalPolicy : PolicyDocument → Except GoError String
  reserialisePolicy : String → Except GoError String
  filepathJoin : String → String → String

/-- The receiver `CloudFormation`: its region and the values store.  `values region stack
name` is the JSON text of the entry when it exists (gabs `Exists` / `Search(..).String()`). -/
structure CloudFormation where
  region : String
  values : String → String → String → Option String

/-- Prefix a completed run's log with the calls made before it. -/
def withCalls {α : Type} (calls : List Call) : Option (α × List Call) → Option (α × List Call)
  | none => none
  | some (a, log) => some (a, calls ++ log)

/-- Go `unicode.IsSpace`: the characters with the Unicode property White_Space, which are
`\t`, `\n`, `\v`, `\f`, `\r`, the space, U+0085, U+00A0, U+1680, U+2000 to U+200A, U+2028,
U+2029, U+202F, U+205F and U+3000. -/
def isSpace (c : Char) : Bool :=
  c == ' ' || c == '\t' || c == '\n' || c == '\r' || c.toNat == 11 || c.toNat == 12 ||
    c.toNat == 133 || c.toNat == 160 || c.toNat == 5760 ||
    (decide (8192 ≤ c.toNat) && decide (c.toNat ≤ 8202)) || c.toNat == 8232 ||
    c.toNat == 8233 || c.toNat == 8239 || c.toNat == 8287 || c.toNat == 12288

/-- Go `strings.TrimSpace`: the string without its leading and trailing white space. -/
def stringsTrimSpace (s : String) : String :=
  ⟨((s.toList.dropWhile isSpace).reverse.dropWhile isSpace).reverse⟩

/-- The test `len(v) >= 4 && v[0:2] == "\x7b\x7b" && v[len(v)-2:] == "\x7d\x7d"`. -/
def isReference (v : String) : Bool :=
  decide (4 ≤ v.toList.length) && v.toList.take 2 == "\x7b\x7b".toList &&
    v.toList.drop (v.toList.length - 2) == "\x7d\x7d".toList

/-- The slice `v[2 : len(v)-2]`. -/
def referenceBody (v : String) : String :=
  ⟨(v.toList.take (v.toList.length - 2)).drop 2⟩

/-- The parameter loop of `GetStackChanges`, `CreateNewStack` and `UpdateExistingStack`;
the map is given as the list of its entries in iteration order. -/
def resolveParameters (lib : GoLib) (cf : CloudFormation) (stackName : String) :
    List (String × String) → Except GoError (List Parameter)
  | [] => .ok []
  | (k, v) :: rest =>
    if isReference v then
      let valueName := stringsTrimSpace (referenceBody v)
      match cf.values cf.region stackName valueName with
      | none =>
        .error (.plain ("Value " ++ valueName ++ " for parameter " ++ k ++ " not found in values"))
      | some raw =>
        match lib.unquote raw with
        | .error err => .error err
        | .ok value =>
          match resolveParameters lib cf stackName rest with
          | .error err => .error err
          | .ok ps => .ok (⟨k, value⟩ :: ps)
    else
      match resolveParameters lib cf stackName rest with
      | .error err => .error err
      | .ok ps => .ok (⟨k, v⟩ :: ps)

/-- The `ChangeResource` appended for one listed change. -/
def changeResourceOf (change : Change) : ChangeResource :=
  { Name := StringValue change.ResourceChange.LogicalResourceId
    Type_ := StringValue change.ResourceChange.ResourceType
    Action := StringValue change.ResourceChange.Action
    Replacement := StringValue change.ResourceChange.Replacement }

/-- `CloudFormation.trackChangeSetCreateStatus`; the result is the returned triple
`(resources, forceUpdate, err)`, a nil slice being the empty list. -/
def trackChangeSetCreateStatus (stackName changeSetName : String) :
    List (Select (Except GoError DescribeChangeSetOutput)) →
    Option ((List ChangeResource × Bool × Option GoError) × List Call)
  | [] => none
  | .timeout :: _ =>
    some (([], false, some (.plain "Stack %s failed to update/create within 24 hours...")), [])
  | .tick resp :: rest =>
    let call := Call.clientDescribeChangeSet changeSetName stackName
    match resp with
    | .error err =>
      match err with
      | .aws code _ =>
        if code == "Throttling" then
          withCalls [call] (trackChangeSetCreateStatus stackName changeSetName rest)
        else some (([], false, some err), [call])
      | .plain _ => some (([], false, some err), [call])
    | .ok res =>
      let resources : List ChangeResource := []
      if StringValue res.Status == ChangeSetStatusFailed then
        if StringValue res.StatusReason == noChangeErrorReason then
          some ((resources, false, none), [call])
        else some (([], false, some (.plain (StringValue res.StatusReason))), [call])
      else if StringValue res.Status == ChangeSetStatusCreateComplete then
        if res.Changes.length == 0 then some ((resources, true, none), [call])
        else
          some ((res.Changes.foldl (fun acc change => acc ++ [changeResourceOf change]) resources,
            false, none), [call])
      else withCalls [call] (trackChangeSetCreateStatus stackName changeSetName rest)

/-- What the remote answers during one `GetStackChanges`. -/
structure GetStackChangesEnv where
  getStackPolicy : Except GoError (Option String)
  createChangeSet : Option GoError
  describeChangeSet : List (Select (Except GoError DescribeChangeSetOutput))
  deleteChangeSet : Option GoError

/-- The `CreateChangeSetInput` built by `GetStackChanges`. -/
def createChangeSetInput (opts : GetStackChangesOpts) (parameters : List Parameter) :
    CreateChangeSetInput :=
  { StackName := opts.StackName
    ChangeSetName := opts.ChangeSetName
    ChangeSetType := opts.Type_
    Parameters := parameters
    Capabilities := ["CAPABILITY_NAMED_IAM"]
    TemplateBody := if opts.TemplateUrl == "" then some opts.TemplateBody else none
    TemplateURL := if opts.TemplateUrl == "" then none else some opts.TemplateUrl
    RoleARN := if opts.RoleArn != "" then some opts.RoleArn else none }

/-- The second half of `GetStackChanges`, from `CreateChangeSet` on. -/
def submitChangeSet (opts : GetStackChangesOpts) (input : CreateChangeSetInput)
    (stackPolicyChange : Bool) (env : GetStackChangesEnv) :
    Option (Except GoError Changes × List Call) :=
  match env.createChangeSet with
  | some err => some (.error err, [.clientCreateChangeSet input])
  | none =>
    match trackChangeSetCreateStatus opts.StackName opts.ChangeSetName env.describeChangeSet with
    | none => none
    | some ((_, _, some err), log) => some (.error err, .clientCreateChangeSet input :: log)
    | some ((resources, forceStackUpdate, none), log) =>
      some (.ok { Status := "", StatusReason := "", Resources := resources
                  StackPolicyChange := stackPolicyChange
                  ForceStackUpdate := forceStackUpdate },
        .clientCreateChangeSet input :: log ++
          [.clientDeleteChangeSet opts.ChangeSetName opts.StackName])

/-- `CloudFormation.GetStackChanges`. -/
def GetStackChanges (lib : GoLib) (cf : CloudFormation) (opts : GetStackChangesOpts)
    (env : GetStackChangesEnv) : Option (Except GoError Changes × List Call) :=
  withCalls [.cfGetStackChanges opts]
    (match resolveParameters lib cf opts.StackName opts.Parameters with
    | .error err => some (.error err, [])
    | .ok parameters =>
      let input := createChangeSetInput opts parameters
      if opts.Type_ == "UPDATE" then
        match env.getStackPolicy with
        | .error err => some (.error err, [.clientGetStackPolicy opts.StackName])
        | .ok res =>
          match lib.reserialisePolicy (StringValue res) with
          | .error err => some (.error err, [.clientGetStackPolicy opts.StackName])
          | .ok s =>
            withCalls [.clientGetStackPolicy opts.StackName]
              (submitChangeSet opts input
                (opts.StackPolicy != s && opts.StackPolicy != "\x7b\x7d") env)
      else submitChangeSet opts input false env)

/-- The pass over `res.Stacks` inside `trackStackCreateUpdateStatus`: `.error e` when the
function returns `e` from inside the pass, otherwise the value of `completed` after it. -/
def trackStackScan (stackName : String) : List StackDescription → Bool → Except GoError Bool
  | [], completed => .ok completed
  | stack :: rest, completed =>
    if StringValue stack.StackName == stackName then
      let status := StringValue stack.StackStatus
      if status == StackStatusCreateInProgress then trackStackScan stackName rest completed
      else if status == StackStatusRollbackInProgress then trackStackScan stackName rest completed
      else if status == StackStatusRollbackComplete then
        .error (.plain ("Failed to create stack " ++ stackName))
      else if status == StackStatusCreateFailed then
        .error (.plain ("Failed to create stack " ++ stackName ++ "\nReason: " ++
          StringValue stack.StackStatusReason ++ "\n"))
      else if status == StackStatusUpdateInProgress then trackStackScan stackName rest completed
      else if status == StackStatusUpdateCompleteCleanupInProgress then
        trackStackScan stackName rest completed
      else if status == StackStatusUpdateRollbackInProgress then
        trackStackScan stackName rest completed
      else if status == StackStatusUpdateRollbackCompleteCleanupInProgress then
        trackStackScan stackName rest completed
      else if status == StackStatusUpdateRollbackComplete then
        .error (.plain ("Failed to update stack " ++ stackName))
      else if status == StackStatusUpdateRollbackFailed then
        .error (.plain ("Failed to rollback stack " ++ stackName ++ "\nReason: " ++
          StringValue stack.StackStatusReason))
      else if status == StackStatusDeleteInProgress then trackStackScan stackName rest completed
      else if status == StackStatusDeleteFailed then
        .error (.plain ("Failed to delete stack " ++ stackName ++ "\nReason: " ++
          StringValue stack.StackStatusReason))
      else if status == StackStatusCreateComplete then trackStackScan stackName rest true
      else if status == StackStatusUpdateComplete then trackStackScan stackName rest true
      else if status == StackStatusDeleteComplete then trackStackScan stackName rest true
      else trackStackScan stackName rest completed
    else trackStackScan stackName rest completed

/-- `CloudFormation.trackStackCreateUpdateStatus`. -/
def trackStackCreateUpdateStatus (stackName : String) :
    List (Select (Except GoError (List StackDescription))) →
    Option (Option GoError × List Call)
  | [] => none
  | .timeout :: _ =>
    some (some (.plain ("Stack " ++ stackName ++ " failed to update/create within 24 hours...")),
      [])
  | .tick resp :: rest =>
    let call := Call.clientDescribeStacks stackName
    match resp with
    | .error err =>
      match err with
      | .aws code message =>
        if code == "Throttling" then
          withCalls [call] (trackStackCreateUpdateStatus stackName rest)
        else if code == "RequestError" then
          withCalls [call] (trackStackCreateUpdateStatus stackName rest)
        else if code == "ValidationError" then
          if stringsContains message "does not exist" then some (none, [call])
          else some (some err, [call])
        else some (some err, [call])
      | .plain _ => some (some err, [call])
    | .ok listed =>
      match trackStackScan stackName listed false with
      | .error err => some (some err, [call])
      | .ok true => some (none, [call])
      | .ok false => withCalls [call] (trackStackCreateUpdateStatus stackName rest)

/-- `CloudFormation.SetStackPolicy`, given the remote's answer. -/
def SetStackPolicy (stackName stackPolicy : String) (resp : Option GoError) :
    Option GoError × List Call :=
  (resp, [.cfSetStackPolicy stackName stackPolicy, .clientSetStackPolicy stackName stackPolicy])

/-- The submit loop that `CreateNewStack`, `UpdateExistingStack` and `DeleteStack` each
contain with the same body: `call` is the client call made on every tick.  The result is
the error the enclosing function returns from inside the loop, or `none` once the call has
succeeded and the loop is left. -/
def submitLoop (stackName : String) (call : Call) :
    List (Select (Option GoError)) → Option (Option GoError × List Call)
  | [] => none
  | .timeout :: _ => some (some (.plain "too many AWS API calls. Try again later"), [])
  | .tick resp :: rest =>
    match resp with
    | some err =>
      match err with
      | .aws code message =>
        if code == "Throttling" then withCalls [call] (submitLoop stackName call rest)
        else if code == "RequestError" then withCalls [call] (submitLoop stackName call rest)
        else
          some (some (.plain ("unhandled AWS error for stack " ++ stackName ++ "\n" ++ code ++
            " : " ++ message)), [call])
      | .plain _ => some (some err, [call])
    | none => some (none, [call])

/-- What the remote answers during one `DeleteStack`, `UpdateExistingStack` or the first
two loops of `CreateNewStack`: the answers to the submit call and to the status polls. -/
structure SubmitEnv where
  submit : List (Select (Option GoError))
  describeStacks : List (Select (Except GoError (List StackDescription)))

/-- A submit loop followed by `trackStackCreateUpdateStatus`. -/
def submitAndTrack (stackName : String) (call : Call) (env : SubmitEnv) :
    Option (Option GoError × List Call) :=
  match submitLoop stackName call env.submit with
  | none => none
  | some (some err, log) => some (some err, log)
  | some (none, log) => withCalls log (trackStackCreateUpdateStatus stackName env.describeStacks)

/-- `CloudFormation.DeleteStack`. -/
def DeleteStack (opts : DeleteStackOpts) (env : SubmitEnv) :
    Option (Option GoError × List Call) :=
  withCalls [.cfDeleteStack opts]
    (submitAndTrack opts.StackName
      (.clientDeleteStack opts.StackName (if opts.RoleArn != "" then some opts.RoleArn else none))
      env)

/-- The capability list of `CreateNewStack` and `UpdateExistingStack`. -/
def capabilities (serverless : Bool) : List String :=
  if serverless then ["CAPABILITY_NAMED_IAM", "CAPABILITY_AUTO_EXPAND"]
  else ["CAPABILITY_NAMED_IAM"]

/-- The `UpdateStackInput` built by `UpdateExistingStack`. -/
def updateStackInput (opts : CreateStackOpts) (parameters : List Parameter) : StackInput :=
  { StackName := opts.StackName
    Parameters := parameters
    Capabilities := capabilities opts.Serverless
    StackPolicyBody := none
    TemplateBody := if opts.TemplateUrl == "" then some opts.TemplateBody else none
    TemplateURL := if opts.TemplateUrl == "" then none else some opts.TemplateUrl
    RoleARN := if opts.RoleArn != "" then some opts.RoleArn else none }

/-- The `CreateStackInput` built by `CreateNewStack`. -/
def createStackInput (opts : CreateStackOpts) (parameters : List Parameter) : StackInput :=
  { updateStackInput opts parameters with
    StackPolicyBody :=
      if opts.StackPolicy != "" && opts.StackPolicy != "\x7b\x7d" then some opts.StackPolicy
      else none }

/-- `CloudFormation.UpdateExistingStack`. -/
def UpdateExistingStack (lib : GoLib) (cf : CloudFormation) (opts : CreateStackOpts) (env : SubmitEnv) :
    Option (Option GoError × List Call) :=
  withCalls [.cfUpdateExistingStack opts]
    (match resolveParameters lib cf opts.StackName opts.Parameters with
    | .error err => some (some err, [])
    | .ok parameters =>
      submitAndTrack opts.StackName (.clientUpdateStack (updateStackInput opts parameters)) env)

/-- What the remote answers during one `CreateNewStack`: the create call and the status
polls, the `DescribeStacks` made after a failed tracking, and the answers to the k-th
`DeleteStack` the function issues. -/
structure CreateNewStackEnv where
  create : SubmitEnv
  describeAfterFailure : Except GoError (List StackDescription)
  deletes : Nat → SubmitEnv

/-- The loop `for _, s := range res.Stacks` of `CreateNewStack`; `k` counts the
`DeleteStack` calls issued so far.  The result is `some err2` when a delete failed. -/
def deleteRolledBack (stackName : String) (deletes : Nat → SubmitEnv) :
    List StackDescription → Nat → Option (Option GoError × List Call)
  | [], _ => some (none, [])
  | s :: rest, k =>
    if StringValue s.StackName == stackName &&
        StringValue s.StackStatus == StackStatusRollbackComplete then
      match DeleteStack { StackName := stackName, RoleArn := "" } (deletes k) with
      | none => none
      | some (some err2, log) => some (some err2, log)
      | some (none, log) => withCalls log (deleteRolledBack stackName deletes rest (k + 1))
    else deleteRolledBack stackName deletes rest k

/-- `CloudFormation.CreateNewStack`. -/
def CreateNewStack (lib : GoLib) (cf : CloudFormation) (opts : CreateStackOpts)
    (env : CreateNewStackEnv) :
    Option (Option GoError × List Call) :=
  withCalls [.cfCreateNewStack opts]
    (match resolveParameters lib cf opts.StackName opts.Parameters with
    | .error err => some (some err, [])
    | .ok parameters =>
      match submitLoop opts.StackName (.clientCreateStack (createStackInput opts parameters))
          env.create.submit with
      | none => none
      | some (some err, log) => some (some err, log)
      | some (none, log) =>
        match trackStackCreateUpdateStatus opts.StackName env.create.describeStacks with
        | none => none
        | some (none, log2) => some (none, log ++ log2)
        | some (some err, log2) =>
          match env.describeAfterFailure with
          | .error err1 => some (some err1, log ++ log2 ++ [.clientDescribeStacks opts.StackName])
          | .ok listed =>
            match deleteRolledBack opts.StackName env.deletes listed 0 with
            | none => none
            | some (some err2, log3) =>
              some (some err2, log ++ log2 ++ [.clientDescribeStacks opts.StackName] ++ log3)
            | some (none, log3) =>
              some (some err, log ++ log2 ++ [.clientDescribeStacks opts.StackName] ++ log3))

/-- `CloudFormation.ValidateTemplate`, given the remote's answer. -/
def ValidateTemplate (templateUrl : String) (resp : Option GoError) : Option GoError × List Call :=
  (resp, [.clientValidateTemplate templateUrl])

/-- The pass over `res.Stacks` inside `StackExists`: whether it returns `false, nil` from
inside the pass. -/
def listsReviewInProgress (stackName : String) : List StackDescription → Bool
  | [] => false
  | s :: rest =>
    if StringValue s.StackName == stackName &&
        StringValue s.StackStatus == StackStatusReviewInProgress then true
    else listsReviewInProgress stackName rest

/-- `CloudFormation.StackExists`; the result is the returned pair. -/
def StackExists (stackName : String) :
    List (Select (Except GoError (List StackDescription))) →
    Option ((Bool × Option GoError) × List Call)
  | [] => none
  | .timeout :: _ => some ((false, some (.plain "too many AWS API calls. Try again later")), [])
  | .tick resp :: rest =>
    let call := Call.clientDescribeStacks stackName
    match resp with
    | .error err =>
      match err with
      | .aws code message =>
        if code == "Throttling" then withCalls [call] (StackExists stackName rest)
        else if code == "ValidationError" then
          if stringsContains message "S3 error: Access Denied" then
            withCalls [call] (StackExists stackName rest)
          else some ((false, none), [call])
        else if code == "RequestError" then withCalls [call] (StackExists stackName rest)
        else
          some ((false, some (.plain ("unhandled AWS error for stack " ++ stackName ++ "\n" ++
            code ++ " : " ++ message))), [call])
      | .plain _ => some ((false, some err), [call])
    | .ok listed =>
      if listsReviewInProgress stackName listed then some ((false, none), [call])
      else some ((true, none), [call])

/-! ## internal/pkg/stack -/

def DiffSuccessStatus : String := "success"
def DiffFailStatus : String := "failed"
def DiffUnknownStatus : String := "unknown"

/-- `stack.Stack`; `Changes` is a pointer, `none` being nil.  The `Uploader` field holds
no data the program reads. -/
structure Stack where
  StackName : String
  TemplatePath : String
  TemplateRootPath : String
  AbsTemplatePath : String
  TemplateUrl : String
  Action : String
  StackPolicy : PolicyDocument
  Region : String
  UID : String
  Bucket : String
  Parameters : List (String × String)
  DeploymentOrder : Int
  Changes : Option Changes
  SuppressMessages : Bool
  serverless : Bool
  RoleArn : String
  Deployer : CloudFormation

/-- The zero value of `stack.Stack`. -/
def Stack.zero : Stack :=
  { StackName := "", TemplatePath := "", TemplateRootPath := "", AbsTemplatePath := ""
    TemplateUrl := "", Action := "", StackPolicy := { Id := "", Statement := [], Version := "" }
    Region := "", UID := "", Bucket := "", Parameters := [], DeploymentOrder := 0
    Changes := none, SuppressMessages := false, serverless := false, RoleArn := ""
    Deployer := { region := "", values := fun _ _ _ => none } }

def Stack.SetRegion (s : Stack) (region : String) : Stack := { s with Region := region }

def Stack.SetDeploymentOrder (s : Stack) (i : Int) : Stack := { s with DeploymentOrder := i }

def Stack.SetBucket (s : Stack) (bucket : String) : Stack := { s with Bucket := bucket }

def Stack.SetUuid (s : Stack) (uuid : String) : Stack := { s with UID := uuid }

def Stack.getChangeSetName (s : Stack) : String := "changeset-" ++ s.UID ++ "-" ++ s.StackName

/-- What the remote answers during one `Stack.update`. -/
structure UpdateEnv where
  getStackChanges : GetStackChangesEnv
  setStackPolicy : Option GoError
  updateExistingStack : SubmitEnv

/-- The options `Stack.update` passes to `GetStackChanges`. -/
def Stack.updateChangesOpts (s : Stack) (stackPolicy : String) : GetStackChangesOpts :=
  { StackName := s.StackName
    TemplateUrl := s.TemplateUrl
    TemplateBody := ""
    StackPolicy := stackPolicy
    Parameters := s.Parameters
    ChangeSetName := s.getChangeSetName
    Type_ := "UPDATE"
    RoleArn := s.RoleArn }

/-- The options `Stack.update` and `Stack.create` pass to `UpdateExistingStack` and
`CreateNewStack`. -/
def Stack.createStackOpts (s : Stack) (stackPolicy : String) : CreateStackOpts :=
  { StackName := s.StackName
    TemplateUrl := s.TemplateUrl
    TemplateBody := ""
    Parameters := s.Parameters
    StackPolicy := stackPolicy
    Serverless := s.serverless
    RoleArn := s.RoleArn }

/-- The error `Stack.update` returns for a failed `GetStackChanges`. -/
def Stack.updateChangesError (s : Stack) : GoError → Option GoError
  | .aws code message =>
    if code == "ValidationError" then
      if stringsContains message "IN_PROGRESS" then none
      else
        some (.plain ("Unhandled AWS ValidationError for stack " ++ s.StackName ++ "\n" ++ message))
    else some (.plain ("Unhandled AWS error for stack " ++ s.StackName ++ "\n" ++ message))
  | .plain message => some (.plain message)

/-- `Stack.update`. -/
def Stack.update (lib : GoLib) (s : Stack) (env : UpdateEnv) :
    Option (Option GoError × List Call) :=
  match lib.marshalPolicy s.StackPolicy with
  | .error err => some (some err, [])
  | .ok stackPolicy =>
    match GetStackChanges lib s.Deployer (s.updateChangesOpts stackPolicy)
        env.getStackChanges with
    | none => none
    | some (.error err, log) => some (s.updateChangesError err, log)
    | some (.ok changes, log) =>
      let policyStep : Option GoError × List Call :=
        if changes.StackPolicyChange == true && stackPolicy != "\x7b\x7d" then
          SetStackPolicy s.StackName stackPolicy env.setStackPolicy
        else (none, [])
      match policyStep with
      | (some err, log2) => some (some err, log ++ log2)
      | (none, log2) =>
        if changes.Resources.length == 0 && changes.ForceStackUpdate == false then
          some (none, log ++ log2)
        else
          withCalls (log ++ log2)
            (UpdateExistingStack lib s.Deployer (s.createStackOpts stackPolicy)
              env.updateExistingStack)

/-- `Stack.delete`. -/
def Stack.delete (s : Stack) (env : SubmitEnv) : Option (Option GoError × List Call) :=
  DeleteStack { StackName := s.StackName, RoleArn := s.RoleArn } env

/-- `Stack.create`. -/
def Stack.create (lib : GoLib) (s : Stack) (env : CreateNewStackEnv) :
    Option (Option GoError × List Call) :=
  match lib.marshalPolicy s.StackPolicy with
  | .error err => some (some err, [])
  | .ok stackPolicy => CreateNewStack lib s.Deployer (s.createStackOpts stackPolicy) env

/-- The first part of `Stack.uploadTemplate`: the assignments to `AbsTemplatePath` and
`TemplateUrl` made before the template is inspected and uploaded. -/
def Stack.setTemplateLocation (lib : GoLib) (s : Stack) : Stack :=
  let s1 : Stack :=
    { s with
      AbsTemplatePath := s.TemplatePath
      TemplateUrl :=
        "https://s3-" ++ s.Region ++ ".amazonaws.com/" ++ s.Bucket ++ "/" ++ s.UID ++
          s.TemplatePath }
  let s2 : Stack :=
    if !filepathIsAbs s1.TemplatePath then
      { s1 with
        AbsTemplatePath := lib.filepathJoin s1.TemplateRootPath s1.TemplatePath
        TemplateUrl :=
          "https://s3-" ++ s1.Region ++ ".amazonaws.com/" ++ s1.Bucket ++ "/" ++ s1.UID ++ "/" ++
            s1.TemplatePath }
    else s1
  if s2.Region == "us-east-1" then
    { s2 with TemplateUrl := stringsReplaceAll s2.TemplateUrl "https://s3-" "https://s3." }
  else s2

/-- What the file system and the object store answer during one `uploadTemplate`:
`templates.IsServerlessTemplate`, `packageServerlessTemplate` (the `AbsTemplatePath` it
assigned, if it got that far, and its error) and `UploadToS3`. -/
structure UploadEnv where
  isServerlessTemplate : Except GoError Bool
  packaged : Option String × Option GoError
  upload : Option GoError

/-- `Stack.uploadTemplate`: the stack afterwards, the returned error and the uploads
requested for the template itself. -/
def Stack.uploadTemplate (lib : GoLib) (s : Stack) (env : UploadEnv) :
    Stack × Option GoError × List Call :=
  let s1 := s.setTemplateLocation lib
  match env.isServerlessTemplate with
  | .error err => (s1, some err, [])
  | .ok isServerLessStack =>
    let packed : Stack × Option GoError :=
      if isServerLessStack then
        ({ s1 with serverless := true, AbsTemplatePath := env.packaged.1.getD s1.AbsTemplatePath },
          env.packaged.2)
      else (s1, none)
    match packed with
    | (s2, some err) => (s2, some err, [])
    | (s2, none) =>
      (s2, env.upload, [.UploadToS3 s2.Bucket s2.AbsTemplatePath (s2.UID ++ "/" ++ s2.TemplatePath)])

/-- What the file system, the object store and the remote answer during one
`Stack.Deploy`: the template upload, `ValidateTemplate`, the polls of `StackExists`, and
the branch taken afterwards. -/
structure DeployEnv where
  upload : UploadEnv
  validateTemplate : Option GoError
  describeStacks : List (Select (Except GoError (List StackDescription)))
  delete : SubmitEnv
  update : UpdateEnv
  create : CreateNewStackEnv

/-- The part of `Stack.Deploy` after `StackExists` has answered. -/
def Stack.deployAction (lib : GoLib) (s : Stack) (stackExists : Bool) (env : DeployEnv) :
    Option (Option GoError × List Call) :=
  if s.Action == "DELETE" then
    if stackExists then s.delete env.delete else some (none, [])
  else if stackExists then s.update lib env.update
  else s.create lib env.create

/-- The part of `Stack.Deploy` and `Stack.Diff` from `ValidateTemplate` to the answer of
`StackExists`: the error returned there, or whether the stack exists. -/
def Stack.validateAndCheck (s : Stack) (validateTemplate : Option GoError)
    (describeStacks : List (Select (Except GoError (List StackDescription)))) :
    Option (Except GoError Bool × List Call) :=
  match ValidateTemplate s.TemplateUrl validateTemplate with
  | (some err, log) => some (.error err, log)
  | (none, log) =>
    match StackExists s.StackName describeStacks with
    | none => none
    | some ((_, some err), log2) => some (.error err, log ++ log2)
    | some ((stackExists, none), log2) => some (.ok stackExists, log ++ log2)

/-- `Stack.Deploy`: the returned error, the stack afterwards and the calls made. -/
def Stack.Deploy (lib : GoLib) (s : Stack) (env : DeployEnv) :
    Option (Option GoError × Stack × List Call) :=
  let uploaded : Stack × Option GoError × List Call :=
    if s.TemplateUrl.length == 0 then s.uploadTemplate lib env.upload else (s, none, [])
  match uploaded with
  | (s, some err, log) => some (some err, s, log)
  | (s, none, log) =>
    match s.validateAndCheck env.validateTemplate env.describeStacks with
    | none => none
    | some (.error err, log2) => some (some err, s, log ++ log2)
    | some (.ok stackExists, log2) =>
      match s.deployAction lib stackExists env with
      | none => none
      | some (err, log3) => some (err, s, log ++ log2 ++ log3)

/-- The inner loop `for j := i; j > a && less(j, j-1); j-- { swap(j, j-1) }`: `x` is the
element at index `i` and the sorted part before it is given in reverse. -/
def sinkLeft {α : Type} (less : α → α → Bool) (x : α) : List α → List α
  | [] => [x]
  | y :: ys => if less x y then y :: sinkLeft less x ys else x :: y :: ys

/-- Go `sort.Slice(data, less)`. -/
def sortSlice {α : Type} (less : α → α → Bool) (data : List α) : List α :=
  (data.foldl (fun sortedRev x => sinkLeft less x sortedRev) []).reverse

/-! ## internal/pkg/worker -/

def MaxWorker : Int := 50
def MinWorker : Int := 1

/-- The values `i` taken by `for i := 1; i <= workers; i++`, whose body starts one
goroutine. -/
def spawnIds (workers : Int) : List Int :=
  (List.range workers.toNat).map (fun (k : Nat) => (k : Int) + 1)

structure RegionDeployWorkerJob where
  Region : String
  Stacks : List Stack
  Profile : String
  StackDeployWorkers : Int
  Uid : String
  TemplatesRoot : String
  Values : String → String → String → Option String
  Role : String
  ParallelMode : Bool

structure RegionDeployWorkerResult where
  Region : String
  Err : Option GoError

structure stackDeployWorkerJob where
  region : String
  bucket : String
  stack : Stack
  profile : String
  parallelMode : Bool

structure stackDeployWorkerResult where
  Stack : Stack
  Err : Option GoError

structure RegionDiffWorkerJob where
  Region : String
  Stacks : List Stack
  Profile : String
  StackDiffWorker : Int
  Uid : String
  TemplatesRoot : String
  Values : String → String → String → Option String
  Role : String

structure RegionDiffWorkerResult where
  Region : String
  Stacks : List Stack
  Err : Option GoError

structure stackDiffWorkerJob where
  region : String
  bucket : String
  stack : Stack

structure stackDiffWorkerResult where
  Stack : Stack
  Err : Option GoError

/-- The ids of the stack deploy workers `RegionDeployWorker` starts for a job. -/
def RegionDeployWorker_spawn (regionWorkerJob : RegionDeployWorkerJob) : List Int :=
  let workers := regionWorkerJob.StackDeployWorkers
  let workers :=
    if (regionWorkerJob.Stacks.length : Int) < workers then (regionWorkerJob.Stacks.length : Int)
    else workers
  spawnIds workers

/-- The stack jobs `RegionDeployWorker` sends, in order, for a job whose bucket lookup
answered `bucket`. -/
def RegionDeployWorker_dispatch (regionWorkerJob : RegionDeployWorkerJob) (bucket : String) :
    List stackDeployWorkerJob :=
  regionWorkerJob.Stacks.enum.map fun (i, s) =>
    let s := s.SetRegion regionWorkerJob.Region
    let s := s.SetUuid regionWorkerJob.Uid
    let s := s.SetBucket bucket
    let s := s.SetDeploymentOrder i
    let s : Stack :=
      { s with
        TemplateRootPath := regionWorkerJob.TemplatesRoot
        Deployer := { region := regionWorkerJob.Region, values := regionWorkerJob.Values }
        RoleArn := regionWorkerJob.Role
        SuppressMessages := regionWorkerJob.ParallelMode }
    { region := regionWorkerJob.Region
      bucket := bucket
      stack := s
      profile := regionWorkerJob.Profile
      parallelMode := regionWorkerJob.ParallelMode }

/-- The body of `stackDeployWorker` for one job: the results whose send on the results
channel it reaches, in order, and whether the loop was left (`waitGroup.Done()` reached)
within the events given.  The capacity of the channel is not modelled.  `deploy s e` is what
`s.Deploy()` returns, and the stack afterwards, when the remote behaves as `e` describes
during that call. -/
def stackDeployWorker {E : Type} (deploy : Stack → E → Option GoError × Stack) (s : Stack) :
    List (Select E) → List stackDeployWorkerResult × Bool
  | [] => ([], false)
  | .timeout :: rest =>
    let (sent, left) := stackDeployWorker deploy s rest
    ({ Stack := s, Err := some (.plain "too many AWS API calls. Try again later") } :: sent, left)
  | .tick e :: rest =>
    let (err, s) := deploy s e
    match err with
    | some (.aws code message) =>
      if code == "Throttling" then stackDeployWorker deploy s rest
      else if code == "ValidationError" then
        if stringsContains message "S3 error: Access Denied" then stackDeployWorker deploy s rest
        else ([{ Stack := s, Err := err }], true)
      else if code == "RequestError" then stackDeployWorker deploy s rest
      else if code == "ChangeSetNotFound" then stackDeployWorker deploy s rest
      else ([{ Stack := s, Err := err }], true)
    | _ => ([{ Stack := s, Err := err }], true)

/-- The body of `stackDiffWorker` for one job, as `stackDeployWorker`; `diff s e` is what
`s.Diff()` returns and the stack afterwards. -/
def stackDiffWorker {E : Type} (diff : Stack → E → Option GoError × Stack) (s : Stack) :
    List (Select E) → List stackDiffWorkerResult × Bool
  | [] => ([], false)
  | .timeout :: rest =>
    let (sent, left) := stackDiffWorker diff s rest
    ({ Stack := Stack.zero, Err := some (.plain "too many AWS API calls. Try again later") } ::
      sent, left)
  | .tick e :: rest =>
    let (err, s) := diff s e
    match err with
    | some (.aws code message) =>
      if code == "Throttling" then stackDiffWorker diff s rest
      else if code == "ValidationError" then
        if stringsContains message "S3 error: Access Denied" then stackDiffWorker diff s rest
        else ([{ Stack := s, Err := err }], true)
      else if code == "RequestError" then stackDiffWorker diff s rest
      else if code == "ChangeSetNotFound" then stackDiffWorker diff s rest
      else ([{ Stack := s, Err := err }], true)
    | _ => ([{ Stack := s, Err := err }], true)

/-- The ids of the stack diff workers `RegionDiffWorker` starts for a job. -/
def RegionDiffWorker_spawn (regionWorkerJob : RegionDiffWorkerJob) : List Int :=
  let workers := regionWorkerJob.StackDiffWorker
  let workers :=
    if (regionWorkerJob.Stacks.length : Int) < MaxWorker then (regionWorkerJob.Stacks.length : Int)
    else workers
  spawnIds workers

/-- The stack jobs `RegionDiffWorker` sends, in order. -/
def RegionDiffWorker_dispatch (regionWorkerJob : RegionDiffWorkerJob) (bucket : String) :
    List stackDiffWorkerJob :=
  regionWorkerJob.Stacks.enum.map fun (i, s) =>
    let s := s.SetRegion regionWorkerJob.Region
    let s := s.SetUuid regionWorkerJob.Uid
    let s := s.SetBucket bucket
    let s := s.SetDeploymentOrder i
    let s : Stack :=
      { s with
        TemplateRootPath := regionWorkerJob.TemplatesRoot
        Changes := some { Status := "", StatusReason := "", Resources := []
                          StackPolicyChange := false, ForceStackUpdate := false }
        Deployer := { region := regionWorkerJob.Region, values := regionWorkerJob.Values }
        RoleArn := regionWorkerJob.Role }
    { region := regionWorkerJob.Region, bucket := bucket, stack := s }

/-- The status and reason `RegionDiffWorker` records on `s.Changes` for a result with
error `err`. -/
def diffFailure (stackName : String) (err : GoError) : String × String :=
  match err with
  | .aws code message =>
    if code == "ValidationError" then
      if stringsContains message "IN_PROGRESS" then (DiffUnknownStatus, message)
      else
        (DiffFailStatus,
          "Unhandled AWS ValidationError for stack " ++ stackName ++ "\n" ++ message)
    else (DiffFailStatus, message)
  | .plain _ => (DiffFailStatus, err.Error)

/-- One iteration of the collecting loop of `RegionDiffWorker` on a received result:
the new `out` and `errResult`, or `none` when `s.Changes` is nil where it is dereferenced
(the goroutine panics). -/
def RegionDiffWorker_receive (region : String) (out : List Stack) (errResult : Option GoError)
    (diffWorkerResult : stackDiffWorkerResult) : Option (List Stack × Option GoError) :=
  let s := diffWorkerResult.Stack
  match diffWorkerResult.Err with
  | some err =>
    if stringsContains err.Error "No updates are to be performed" then some (out, errResult)
    else
      match s.Changes with
      | none => none
      | some changes =>
        let (status, reason) := diffFailure s.StackName err
        let s : Stack := { s with Changes := some { changes with Status := status
                                                                 StatusReason := reason } }
        let errResult :=
          if status == DiffFailStatus then
            some (GoError.plain ("diff for few stacks in " ++ region ++ " region has failed"))
          else errResult
        some (out ++ [s], errResult)
  | none =>
    match s.Changes with
    | none => none
    | some changes =>
      if changes.StackPolicyChange || changes.ForceStackUpdate ||
          decide (changes.Resources.length > 0) then
        some (out ++ [{ s with Changes := some { changes with Status := DiffSuccessStatus } }],
          errResult)
      else some (out, errResult)

/-- The collecting loop of `RegionDiffWorker` over the results in the order received. -/
def RegionDiffWorker_collect (region : String) :
    List stackDiffWorkerResult → List Stack → Option GoError → Option (List Stack × Option GoError)
  | [], out, errResult => some (out, errResult)
  | r :: rest, out, errResult =>
    match RegionDiffWorker_receive region out errResult r with
    | none => none
    | some (out, errResult) => RegionDiffWorker_collect region rest out errResult

/-- The result `RegionDiffWorker` sends for a region after its stack results arrived in
the order `received`; `errResult` is the worker's variable as the region job starts. -/
def RegionDiffWorker_report (region : String) (errResult : Option GoError)
    (received : List stackDiffWorkerResult) : Option RegionDiffWorkerResult :=
  match RegionDiffWorker_collect region received [] errResult with
  | none => none
  | some (out, errResult) =>
    some { Region := region
           Stacks := sortSlice (fun a b => decide (a.DeploymentOrder < b.DeploymentOrder)) out
           Err := errResult }

/-- What region setup answers for one region job: the error of `session.NewSession` (the
session is nil when there is one) and the answer of the bucket lookup
`GetStackResourcePhysicalId("cfstack-Init", "TemplatesS3Bucket")`. -/
structure RegionSetup where
  session : Option GoError
  bucket : Except GoError String

/-- What a region worker does for one region job: the region results it sends, in order,
the number of `wg.Done()` calls, the stack jobs it sends to its stack workers, and whether
the goroutine panicked (on the nil session, which `cloudformation.New` dereferences). -/
structure RegionTrace (Job Result : Type) where
  results : List Result
  done : Nat
  dispatched : List Job
  panicked : Bool

/-- The collecting loop of `RegionDeployWorker` over the stack results in the order
received: the value of `errStacks` after it. -/
def RegionDeployWorker_collect :
    List stackDeployWorkerResult → List String → List String
  | [], errStacks => errStacks
  | deployWorkerResult :: rest, errStacks =>
    match deployWorkerResult.Err with
    | some _ =>
      RegionDeployWorker_collect rest (errStacks ++ [deployWorkerResult.Stack.StackName])
    | none => RegionDeployWorker_collect rest errStacks

/-- The body of the job loop of `RegionDeployWorker` for one region job: `errResult` is
the worker's variable as the job starts, `received` the stack results in the order they
are read.  The result is what the worker did and the variable afterwards. -/
def RegionDeployWorker_job (errResult : Option GoError) (regionWorkerJob : RegionDeployWorkerJob)
    (setup : RegionSetup) (received : List stackDeployWorkerResult) :
    RegionTrace stackDeployWorkerJob RegionDeployWorkerResult × Option GoError :=
  let region := regionWorkerJob.Region
  match setup.session with
  | some err =>
    ({ results := [{ Region := region, Err := some err }], done := 1, dispatched := []
       panicked := true }, errResult)
  | none =>
    let afterLookup : String × List RegionDeployWorkerResult × Nat :=
      match setup.bucket with
      | .error err => ("", [{ Region := region, Err := some err }], 1)
      | .ok bucket => (bucket, [], 0)
    let bucket := afterLookup.1
    let errStacks := RegionDeployWorker_collect received []
    let errResult :=
      if errStacks.length > 0 then
        some (GoError.plain ("Deployments failed for stack(s) " ++ stringsJoin errStacks ", " ++
          " in region " ++ region))
      else errResult
    ({ results := afterLookup.2.1 ++ [{ Region := region, Err := errResult }]
       done := afterLookup.2.2 + 1
       dispatched := RegionDeployWorker_dispatch regionWorkerJob bucket
       panicked := false }, errResult)

/-- `RegionDeployWorker`: the job loop over the region jobs the worker takes, each with
what its setup answers and the stack results it reads; `errResult` is declared before the
loop.  The loop ends with the goroutine when a job panics. -/
def RegionDeployWorker_loop (errResult : Option GoError) :
    List (RegionDeployWorkerJob × RegionSetup × List stackDeployWorkerResult) →
    List (RegionTrace stackDeployWorkerJob RegionDeployWorkerResult)
  | [] => []
  | (regionWorkerJob, setup, received) :: rest =>
    let step := RegionDeployWorker_job errResult regionWorkerJob setup received
    if step.1.panicked then [step.1] else step.1 :: RegionDeployWorker_loop step.2 rest

/-- `RegionDeployWorker` from its start, where `errResult` is nil. -/
def RegionDeployWorker
    (jobs : List (RegionDeployWorkerJob × RegionSetup × List stackDeployWorkerResult)) :
    List (RegionTrace stackDeployWorkerJob RegionDeployWorkerResult) :=
  RegionDeployWorker_loop none jobs

/-- The body of the job loop of `RegionDiffWorker` for one region job, as
`RegionDeployWorker_job`; a nil `Changes` met by the collecting loop is a panic as well. -/
def RegionDiffWorker_job (errResult : Option GoError) (regionWorkerJob : RegionDiffWorkerJob)
    (setup : RegionSetup) (received : List stackDiffWorkerResult) :
    RegionTrace stackDiffWorkerJob RegionDiffWorkerResult × Option GoError :=
  let region := regionWorkerJob.Region
  match setup.session with
  | some err =>
    ({ results := [{ Region := region, Stacks := [], Err := some err }], done := 1
       dispatched := [], panicked := true }, errResult)
  | none =>
    let afterLookup : String × List RegionDiffWorkerResult × Nat :=
      match setup.bucket with
      | .error err => ("", [{ Region := region, Stacks := [], Err := some err }], 1)
      | .ok bucket => (bucket, [], 0)
    let bucket := afterLookup.1
    match RegionDiffWorker_report region errResult received with
    | none =>
      ({ results := afterLookup.2.1, done := afterLookup.2.2
         dispatched := RegionDiffWorker_dispatch regionWorkerJob bucket, panicked := true },
        errResult)
    | some result =>
      ({ results := afterLookup.2.1 ++ [result], done := afterLookup.2.2 + 1
         dispatched := RegionDiffWorker_dispatch regionWorkerJob bucket, panicked := false },
        result.Err)

/-- `RegionDiffWorker`: the job loop, as `RegionDeployWorker_loop`. -/
def RegionDiffWorker_loop (errResult : Option GoError) :
    List (RegionDiffWorkerJob × RegionSetup × List stackDiffWorkerResult) →
    List (RegionTrace stackDiffWorkerJob RegionDiffWorkerResult)
  | [] => []
  | (regionWorkerJob, setup, received) :: rest =>
    let step := RegionDiffWorker_job errResult regionWorkerJob setup received
    if step.1.panicked then [step.1] else step.1 :: RegionDiffWorker_loop step.2 rest

/-- `RegionDiffWorker` from its start, where `errResult` is nil. -/
def RegionDiffWorker
    (jobs : List (RegionDiffWorkerJob × RegionSetup × List stackDiffWorkerResult)) :
    List (RegionTrace stackDiffWorkerJob RegionDiffWorkerResult) :=
  RegionDiffWorker_loop none jobs

/-- What a goroutine of a worker pool does next: worker `worker` receives the next job
from the jobs channel, or leaves the loop body for the job it holds. -/
inductive PoolEvent where
  | take (worker : Int)
  | finish (worker : Int)
  deriving DecidableEq, Repr

/-- What a worker pool has done: a job was received by a worker, or its loop body ended. -/
inductive PoolStep (J : Type) where
  | started (worker : Int) (job : J)
  | finished (worker : Int) (job : J)

/-- A pool of goroutines that each run `for job := range jobs \x7b ... \x7d`, as
`RegionDeployWorker` and `stackDeployWorker` do: the jobs still on the channel, first sent
first, and the workers inside the loop body with the job they hold. -/
structure PoolState (J : Type) where
  queue : List J
  busy : List (Int × J)

/-- One step of a pool with the workers `workers`.  A worker that is started and holds no
job receives the job at the head of the channel; a worker that holds a job ends its loop
body.  The result is what happened and the pool afterwards, or `none` when the step cannot
happen. -/
def poolStep {J : Type} (workers : List Int) (st : PoolState J) :
    PoolEvent → Option (PoolStep J × PoolState J)
  | .take w =>
    if workers.contains w && (st.busy.lookup w).isNone then
      match st.queue with
      | [] => none
      | job :: rest => some (.started w job, { queue := rest, busy := st.busy ++ [(w, job)] })
    else none
  | .finish w =>
    match st.busy.lookup w with
    | none => none
    | some job =>
      some (.finished w job, { queue := st.queue, busy := st.busy.filter (fun p => p.1 != w) })

/-- What happens next in a pool of region workers each of which runs a pool of stack
workers inside its loop body: a region worker receives the next region job, a stack worker
of the pool of region worker `regionWorker` makes a step, or region worker `regionWorker`
leaves its loop body. -/
inductive NestedEvent where
  | take (regionWorker : Int)
  | inner (regionWorker : Int) (event : PoolEvent)
  | finish (regionWorker : Int)
  deriving DecidableEq, Repr

/-- What the pools have done: a region job was received, a stack pool made a step, or the
loop body for a region job ended. -/
inductive NestedStep (J K : Type) where
  | started (regionWorker : Int) (job : J)
  | inner (regionWorker : Int) (step : PoolStep K)
  | finished (regionWorker : Int) (job : J)

/-- The region jobs still on the channel, and the region workers inside their loop body
with the job they hold and the pool of stack workers they started for it. -/
structure NestedState (J K : Type) where
  queue : List J
  busy : List (Int × J × PoolState K)

/-- One step of the pools of `DeployOpts.Run`: `workers` are the region workers, and for a
region job `job` the loop body of `RegionDeployWorker` starts the stack workers
`innerWorkers job` and sends them the stack jobs `innerJobs job`.  The loop body ends after
`stackDeployWorkerWaitGroup.Wait()` has returned, that is when no stack job is left on the
channel or in progress. -/
def nestedStep {J K : Type} (workers : List Int) (innerWorkers : J → List Int)
    (innerJobs : J → List K) (st : NestedState J K) :
    NestedEvent → Option (NestedStep J K × NestedState J K)
  | .take w =>
    if workers.contains w && (st.busy.lookup w).isNone then
      match st.queue with
      | [] => none
      | job :: rest =>
        some (.started w job,
          { queue := rest, busy := st.busy ++ [(w, job, { queue := innerJobs job, busy := [] })] })
    else none
  | .inner w e =>
    match st.busy.lookup w with
    | none => none
    | some (job, pool) =>
      match poolStep (innerWorkers job) pool e with
      | none => none
      | some (step, next) =>
        some (.inner w step,
          { queue := st.queue
            busy := st.busy.map (fun b => if b.1 == w then (w, job, next) else b) })
  | .finish w =>
    match st.busy.lookup w with
    | none => none
    | some (job, pool) =>
      if pool.queue.isEmpty && pool.busy.isEmpty then
        some (.finished w job, { queue := st.queue, busy := st.busy.filter (fun b => b.1 != w) })
      else none

/-- The steps made and the pools afterwards when `events` happen in turn, or `none` when
one of them cannot happen. -/
def nestedRun {J K : Type} (workers : List Int) (innerWorkers : J → List Int)
    (innerJobs : J → List K) :
    NestedState J K → List NestedEvent → Option (List (NestedStep J K) × NestedState J K)
  | st, [] => some ([], st)
  | st, e :: rest =>
    match nestedStep workers innerWorkers innerJobs st e with
    | none => none
    | some (step, next) =>
      match nestedRun workers innerWorkers innerJobs next rest with
      | none => none
      | some (steps, final) => some (step :: steps, final)

/-- The number of stack jobs in progress. -/
def NestedState.inProgress {J K : Type} (st : NestedState J K) : Nat :=
  (st.busy.map (fun b => b.2.2.busy.length)).sum

structure Region where
  Name : String
  Stacks : List Stack

structure Manifest where
  Regions : List Region
  ParallelDeployment : Bool

structure DeployOpts where
  manifestFile : String
  valuesFile : String
  profile : String
  role : String
  workers : Int
  uid : String
  templatesRoot : String
  manifest : Manifest
  values : String → String → String → Option String

/-- What the file system and the UUID generator answer during `DeployOpts.preRun`:
`filepath.Abs(filepath.Dir(manifestFile))`, `manifest.Parse`, `util.ParseJsonFile` and
`uuid.NewUUID`. -/
structure PreRunEnv where
  absDir : Except GoError String
  parse : Except GoError Manifest
  parseValues : Except GoError (String → String → String → Option String)
  newUUID : Except GoError String

/-- `DeployOpts.preRun`: the options afterwards, or the returned error. -/
def DeployOpts.preRun (lib : GoLib) (opts : DeployOpts) (env : PreRunEnv) :
    Except GoError DeployOpts :=
  match env.absDir with
  | .error err => .error err
  | .ok templatesRoot =>
    let opts := { opts with templatesRoot := templatesRoot }
    match env.parse with
    | .error err => .error err
    | .ok parsed =>
      let opts := { opts with manifest := parsed }
      let withValues : Except GoError DeployOpts :=
        if opts.valuesFile.length > 0 then
          let opts :=
            if !filepathIsAbs opts.valuesFile then
              { opts with valuesFile := lib.filepathJoin templatesRoot opts.valuesFile }
            else opts
          match env.parseValues with
          | .error err => .error err
          | .ok v => .ok { opts with values := v }
        else .ok opts
      match withValues with
      | .error err => .error err
      | .ok opts =>
        let opts := if !opts.manifest.ParallelDeployment then { opts with workers := 1 } else opts
        match env.newUUID with
        | .error err => .error err
        | .ok uid => .ok { opts with uid := uid }

/-- The ids of the region workers `DeployOpts.Run` starts. -/
def DeployOpts.Run_spawn (opts : DeployOpts) : List Int :=
  let workers : Int := 1
  let workers :=
    if opts.manifest.ParallelDeployment then (opts.manifest.Regions.length : Int) else workers
  spawnIds workers

/-- The region jobs `DeployOpts.Run` sends, in order. -/
def DeployOpts.Run_jobs (opts : DeployOpts) : List RegionDeployWorkerJob :=
  opts.manifest.Regions.map fun region =>
    { Region := region.Name
      Stacks := region.Stacks
      Profile := opts.profile
      StackDeployWorkers := opts.workers
      Uid := opts.uid
      TemplatesRoot := opts.templatesRoot
      Values := opts.values
      Role := opts.role
      ParallelMode := opts.manifest.ParallelDeployment }

/-- The collecting loop of `DeployOpts.Run` over the region results in the order
received: the value of `errRegions` after it. -/
def DeployOpts.Run_collect : List RegionDeployWorkerResult → List String → List String
  | [], errRegions => errRegions
  | result :: rest, errRegions =>
    match result.Err with
    | some _ => DeployOpts.Run_collect rest (errRegions ++ [result.Region])
    | none => DeployOpts.Run_collect rest errRegions

/-- What `DeployOpts.Run` returns after reading the region results `results`. -/
def DeployOpts.Run_result (results : List RegionDeployWorkerResult) : Option GoError :=
  let errRegions := DeployOpts.Run_collect results []
  if errRegions.length > 0 then
    some (.plain ("Deployment failed in region(s): " ++ stringsJoin errRegions ", "))
  else none

structure DiffOpts where
  manifestFile : String
  valuesFile : String
  workers : Int
  profile : String
  role : String
  uid : String
  templatesRoot : String
  manifest : Manifest
  values : String → String → String → Option String

/-- The collecting loop of `DiffOpts.Run` over the region results in the order received:
the values of `out` and `errResult` after it. -/
def DiffOpts.Run_collect :
    List RegionDiffWorkerResult → List Region → Option GoError → List Region × Option GoError
  | [], out, errResult => (out, errResult)
  | result :: rest, out, errResult =>
    let out :=
      if result.Stacks.length > 0 then out ++ [{ Name := result.Region, Stacks := result.Stacks }]
      else out
    let errResult :=
      match result.Err with
      | some _ =>
        some (GoError.plain ("diff for " ++ result.Region ++ " has failed with a few errors"))
      | none => errResult
    DiffOpts.Run_collect rest out errResult

/-- What `json.MarshalIndent` and `util.WriteToFile` answer at the end of `DiffOpts.Run`. -/
structure DiffWriteEnv where
  marshalIndent : Manifest → Except GoError String
  writeToFile : String → Option GoError

/-- What `DiffOpts.Run` returns after reading the region results `results`. -/
def DiffOpts.Run_result (opts : DiffOpts) (env : DiffWriteEnv)
    (results : List RegionDiffWorkerResult) : Option GoError :=
  let collected := DiffOpts.Run_collect results [] none
  let res : Manifest :=
    { Regions := collected.1, ParallelDeployment := opts.manifest.ParallelDeployment }
  match env.marshalIndent res with
  | .error err => some err
  | .ok s =>
    match env.writeToFile s with
    | some err => some err
    | none => collected.2

/-- What `validateManifestFile` takes from libraries: `validate.Struct` of the validator
package on a region and on a stack, given as the `Field()` names of the validation errors
in order (empty when the returned error is nil), and the region identifiers of each
partition of `endpoints.DefaultResolver()`. -/
structure ManifestLib where
  validateRegion : Region → List String
  validateStack : Stack → List String
  partitions : List (List String)

/-- The loop over `region.Stacks` in `validateManifestFile`, from index `j`. -/
def validateStacks (lib : ManifestLib) (regionName : String) : List Stack → Nat → Option GoError
  | [], _ => none
  | s :: rest, j =>
    match lib.validateStack s with
    | e :: _ =>
      if e == "StackName" then
        some (.plain ("Stack name is missing for " ++ toString j ++ " element"))
      else
        some (.plain ("Missing field " ++ e ++ " for stack " ++ s.StackName ++ " in Region " ++
          regionName))
    | [] => validateStacks lib regionName rest (j + 1)

/-- The count `cnt` of partition regions whose id equals `name`. -/
def countRegionIds (partitions : List (List String)) (name : String) : Nat :=
  (partitions.map (fun p => (p.filter (fun id => name == id)).length)).sum

/-- The loop over `manifest.Regions` in `validateManifestFile`, from index `i`. -/
def validateRegions (lib : ManifestLib) : List Region → Nat → Option GoError
  | [], _ => none
  | region :: rest, i =>
    match lib.validateRegion region with
    | e :: _ =>
      if e == "Name" then
        some (.plain ("Region name is missing for " ++ toString i ++ " element"))
      else some (.plain ("Missing field " ++ e ++ " for region " ++ region.Name))
    | [] =>
      if countRegionIds lib.partitions region.Name == 0 then
        some (.plain (region.Name ++ " is not a valid region"))
      else
        match validateStacks lib region.Name region.Stacks 0 with
        | some err => some err
        | none => validateRegions lib rest (i + 1)

/-- `Manifest.validateManifestFile`.  The `validate.Struct(manifest)` call only logs. -/
def Manifest.validateManifestFile (lib : ManifestLib) (manifest : Manifest) : Option GoError :=
  if manifest.Regions.length == 0 then some (.plain "No Regions found")
  else validateRegions lib manifest.Regions 0

/-! ## Predicates on call logs and sample inputs -/

/-- Calls that submit a stack update or a stack policy: entering `UpdateExistingStack` or
`SetStackPolicy`, and the client calls they make. -/
def Call.submitsUpdate : Call → Bool
  | .cfUpdateExistingStack _ => true
  | .clientUpdateStack _ => true
  | .cfSetStackPolicy _ _ => true
  | .clientSetStackPolicy _ _ => true
  | _ => false

/-- Calls that belong to the changeset diff protocol. -/
def Call.isChangeSetCall : Call → Bool
  | .cfGetStackChanges _ => true
  | .clientGetStackPolicy _ => true
  | .clientCreateChangeSet _ => true
  | .clientDescribeChangeSet _ _ => true
  | .clientDeleteChangeSet _ _ => true
  | _ => false

/-- A library whose calls all succeed: strings are returned as they are and every policy
document serialises to the empty object. -/
def sampleLib : GoLib :=
  { unquote := fun t => .ok t
    marshalPolicy := fun _ => .ok "\x7b\x7d"
    reserialisePolicy := fun t => .ok t
    filepathJoin := fun a b => a ++ "/" ++ b }

/-- A `DescribeChangeSet` answer `FAILED` with the no-change reason. -/
def noChangeAnswer : DescribeChangeSetOutput :=
  { Status := some ChangeSetStatusFailed, StatusReason := some noChangeErrorReason, Changes := [] }

/-- A remote on which the changeset of an update comes back without changes. -/
def noChangeEnv : GetStackChangesEnv :=
  { getStackPolicy := .ok (some "\x7b\x7d")
    createChangeSet := none
    describeChangeSet := [.tick (.ok noChangeAnswer)]
    deleteChangeSet := none }

/-- The host of an `https://` URL: what stands between the scheme and the first slash. -/
def urlHost (url : String) : String :=
  ⟨(url.toList.drop "https://".length).takeWhile (fun c => c != '/')⟩

/-- A stack of the given region with a relative template path. -/
def stackIn (region : String) : Stack :=
  { Stack.zero with
    StackName := "vpc", Region := region, Bucket := "templates", UID := "run1"
    TemplatePath := "vpc/vpc.json" }

/-- Events on which `trackChangeSetCreateStatus` polls again: a throttled call, or a
status that is neither `FAILED` nor `CREATE_COMPLETE`. -/
def keepsTrackingChangeSet : Select (Except GoError DescribeChangeSetOutput) → Bool
  | .tick (.error (.aws code _)) => code == "Throttling"
  | .tick (.ok res) =>
    StringValue res.Status != ChangeSetStatusFailed &&
      StringValue res.Status != ChangeSetStatusCreateComplete
  | _ => false

/-- A `DescribeChangeSet` answer for a changeset still being created. -/
def pendingAnswer : DescribeChangeSetOutput :=
  { Status := some "CREATE_IN_PROGRESS", StatusReason := none, Changes := [] }

/-- A `DescribeChangeSet` answer `CREATE_COMPLETE` listing two changes. -/
def twoChangesAnswer : DescribeChangeSetOutput :=
  { Status := some ChangeSetStatusCreateComplete
    StatusReason := none
    Changes :=
      [⟨⟨some "Bucket", some "AWS::S3::Bucket", some "Modify", some "False"⟩⟩,
        ⟨⟨some "Queue", some "AWS::SQS::Queue", some "Add", none⟩⟩] }

/-- Entries into `CloudFormation.DeleteStack`. -/
def Call.isDeleteStackEntry : Call → Bool
  | .cfDeleteStack _ => true
  | _ => false

/-- The test of the loop over `res.Stacks` in `CreateNewStack`: the listed stack has the
requested name and is in `ROLLBACK_COMPLETE`. -/
def isRolledBack (stackName : String) (s : StackDescription) : Bool :=
  StringValue s.StackName == stackName && StringValue s.StackStatus == StackStatusRollbackComplete

/-- `DescribeStacks` listing the stack `vpc` with the given status and reason. -/
def vpcListed (status reason : String) : List StackDescription :=
  [{ StackName := some "vpc", StackStatus := some status, StackStatusReason := some reason }]

/-- Options for creating the stack `vpc`. -/
def vpcCreateOpts : CreateStackOpts :=
  { StackName := "vpc", TemplateUrl := "https://s3-eu-west-1.amazonaws.com/templates/run1/vpc.json"
    TemplateBody := "", Parameters := [], Serverless := false, StackPolicy := "\x7b\x7d"
    RoleArn := "" }

/-- A remote on which the create of `vpc` is accepted and rolls back, after which the
automatic delete is answered by `deleteEnv`. -/
def rollbackEnv (deleteEnv : SubmitEnv) : CreateNewStackEnv :=
  { create :=
      { submit := [.tick none]
        describeStacks :=
          [.tick (.ok (vpcListed StackStatusRollbackInProgress "limit exceeded")),
            .tick (.ok (vpcListed StackStatusRollbackComplete ""))] }
    describeAfterFailure := .ok (vpcListed StackStatusRollbackComplete "")
    deletes := fun _ => deleteEnv }

/-- A remote on which a delete of `vpc` is accepted and then fails. -/
def deleteFailsEnv : SubmitEnv :=
  { submit := [.tick none]
    describeStacks := [.tick (.ok (vpcListed StackStatusDeleteFailed "bucket not empty"))] }

/-- A remote on which a delete of `vpc` is accepted and the stack then no longer exists. -/
def deleteSucceedsEnv : SubmitEnv :=
  { submit := [.tick none]
    describeStacks :=
      [.tick (.ok (vpcListed StackStatusDeleteInProgress "")),
        .tick (.error (.aws "ValidationError" "Stack with id vpc does not exist"))] }

/-- A manifest of two regions with one stack each. -/
def twoRegions (parallel : Bool) : Manifest :=
  { Regions := [⟨"eu-west-1", [stackIn "eu-west-1"]⟩, ⟨"us-east-1", [stackIn "us-east-1"]⟩]
    ParallelDeployment := parallel }

/-- Options as the `deploy` command holds them before `preRun`, with the default worker
count. -/
def sampleDeployOpts : DeployOpts :=
  { manifestFile := "manifest.json", valuesFile := "values.json", profile := "default"
    role := "", workers := MaxWorker, uid := "", templatesRoot := ""
    manifest := { Regions := [], ParallelDeployment := false }
    values := fun _ _ _ => none }

/-- A `preRun` in which every step succeeds and the manifest parsed is `m`. -/
def samplePreRunEnv (m : Manifest) : PreRunEnv :=
  { absDir := .ok "/work", parse := .ok m, parseValues := .ok (fun _ _ _ => none)
    newUUID := .ok "run1" }

/-- A region deploy job of `n` stacks asking for `workers` stack workers. -/
def deployJobOf (workers : Int) (n : Nat) : RegionDeployWorkerJob :=
  { Region := "eu-west-1", Stacks := List.replicate n (stackIn "eu-west-1"), Profile := "default"
    StackDeployWorkers := workers, Uid := "run1", TemplatesRoot := "/work"
    Values := fun _ _ _ => none, Role := "", ParallelMode := true }

/-- A region diff job of `n` stacks asking for `workers` stack workers. -/
def diffJobOf (workers : Int) (n : Nat) : RegionDiffWorkerJob :=
  { Region := "eu-west-1", Stacks := List.replicate n (stackIn "eu-west-1"), Profile := "default"
    StackDiffWorker := workers, Uid := "run1", TemplatesRoot := "/work"
    Values := fun _ _ _ => none, Role := "" }

/-- What a stack worker observes when the operation is throttled on the first tick, the
deadline fires next, and the operation then returns nil; each tick carries the error the
operation returns. -/
def throttledThenDeadline : List (Select (Option GoError)) :=
  [.tick (some (.aws "Throttling" "Rate exceeded")), .timeout, .tick none]

/-- A region deploy job of a serial deployment for `region`, with one stack. -/
def serialJobOf (region : String) : RegionDeployWorkerJob :=
  { Region := region, Stacks := [stackIn region], Profile := "default", StackDeployWorkers := 1
    Uid := "run1", TemplatesRoot := "/work", Values := fun _ _ _ => none, Role := ""
    ParallelMode := false }

/-- A region setup in which the session is created and the bucket found. -/
def goodSetup : RegionSetup := { session := none, bucket := .ok "templates" }

/-- A region setup in which the bucket lookup fails. -/
def bucketLookupFails : RegionSetup :=
  { session := none, bucket := .error (.plain "cfstack-Init stack doesnt exist") }

/-- The results read by a region deploy worker when every dispatched stack answers `err`. -/
def deployResultsOf (regionWorkerJob : RegionDeployWorkerJob) (bucket : String)
    (err : Option GoError) : List stackDeployWorkerResult :=
  (RegionDeployWorker_dispatch regionWorkerJob bucket).map fun j => ⟨j.stack, err⟩

/-- The results read by a region diff worker when every dispatched stack answers `err`
and its diff is left as dispatched. -/
def diffResultsOf (regionWorkerJob : RegionDiffWorkerJob) (bucket : String)
    (err : Option GoError) : List stackDiffWorkerResult :=
  (RegionDiffWorker_dispatch regionWorkerJob bucket).map fun j => ⟨j.stack, err⟩

/-- A serial run over two regions: the stack of eu-west-1 fails, the stack of us-east-1
deploys. -/
def failingThenHealthy :
    List (RegionDeployWorkerJob × RegionSetup × List stackDeployWorkerResult) :=
  [(serialJobOf "eu-west-1", goodSetup,
      deployResultsOf (serialJobOf "eu-west-1") "templates"
        (some (.plain "Failed to update stack vpc"))),
    (serialJobOf "us-east-1", goodSetup,
      deployResultsOf (serialJobOf "us-east-1") "templates" none)]

/-- Region results of a diff in which eu-west-1 and us-east-1 both report an error. -/
def twoFailedDiffs : List RegionDiffWorkerResult :=
  [{ Region := "eu-west-1", Stacks := []
     Err := some (.plain "diff for few stacks in eu-west-1 region has failed") },
    { Region := "us-east-1", Stacks := []
      Err := some (.plain "diff for few stacks in us-east-1 region has failed") }]

/-- Options of a `diff` command over the two sample regions. -/
def sampleDiffOpts : DiffOpts :=
  { manifestFile := "manifest.json", valuesFile := "values.json", workers := MaxWorker
    profile := "default", role := "", uid := "run1", templatesRoot := "/work"
    manifest := twoRegions true, values := fun _ _ _ => none }

/-- A file system on which the diff document is written. -/
def writesDiff : DiffWriteEnv :=
  { marshalIndent := fun _ => .ok "", writeToFile := fun _ => none }

/-- Region results of a deploy in which eu-west-1 and ap-south-1 failed and us-east-1
did not. -/
def threeRegionResults : List RegionDeployWorkerResult :=
  [{ Region := "eu-west-1", Err := some (.plain "Deployments failed for stack(s) vpc in region eu-west-1") },
    { Region := "us-east-1", Err := none },
    { Region := "ap-south-1", Err := some (.plain "Deployments failed for stack(s) vpc in region ap-south-1") }]

/-- A stack at position `order` of its region as dispatched for a diff: nothing detected. -/
def unchangedStack (order : Int) : Stack :=
  { Stack.zero with
    StackName := "vpc"
    DeploymentOrder := order
    Changes := some { Status := "", StatusReason := "", Resources := []
                      StackPolicyChange := false, ForceStackUpdate := false } }

/-- Events on which `StackExists` polls again: a `DescribeStacks` call failing with
`Throttling`, with `RequestError`, or with a `ValidationError` whose message contains
"S3 error: Access Denied". -/
def keepsCheckingExists : Select (Except GoError (List StackDescription)) → Bool
  | .tick (.error (.aws code message)) =>
    code == "Throttling" || code == "RequestError" ||
      (code == "ValidationError" && stringsContains message "S3 error: Access Denied")
  | _ => false

/-- Errors on which a stack worker polls again, in the words of the error classification:
the AWS codes `Throttling`, `RequestError` and `ChangeSetNotFound`, and a `ValidationError`
whose message contains "S3 error: Access Denied". -/
def retriedByWorker : GoError → Bool
  | .aws code message =>
    code == "Throttling" || code == "RequestError" || code == "ChangeSetNotFound" ||
      (code == "ValidationError" && stringsContains message "S3 error: Access Denied")
  | .plain _ => false

/-- A template that is not serverless and whose upload succeeds. -/
def uploadsTemplate : UploadEnv :=
  { isServerlessTemplate := .ok false, packaged := (none, none), upload := none }

/-- No answers: for the branches a run does not take. -/
def noSubmitEnv : SubmitEnv := { submit := [], describeStacks := [] }

/-- No answers: for a create a run does not reach. -/
def noCreateEnv : CreateNewStackEnv :=
  { create := noSubmitEnv, describeAfterFailure := .ok [], deletes := fun _ => noSubmitEnv }

/-- A deploy of the existing stack `vpc` in which the template is uploaded and validated
and the changeset diff is answered by `changes`. -/
def existingStackEnv (changes : GetStackChangesEnv) : DeployEnv :=
  { upload := uploadsTemplate
    validateTemplate := none
    describeStacks := [.tick (.ok (vpcListed StackStatusCreateComplete ""))]
    delete := noSubmitEnv
    update := { getStackChanges := changes, setStackPolicy := none
                updateExistingStack := noSubmitEnv }
    create := noCreateEnv }

/-- A remote that throttles the reading of the current stack policy. -/
def policyThrottled : GetStackChangesEnv :=
  { noChangeEnv with getStackPolicy := .error (.aws "Throttling" "Rate exceeded") }

/-- A remote that fails `CreateChangeSet` with a request error. -/
def createChangeSetRequestError : GetStackChangesEnv :=
  { noChangeEnv with createChangeSet := some (.aws "RequestError" "send request failed") }

/-- The operation of a stack worker whose ticks carry what the operation returned: the
error and the stack afterwards. -/
def returned (_ : Stack) (r : Option GoError × Stack) : Option GoError × Stack := r

/-- `CreateChangeSet` requests. -/
def Call.isCreateChangeSet : Call → Bool
  | .clientCreateChangeSet _ => true
  | _ => false

/-- `DeleteChangeSet` requests. -/
def Call.isDeleteChangeSet : Call → Bool
  | .clientDeleteChangeSet _ _ => true
  | _ => false

/-- A remote on which the changeset is accepted and tracking then observes `events`. -/
def trackedEnv (events : List (Select (Except GoError DescribeChangeSetOutput))) :
    GetStackChangesEnv :=
  { noChangeEnv with describeChangeSet := events }

/-- A `DescribeChangeSet` answer `FAILED` for a reason other than the no-change reason. -/
def failedAnswer : DescribeChangeSetOutput :=
  { Status := some ChangeSetStatusFailed
    StatusReason := some "Parameters: [Env] must have values", Changes := [] }

/-- A desired stack policy other than the empty object. -/
def denyAllPolicy : String := "\x7b\"Id\":\"deny-all\"\x7d"

/-- Of a `GetStackChanges` run: whether it returned `Changes`, whether it sent
`CreateChangeSet`, and whether it sent `DeleteChangeSet`. -/
def changeSetSummary (run : Option (Except GoError Changes × List Call)) :
    Option (Bool × Bool × Bool) :=
  run.map fun r =>
    (r.1.toOption.isSome, r.2.any Call.isCreateChangeSet, r.2.any Call.isDeleteChangeSet)

/-- The object key an `https://` URL addresses in `bucket`: what follows the host, the
slash, the bucket name and the next slash. -/
def urlObjectKey (url bucket : String) : String :=
  ⟨((url.toList.drop "https://".length).dropWhile (fun c => c != '/')).drop
    (1 + bucket.length + 1)⟩

/-- The keys of the template uploads in a call log. -/
def uploadKeys : List Call → List String
  | [] => []
  | .UploadToS3 _ _ key :: rest => key :: uploadKeys rest
  | _ :: rest => uploadKeys rest

/-- `UploadToS3` requests. -/
def Call.isUpload : Call → Bool
  | .UploadToS3 _ _ _ => true
  | _ => false

/-- `ValidateTemplate` requests. -/
def Call.isValidateTemplate : Call → Bool
  | .clientValidateTemplate _ => true
  | _ => false

/-- A stack of the given region with an absolute template path. -/
def absoluteStackIn (region : String) : Stack :=
  { stackIn region with TemplatePath := "/work/vpc/vpc.json" }

/-- A template whose upload fails with a request error. -/
def uploadRequestError : UploadEnv :=
  { uploadsTemplate with upload := some (.aws "RequestError" "send request failed") }

/-- A remote on which `UpdateStack` answers that there is nothing to update. -/
def nothingToUpdate : SubmitEnv :=
  { submit := [.tick (some (.aws "ValidationError" "No updates are to be performed."))]
    describeStacks := [] }

/-- A remote on which the changeset of an update completes without listing a change. -/
def forcedUpdateEnv : GetStackChangesEnv :=
  trackedEnv [.tick (.ok { Status := some ChangeSetStatusCreateComplete, StatusReason := none
                           Changes := [] })]

/-- A validator applying the `required` tag of `Name` and of `StackName`, and an endpoint
table of one partition with three regions. -/
def sampleManifestLib : ManifestLib :=
  { validateRegion := fun r => if r.Name == "" then ["Name"] else []
    validateStack := fun s => if s.StackName == "" then ["StackName"] else []
    partitions := [["eu-west-1", "us-east-1", "ap-south-1"]] }

/-- Whether a region passes every check `validateManifestFile` makes on it. -/
def regionPasses (lib : ManifestLib) (region : Region) : Bool :=
  (lib.validateRegion region).isEmpty && countRegionIds lib.partitions region.Name != 0 &&
    (validateStacks lib region.Name region.Stacks 0).isNone

/-- A manifest whose regions are named `names`, one stack `vpc` each. -/
def manifestOf (names : List String) : Manifest :=
  { Regions := names.map (fun n => ⟨n, [stackIn n]⟩), ParallelDeployment := false }

/-- The statuses on which `trackStackCreateUpdateStatus` sets `completed`. -/
def isCompleteStatus (status : String) : Bool :=
  status == StackStatusCreateComplete || status == StackStatusUpdateComplete ||
    status == StackStatusDeleteComplete

/-- Events on which `trackStackCreateUpdateStatus` polls again: a throttled or failed
request, or a listing that neither completes nor fails the wait. -/
def keepsTrackingStack (stackName : String) :
    Select (Except GoError (List StackDescription)) → Bool
  | .timeout => false
  | .tick (.error (.aws code _)) => code == "Throttling" || code == "RequestError"
  | .tick (.error (.plain _)) => false
  | .tick (.ok listed) =>
    match trackStackScan stackName listed false with
    | .ok false => true
    | _ => false

/-- Events on which `trackStackCreateUpdateStatus` can return nil: the validation error
"does not exist", or a listing with the stack in one of the `COMPLETE` statuses. -/
def endsTrackingAsSuccess (stackName : String) :
    Select (Except GoError (List StackDescription)) → Bool
  | .tick (.error (.aws code message)) =>
    code == "ValidationError" && stringsContains message "does not exist"
  | .tick (.ok listed) =>
    listed.any fun s =>
      StringValue s.StackName == stackName && isCompleteStatus (StringValue s.StackStatus)
  | _ => false

/-- The remote calls `Stack.Deploy` makes with or after the resolved parameters:
`GetStackPolicy`, `CreateChangeSet`, `CreateStack` and `UpdateStack`. -/
def Call.needsParameters : Call → Bool
  | .clientGetStackPolicy _ => true
  | .clientCreateChangeSet _ => true
  | .clientCreateStack _ => true
  | .clientUpdateStack _ => true
  | _ => false

/-- The stack `vpc` whose parameter `Env` refers to the value `env`; its values store is
empty. -/
def missingValueStack : Stack :=
  { stackIn "eu-west-1" with Parameters := [("Env", "\x7b\x7benv\x7d\x7d")] }

/-- The stack `vpc` with the same parameter, to be deleted. -/
def missingValueDelete : Stack :=
  { missingValueStack with Action := "DELETE" }

/-- A deploy in which the stack `vpc` exists and its delete succeeds. -/
def deleteExistingEnv : DeployEnv :=
  { existingStackEnv noChangeEnv with delete := deleteSucceedsEnv }

/-- The jobs taken and ended one after the other, in order, by worker `w`. -/
def serialTrace {J : Type} (w : Int) : List J → List (PoolStep J)
  | [] => []
  | job :: rest => .started w job :: .finished w job :: serialTrace w rest

/-- The steps in which worker `w` takes and ends each of the jobs in turn. -/
def serialSchedule {J : Type} (w : Int) : List J → List PoolEvent
  | [] => []
  | _ :: rest => .take w :: .finish w :: serialSchedule w rest

/-- The region jobs taken and ended one after the other, in order, by region worker `w`,
each with its stack jobs taken and ended one after the other, in order, by stack worker
`v`. -/
def serialSteps {J K : Type} (w v : Int) (innerJobs : J → List K) :
    List J → List (NestedStep J K)
  | [] => []
  | job :: rest =>
    .started w job :: ((serialTrace v (innerJobs job)).map (.inner w) ++
      .finished w job :: serialSteps w v innerJobs rest)

/-- The events in which region worker `w` takes each region job in turn, its stack worker
`v` takes and ends each stack job in turn, and the region worker ends the region job. -/
def serialEvents {J K : Type} (w v : Int) (innerJobs : J → List K) : List J → List NestedEvent
  | [] => []
  | job :: rest =>
    .take w :: ((serialSchedule v (innerJobs job)).map (.inner w) ++
      .finish w :: serialEvents w v innerJobs rest)

/-- Of each step of the deploy pools: whether it starts something, the workers, and the
region or stack name. -/
def deploySteps :
    List (NestedStep RegionDeployWorkerJob stackDeployWorkerJob) → List (String × Bool × String)
  | [] => []
  | .started _ job :: rest => ("region", true, job.Region) :: deploySteps rest
  | .finished _ job :: rest => ("region", false, job.Region) :: deploySteps rest
  | .inner _ (.started _ job) :: rest =>
    ("stack", true, job.stack.Region ++ "/" ++ job.stack.StackName) :: deploySteps rest
  | .inner _ (.finished _ job) :: rest =>
    ("stack", false, job.stack.Region ++ "/" ++ job.stack.StackName) :: deploySteps rest

/-- A serial run over a manifest that lists eu-west-1 twice; the stack fails both times. -/
def sameRegionTwice :
    List (RegionDeployWorkerJob × RegionSetup × List stackDeployWorkerResult) :=
  [(serialJobOf "eu-west-1", goodSetup,
      deployResultsOf (serialJobOf "eu-west-1") "templates"
        (some (.plain "Failed to update stack vpc"))),
    (serialJobOf "eu-west-1", goodSetup,
      deployResultsOf (serialJobOf "eu-west-1") "templates"
        (some (.plain "Failed to update stack vpc")))]

/-- The entries into the functions that resolve the parameters: `GetStackChanges`,
`CreateNewStack` and `UpdateExistingStack`. -/
def Call.resolvesParameters : Call → Bool
  | .cfGetStackChanges _ => true
  | .cfCreateNewStack _ => true
  | .cfUpdateExistingStack _ => true
  | _ => false

theorem mem_withCalls {α : Type} {calls : List Call} {r : Option (α × List Call)} {a : α}
    {log : List Call} (h : withCalls calls r = some (a, log)) :
    ∃ log0, r = some (a, log0) ∧ log = calls ++ log0 := by
  cases r with
  | none => simp [withCalls] at h
  | some p =>
    obtain ⟨a0, l0⟩ := p
    simp only [withCalls, Option.some.injEq, Prod.mk.injEq] at h
    exact ⟨l0, by rw [h.1], h.2.symm⟩

theorem trackChangeSet_log (stackName changeSetName : String)
    (events : List (Select (Except GoError DescribeChangeSetOutput)))
    (r : List ChangeResource × Bool × Option GoError) (log : List Call)
    (h : trackChangeSetCreateStatus stackName changeSetName events = some (r, log)) :
    ∀ c ∈ log, c = Call.clientDescribeChangeSet changeSetName stackName := by
  induction events generalizing r log with
  | nil => simp [trackChangeSetCreateStatus] at h
  | cons e rest ih =>
    cases e with
    | timeout =>
      simp only [trackChangeSetCreateStatus, Option.some.injEq, Prod.mk.injEq] at h
      intro c hc
      rw [← h.2] at hc
      simp at hc
    | tick resp =>
      have key : ∀ (x : Option ((List ChangeResource × Bool × Option GoError) × List Call)),
          x = some (r, log) →
          (x = withCalls [Call.clientDescribeChangeSet changeSetName stackName]
                (trackChangeSetCreateStatus stackName changeSetName rest) ∨
            ∃ r0, x = some (r0, [Call.clientDescribeChangeSet changeSetName stackName])) →
          ∀ c ∈ log, c = Call.clientDescribeChangeSet changeSetName stackName := by
        intro x hx hcase c hc
        rcases hcase with h1 | ⟨r0, h1⟩
        · rw [h1] at hx
          obtain ⟨log0, h2, h3⟩ := mem_withCalls hx
          rw [h3] at hc
          simp only [List.singleton_append, List.mem_cons] at hc
          rcases hc with hc | hc
          · exact hc
          · exact ih r log0 h2 c hc
        · rw [h1] at hx
          simp only [Option.some.injEq, Prod.mk.injEq] at hx
          rw [← hx.2] at hc
          simpa using hc
      apply key _ h
      cases resp with
      | error err =>
        cases err with
        | aws code message =>
          simp only [trackChangeSetCreateStatus]
          split
          · exact Or.inl rfl
          · exact Or.inr ⟨_, rfl⟩
        | plain message => exact Or.inr ⟨_, rfl⟩
      | ok res =>
        simp only [trackChangeSetCreateStatus]
        split
        · split
          · exact Or.inr ⟨_, rfl⟩
          · exact Or.inr ⟨_, rfl⟩
        · split
          · split
            · exact Or.inr ⟨_, rfl⟩
            · exact Or.inr ⟨_, rfl⟩
          · exact Or.inl rfl

theorem submitChangeSet_log (opts : GetStackChangesOpts) (input : CreateChangeSetInput)
    (b : Bool) (env : GetStackChangesEnv) (r : Except GoError Changes) (log : List Call)
    (h : submitChangeSet opts input b env = some (r, log)) :
    ∀ c ∈ log, c.isChangeSetCall = true := by
  unfold submitChangeSet at h
  split at h
  · simp only [Option.some.injEq, Prod.mk.injEq] at h
    intro c hc
    rw [← h.2] at hc
    simp only [List.mem_singleton] at hc
    rw [hc]; rfl
  · split at h
    · simp at h
    · rename_i htrack
      simp only [Option.some.injEq, Prod.mk.injEq] at h
      intro c hc
      rw [← h.2] at hc
      simp only [List.mem_cons] at hc
      rcases hc with hc | hc
      · rw [hc]; rfl
      · rw [trackChangeSet_log _ _ _ _ _ htrack c hc]; rfl
    · rename_i htrack
      simp only [Option.some.injEq, Prod.mk.injEq] at h
      intro c hc
      rw [← h.2] at hc
      simp only [List.mem_cons, List.mem_append, List.not_mem_nil, or_false] at hc
      rcases hc with (hc | hc) | hc
      · rw [hc]; rfl
      · rw [trackChangeSet_log _ _ _ _ _ htrack c hc]; rfl
      · rw [hc]; rfl

theorem GetStackChanges_log (lib : GoLib) (cf : CloudFormation) (opts : GetStackChangesOpts)
    (env : GetStackChangesEnv) (r : Except GoError Changes) (log : List Call)
    (h : GetStackChanges lib cf opts env = some (r, log)) :
    ∀ c ∈ log, c.isChangeSetCall = true := by
  unfold GetStackChanges at h
  obtain ⟨log0, h0, hlog⟩ := mem_withCalls h
  intro c hc
  rw [hlog] at hc
  simp only [List.singleton_append, List.mem_cons] at hc
  rcases hc with hc | hc
  · rw [hc]; rfl
  · revert hc c
    split at h0
    · simp only [Option.some.injEq, Prod.mk.injEq] at h0
      rw [← h0.2]; simp
    · split at h0
      · split at h0
        · simp only [Option.some.injEq, Prod.mk.injEq] at h0
          rw [← h0.2]
          intro c hc
          simp only [List.mem_singleton] at hc
          rw [hc]; rfl
        · split at h0
          · simp only [Option.some.injEq, Prod.mk.injEq] at h0
            rw [← h0.2]
            intro c hc
            simp only [List.mem_singleton] at hc
            rw [hc]; rfl
          · obtain ⟨log1, h1, hlog1⟩ := mem_withCalls h0
            intro c hc
            rw [hlog1] at hc
            simp only [List.singleton_append, List.mem_cons] at hc
            rcases hc with hc | hc
            · rw [hc]; rfl
            · exact submitChangeSet_log _ _ _ _ _ _ h1 c hc
      · exact submitChangeSet_log _ _ _ _ _ _ h0

theorem not_submitsUpdate_of_isChangeSetCall (c : Call) (h : c.isChangeSetCall = true) :
    c.submitsUpdate = false := by
  cases c <;> simp_all [Call.isChangeSetCall, Call.submitsUpdate]

/-! ## Lemmas on `sortSlice` -/

theorem takeWhile_append_of_all {α : Type} (p : α → Bool) (a b : List α)
    (h : ∀ x ∈ a, p x = true) : (a ++ b).takeWhile p = a ++ b.takeWhile p := by
  induction a with
  | nil => rfl
  | cons x xs ih =>
    have hx : p x = true := h x (List.mem_cons_self _ _)
    simp only [List.cons_append, List.takeWhile_cons, hx, if_true]
    rw [ih (fun y hy => h y (List.mem_cons_of_mem _ hy))]

theorem replace_usEast1_prefix (rest : List Char) :
    replaceChars "https://s3-".toList "https://s3.".toList 0
        ("https://s3-us-east-1.amazonaws.com/".toList ++ rest) =
      "https://s3.us-east-1.amazonaws.com/".toList ++
        replaceChars "https://s3-".toList "https://s3.".toList 0 rest := by
  have h1 : "https://s3-".toList = ['h','t','t','p','s',':','/','/','s','3','-'] := rfl
  have h2 : "https://s3.".toList = ['h','t','t','p','s',':','/','/','s','3','.'] := rfl
  have h3 : "https://s3-us-east-1.amazonaws.com/".toList =
      "https://s3-".toList ++ "us-east-1.amazonaws.com/".toList := rfl
  have h4 : "https://s3.us-east-1.amazonaws.com/".toList =
      "https://s3.".toList ++ "us-east-1.amazonaws.com/".toList := rfl
  have h5 : "us-east-1.amazonaws.com/".toList =
      ['u','s','-','e','a','s','t','-','1','.','a','m','a','z','o','n','a','w','s','.','c','o',
        'm','/'] := rfl
  rw [h3, h4, h5, h1, h2]
  simp [replaceChars, List.isPrefixOf]

/-- The URL `uploadTemplate` assigns, in closed form. -/
theorem setTemplateLocation_TemplateUrl (lib : GoLib) (s : Stack) :
    (s.setTemplateLocation lib).TemplateUrl =
      if s.Region = "us-east-1" then
        stringsReplaceAll ("https://s3-" ++ s.Region ++ ".amazonaws.com/" ++ s.Bucket ++ "/" ++
          s.UID ++ (if filepathIsAbs s.TemplatePath then "" else "/") ++ s.TemplatePath)
          "https://s3-" "https://s3."
      else
        "https://s3-" ++ s.Region ++ ".amazonaws.com/" ++ s.Bucket ++ "/" ++
          s.UID ++ (if filepathIsAbs s.TemplatePath then "" else "/") ++ s.TemplatePath := by
  unfold Stack.setTemplateLocation
  by_cases habs : filepathIsAbs s.TemplatePath = true <;> by_cases hr : s.Region = "us-east-1" <;>
    simp [habs, hr]

/-- The URL `uploadTemplate` assigns, as characters: scheme, host, slash and the rest. -/
theorem setTemplateLocation_url (lib : GoLib) (s : Stack) :
    ∃ rest : List Char,
      (s.Region ≠ "us-east-1" →
        (s.setTemplateLocation lib).TemplateUrl.toList =
          "https://".toList ++ ("s3-".toList ++ s.Region.toList ++ ".amazonaws.com".toList) ++
            '/' :: rest) ∧
      (s.Region = "us-east-1" →
        (s.setTemplateLocation lib).TemplateUrl.toList =
          "https://".toList ++ "s3.us-east-1.amazonaws.com".toList ++ '/' :: rest) := by
  rw [setTemplateLocation_TemplateUrl]
  by_cases hr : s.Region = "us-east-1"
  · refine ⟨replaceChars "https://s3-".toList "https://s3.".toList 0
        (s.Bucket.toList ++ '/' :: (s.UID.toList ++
          (if filepathIsAbs s.TemplatePath then "" else "/").toList ++ s.TemplatePath.toList)),
        fun h => absurd hr h, fun _ => ?_⟩
    rw [if_pos hr, hr]
    have := replace_usEast1_prefix
        (s.Bucket.toList ++ '/' :: (s.UID.toList ++
          (if filepathIsAbs s.TemplatePath then "" else "/").toList ++ s.TemplatePath.toList))
    have hlist : ("https://s3-" ++ "us-east-1" ++ ".amazonaws.com/" ++ s.Bucket ++ "/" ++ s.UID ++
          (if filepathIsAbs s.TemplatePath then "" else "/") ++ s.TemplatePath).toList =
        "https://s3-us-east-1.amazonaws.com/".toList ++ (s.Bucket.toList ++ '/' :: (s.UID.toList ++
          (if filepathIsAbs s.TemplatePath then "" else "/").toList ++ s.TemplatePath.toList)) := by
      simp [String.toList, String.data_append]
    unfold stringsReplaceAll
    show replaceChars _ _ 0 _ = _
    rw [hlist, this]
    rfl
  · refine ⟨s.Bucket.toList ++ '/' :: (s.UID.toList ++
          (if filepathIsAbs s.TemplatePath then "" else "/").toList ++ s.TemplatePath.toList), fun _ => ?_,
        fun h => absurd h hr⟩
    rw [if_neg hr]
    simp [String.toList, String.data_append]

/-! ## Lemmas on changeset tracking -/

theorem trackChangeSet_after_waiting (stackName changeSetName : String)
    (waiting rest : List (Select (Except GoError DescribeChangeSetOutput)))
    (hwait : ∀ e ∈ waiting, keepsTrackingChangeSet e = true) :
    trackChangeSetCreateStatus stackName changeSetName (waiting ++ rest) =
      withCalls (List.replicate waiting.length (.clientDescribeChangeSet changeSetName stackName))
        (trackChangeSetCreateStatus stackName changeSetName rest) := by
  induction waiting with
  | nil =>
    cases h : trackChangeSetCreateStatus stackName changeSetName rest with
    | none => simp [withCalls, h]
    | some p => obtain ⟨a, l⟩ := p; simp [withCalls, h]
  | cons e es ih =>
    have he := hwait e (List.mem_cons_self _ _)
    have ih2 := ih (fun x hx => hwait x (List.mem_cons_of_mem _ hx))
    have hstep : trackChangeSetCreateStatus stackName changeSetName (e :: (es ++ rest)) =
        withCalls [.clientDescribeChangeSet changeSetName stackName]
          (trackChangeSetCreateStatus stackName changeSetName (es ++ rest)) := by
      cases e with
      | timeout => simp [keepsTrackingChangeSet] at he
      | tick resp =>
        cases resp with
        | error err =>
          cases err with
          | aws code message =>
            simp only [keepsTrackingChangeSet, beq_iff_eq] at he
            simp [trackChangeSetCreateStatus, he]
          | plain message => simp [keepsTrackingChangeSet] at he
        | ok res =>
          simp only [keepsTrackingChangeSet, Bool.and_eq_true, bne_iff_ne, ne_eq] at he
          simp [trackChangeSetCreateStatus, he.1, he.2]
    rw [List.cons_append, hstep, ih2]
    cases h : trackChangeSetCreateStatus stackName changeSetName rest with
    | none => simp [withCalls]
    | some p => obtain ⟨a, l⟩ := p; simp [withCalls, List.replicate_succ]

theorem foldl_append_singleton {α β : Type} (f : α → β) (l : List α) (init : List β) :
    l.foldl (fun acc x => acc ++ [f x]) init = init ++ l.map f := by
  induction l generalizing init with
  | nil => simp
  | cons x xs ih => simp [ih]

/-! ## Lemmas on the submit and tracking loops -/

theorem submitLoop_log (stackName : String) (call : Call) (events : List (Select (Option GoError)))
    (r : Option GoError) (log : List Call)
    (h : submitLoop stackName call events = some (r, log)) : ∀ c ∈ log, c = call := by
  induction events generalizing r log with
  | nil => simp [submitLoop] at h
  | cons e rest ih =>
    have key : ∀ (x : Option (Option GoError × List Call)), x = some (r, log) →
        (x = withCalls [call] (submitLoop stackName call rest) ∨
          (∃ r0, x = some (r0, [call])) ∨ ∃ r0, x = some (r0, [])) →
        ∀ c ∈ log, c = call := by
      intro x hx hcase c hc
      rcases hcase with h1 | ⟨r0, h1⟩ | ⟨r0, h1⟩
      · rw [h1] at hx
        obtain ⟨log0, h2, h3⟩ := mem_withCalls hx
        rw [h3] at hc
        simp only [List.singleton_append, List.mem_cons] at hc
        rcases hc with hc | hc
        · exact hc
        · exact ih r log0 h2 c hc
      · rw [h1] at hx
        simp only [Option.some.injEq, Prod.mk.injEq] at hx
        rw [← hx.2] at hc
        simpa using hc
      · rw [h1] at hx
        simp only [Option.some.injEq, Prod.mk.injEq] at hx
        rw [← hx.2] at hc
        simp at hc
    apply key _ h
    cases e with
    | timeout => exact Or.inr (Or.inr ⟨_, rfl⟩)
    | tick resp =>
      cases resp with
      | none => exact Or.inr (Or.inl ⟨_, rfl⟩)
      | some err =>
        cases err with
        | plain message => exact Or.inr (Or.inl ⟨_, rfl⟩)
        | aws code message =>
          simp only [submitLoop]
          split
          · exact Or.inl rfl
          · split
            · exact Or.inl rfl
            · exact Or.inr (Or.inl ⟨_, rfl⟩)

theorem trackStack_log (stackName : String)
    (events : List (Select (Except GoError (List StackDescription))))
    (r : Option GoError) (log : List Call)
    (h : trackStackCreateUpdateStatus stackName events = some (r, log)) :
    ∀ c ∈ log, c = Call.clientDescribeStacks stackName := by
  induction events generalizing r log with
  | nil => simp [trackStackCreateUpdateStatus] at h
  | cons e rest ih =>
    have key : ∀ (x : Option (Option GoError × List Call)), x = some (r, log) →
        (x = withCalls [Call.clientDescribeStacks stackName]
              (trackStackCreateUpdateStatus stackName rest) ∨
          (∃ r0, x = some (r0, [Call.clientDescribeStacks stackName])) ∨
          ∃ r0, x = some (r0, [])) →
        ∀ c ∈ log, c = Call.clientDescribeStacks stackName := by
      intro x hx hcase c hc
      rcases hcase with h1 | ⟨r0, h1⟩ | ⟨r0, h1⟩
      · rw [h1] at hx
        obtain ⟨log0, h2, h3⟩ := mem_withCalls hx
        rw [h3] at hc
        simp only [List.singleton_append, List.mem_cons] at hc
        rcases hc with hc | hc
        · exact hc
        · exact ih r log0 h2 c hc
      · rw [h1] at hx
        simp only [Option.some.injEq, Prod.mk.injEq] at hx
        rw [← hx.2] at hc
        simpa using hc
      · rw [h1] at hx
        simp only [Option.some.injEq, Prod.mk.injEq] at hx
        rw [← hx.2] at hc
        simp at hc
    apply key _ h
    cases e with
    | timeout => exact Or.inr (Or.inr ⟨_, rfl⟩)
    | tick resp =>
      cases resp with
      | error err =>
        cases err with
        | plain message => exact Or.inr (Or.inl ⟨_, rfl⟩)
        | aws code message =>
          simp only [trackStackCreateUpdateStatus]
          split
          · exact Or.inl rfl
          · split
            · exact Or.inl rfl
            · split
              · split
                · exact Or.inr (Or.inl ⟨_, rfl⟩)
                · exact Or.inr (Or.inl ⟨_, rfl⟩)
              · exact Or.inr (Or.inl ⟨_, rfl⟩)
      | ok listed =>
        simp only [trackStackCreateUpdateStatus]
        split
        · exact Or.inr (Or.inl ⟨_, rfl⟩)
        · exact Or.inr (Or.inl ⟨_, rfl⟩)
        · exact Or.inl rfl

theorem DeleteStack_log (opts : DeleteStackOpts) (env : SubmitEnv) (r : Option GoError)
    (log : List Call) (h : DeleteStack opts env = some (r, log)) :
    log.filter Call.isDeleteStackEntry = [.cfDeleteStack opts] := by
  unfold DeleteStack at h
  obtain ⟨log0, h0, hlog⟩ := mem_withCalls h
  have hinner : ∀ c ∈ log0, c.isDeleteStackEntry = false := by
    unfold submitAndTrack at h0
    split at h0
    · simp at h0
    · rename_i hs
      simp only [Option.some.injEq, Prod.mk.injEq] at h0
      intro c hc
      rw [← h0.2] at hc
      rw [submitLoop_log _ _ _ _ _ hs c hc]; rfl
    · rename_i hs
      obtain ⟨log1, h1, hlog1⟩ := mem_withCalls h0
      intro c hc
      rw [hlog1, List.mem_append] at hc
      rcases hc with hc | hc
      · rw [submitLoop_log _ _ _ _ _ hs c hc]; rfl
      · rw [trackStack_log _ _ _ _ h1 c hc]; rfl
  rw [hlog, List.singleton_append, List.filter_cons_of_pos (by rfl)]
  congr 1
  rw [List.filter_eq_nil_iff]
  intro c hc
  rw [hinner c hc]
  simp

theorem deleteRolledBack_none (stackName : String) (deletes : Nat → SubmitEnv)
    (listed : List StackDescription) (k : Nat)
    (h : listed.filter (isRolledBack stackName) = []) :
    deleteRolledBack stackName deletes listed k = some (none, []) := by
  induction listed with
  | nil => rfl
  | cons s rest ih =>
    rw [List.filter_eq_nil_iff] at h
    have hs : isRolledBack stackName s = false := by
      simpa using h s (List.mem_cons_self _ _)
    unfold isRolledBack at hs
    unfold deleteRolledBack
    rw [hs]
    simp only [Bool.false_eq_true, if_false]
    apply ih
    rw [List.filter_eq_nil_iff]
    exact fun a ha => h a (List.mem_cons_of_mem _ ha)

theorem deleteRolledBack_one (stackName : String) (deletes : Nat → SubmitEnv)
    (listed : List StackDescription) (k : Nat)
    (h : (listed.filter (isRolledBack stackName)).length = 1) :
    deleteRolledBack stackName deletes listed k =
      DeleteStack { StackName := stackName, RoleArn := "" } (deletes k) := by
  induction listed with
  | nil => simp at h
  | cons s rest ih =>
    by_cases hs : isRolledBack stackName s = true
    · rw [List.filter_cons_of_pos hs] at h
      have hrest : rest.filter (isRolledBack stackName) = [] := by
        simpa using h
      unfold isRolledBack at hs
      unfold deleteRolledBack
      rw [hs]
      simp only [if_true]
      cases hd : DeleteStack { StackName := stackName, RoleArn := "" } (deletes k) with
      | none => rfl
      | some p =>
        obtain ⟨r, log⟩ := p
        cases r with
        | some err2 => rfl
        | none =>
          simp only
          rw [deleteRolledBack_none stackName deletes rest (k + 1) hrest]
          simp [withCalls]
    · rw [List.filter_cons_of_neg hs] at h
      have hs2 : isRolledBack stackName s = false := by simpa using hs
      unfold isRolledBack at hs2
      unfold deleteRolledBack
      rw [hs2]
      simp only [Bool.false_eq_true, if_false]
      exact ih h

/-! ## Lemmas on the pools -/

theorem spawnIds_length (workers : Int) : (spawnIds workers).length = workers.toNat := by
  simp [spawnIds]

theorem preRun_ok (lib : GoLib) (opts opts' : DeployOpts) (env : PreRunEnv)
    (h : opts.preRun lib env = .ok opts') :
    ∃ (o : DeployOpts) (uid : String),
      opts' = { (if !o.manifest.ParallelDeployment then { o with workers := 1 } else o) with
                uid := uid } := by
  unfold DeployOpts.preRun at h
  split at h
  · cases h
  · split at h
    · cases h
    · simp only at h
      split at h
      · cases h
      · split at h
        · cases h
        · injection h with h
          exact ⟨_, _, h.symm⟩

theorem preRun_serial_workers (lib : GoLib) (opts opts' : DeployOpts) (env : PreRunEnv)
    (h : opts.preRun lib env = .ok opts') (hserial : opts'.manifest.ParallelDeployment = false) :
    opts'.workers = 1 := by
  obtain ⟨o, uid, ho⟩ := preRun_ok lib opts opts' env h
  subst ho
  by_cases hpar : o.manifest.ParallelDeployment = true
  · simp [hpar] at hserial
  · simp at hpar
    simp [hpar]

/-! ## Lemmas on the result collection of the commands -/

theorem DeployOpts_Run_collect_eq (results : List RegionDeployWorkerResult) (acc : List String) :
    DeployOpts.Run_collect results acc =
      acc ++ (results.filter (fun r => r.Err.isSome)).map (fun r => r.Region) := by
  induction results generalizing acc with
  | nil => simp [DeployOpts.Run_collect]
  | cons r rest ih =>
    unfold DeployOpts.Run_collect
    cases h : r.Err with
    | none => simp [ih, h]
    | some e => simp [ih, h]

/-! ## Lemmas on the diff output -/

theorem listsReviewInProgress_iff (stackName : String) (listed : List StackDescription) :
    listsReviewInProgress stackName listed = true ↔
      ∃ s ∈ listed, StringValue s.StackName = stackName ∧
        StringValue s.StackStatus = StackStatusReviewInProgress := by
  induction listed with
  | nil => simp [listsReviewInProgress]
  | cons s rest ih =>
    unfold listsReviewInProgress
    by_cases h : StringValue s.StackName = stackName ∧
        StringValue s.StackStatus = StackStatusReviewInProgress
    · simp [h.1, h.2]
    · have hb : (StringValue s.StackName == stackName &&
          StringValue s.StackStatus == StackStatusReviewInProgress) = false := by
        simpa using h
      rw [hb]
      simp only [Bool.false_eq_true, if_false, ih, List.mem_cons, exists_eq_or_imp]
      constructor
      · intro hex; exact Or.inr hex
      · intro hex
        rcases hex with hex | hex
        · exact absurd hex h
        · exact hex

theorem StackExists_after_waiting (stackName : String)
    (waiting rest : List (Select (Except GoError (List StackDescription))))
    (hwait : ∀ e ∈ waiting, keepsCheckingExists e = true) :
    StackExists stackName (waiting ++ rest) =
      withCalls (List.replicate waiting.length (.clientDescribeStacks stackName))
        (StackExists stackName rest) := by
  induction waiting with
  | nil =>
    cases h : StackExists stackName rest with
    | none => simp [withCalls, h]
    | some p => obtain ⟨a, l⟩ := p; simp [withCalls, h]
  | cons e es ih =>
    have he := hwait e (List.mem_cons_self _ _)
    have ih2 := ih (fun x hx => hwait x (List.mem_cons_of_mem _ hx))
    have hstep : StackExists stackName (e :: (es ++ rest)) =
        withCalls [.clientDescribeStacks stackName] (StackExists stackName (es ++ rest)) := by
      cases e with
      | timeout => simp [keepsCheckingExists] at he
      | tick resp =>
        cases resp with
        | ok listed => simp [keepsCheckingExists] at he
        | error err =>
          cases err with
          | plain message => simp [keepsCheckingExists] at he
          | aws code message =>
            simp only [keepsCheckingExists, Bool.or_eq_true, Bool.and_eq_true,
              beq_iff_eq] at he
            rcases he with (h1 | h1) | ⟨h1, h2⟩
            · simp [StackExists, h1]
            · by_cases ht : code = "Throttling"
              · simp [StackExists, ht]
              · have hv : ¬ code = "ValidationError" := by rw [h1]; decide
                simp [StackExists, ht, hv, h1]
            · have ht : ¬ code = "Throttling" := by rw [h1]; decide
              simp [StackExists, ht, h1, h2]
    rw [List.cons_append, hstep, ih2]
    cases h : StackExists stackName rest with
    | none => simp [withCalls]
    | some p => obtain ⟨a, l⟩ := p; simp [withCalls, List.replicate_succ]

/-! ## Lemmas on the policy flag -/

theorem submitChangeSet_policyFlag (opts : GetStackChangesOpts) (input : CreateChangeSetInput)
    (b : Bool) (env : GetStackChangesEnv) (changes : Changes) (log : List Call)
    (h : submitChangeSet opts input b env = some (.ok changes, log)) :
    changes.StackPolicyChange = b := by
  unfold submitChangeSet at h
  split at h
  · simp at h
  · split at h
    · simp at h
    · simp at h
    · simp only [Option.some.injEq, Prod.mk.injEq, Except.ok.injEq] at h
      rw [← h.1]

/-! ## Lemmas on manifest validation -/

theorem validateRegions_after_passing (lib : ManifestLib) (pre rest : List Region) (i : Nat)
    (hpre : ∀ r ∈ pre, regionPasses lib r = true) :
    validateRegions lib (pre ++ rest) i = validateRegions lib rest (i + pre.length) := by
  induction pre generalizing i with
  | nil => simp
  | cons r rs ih =>
    have hr := hpre r (List.mem_cons_self _ _)
    simp only [regionPasses, Bool.and_eq_true, List.isEmpty_iff, bne_iff_ne, ne_eq,
      Option.isNone_iff_eq_none] at hr
    obtain ⟨⟨h1, h2⟩, h3⟩ := hr
    have h2' : (countRegionIds lib.partitions r.Name == 0) = false := by simpa using h2
    rw [List.cons_append]
    simp only [validateRegions, h1, h2', h3, Bool.false_eq_true, if_false]
    rw [ih (i + 1) (fun x hx => hpre x (List.mem_cons_of_mem _ hx))]
    have hlen : i + 1 + rs.length = i + (r :: rs).length := by
      simp only [List.length_cons]
      omega
    rw [hlen]

theorem countRegionIds_eq_zero (partitions : List (List String)) (name : String)
    (h : ∀ p ∈ partitions, name ∉ p) : countRegionIds partitions name = 0 := by
  unfold countRegionIds
  apply List.sum_eq_zero
  intro n hn
  simp only [List.mem_map] at hn
  obtain ⟨p, hp, hlen⟩ := hn
  rw [← hlen, List.length_eq_zero, List.filter_eq_nil_iff]
  intro id hid heq
  have : name = id := by simpa using heq
  exact h p hp (this ▸ hid)

/-! ## Lemmas on stack tracking -/

theorem withCalls_map_fst {α : Type} (calls : List Call) (r : Option (α × List Call)) :
    (withCalls calls r).map Prod.fst = r.map Prod.fst := by
  cases r with
  | none => rfl
  | some p => rfl

theorem trackStack_after_waiting (stackName : String)
    (waiting rest : List (Select (Except GoError (List StackDescription))))
    (hwait : ∀ e ∈ waiting, keepsTrackingStack stackName e = true) :
    (trackStackCreateUpdateStatus stackName (waiting ++ rest)).map Prod.fst =
      (trackStackCreateUpdateStatus stackName rest).map Prod.fst := by
  induction waiting with
  | nil => rfl
  | cons e es ih =>
    have he := hwait e (List.mem_cons_self _ _)
    have ih2 := ih (fun x hx => hwait x (List.mem_cons_of_mem _ hx))
    have hstep : trackStackCreateUpdateStatus stackName (e :: (es ++ rest)) =
        withCalls [.clientDescribeStacks stackName]
          (trackStackCreateUpdateStatus stackName (es ++ rest)) := by
      cases e with
      | timeout => simp [keepsTrackingStack] at he
      | tick resp =>
        cases resp with
        | error err =>
          cases err with
          | aws code message =>
            simp only [keepsTrackingStack, Bool.or_eq_true, beq_iff_eq] at he
            rcases he with he | he
            · simp [trackStackCreateUpdateStatus, he]
            · simp [trackStackCreateUpdateStatus, he]
          | plain message => simp [keepsTrackingStack] at he
        | ok listed =>
          simp only [keepsTrackingStack] at he
          simp only [trackStackCreateUpdateStatus]
          split at he
          · rename_i hscan
            rw [hscan]
          · simp at he
    rw [List.cons_append, hstep, withCalls_map_fst, ih2]

theorem trackStackScan_complete (stackName : String) (listed : List StackDescription)
    (completed : Bool)
    (hall : ∀ s ∈ listed, StringValue s.StackName = stackName →
      isCompleteStatus (StringValue s.StackStatus) = true) :
    trackStackScan stackName listed completed =
      .ok (completed || listed.any (fun s => StringValue s.StackName == stackName)) := by
  induction listed generalizing completed with
  | nil => simp [trackStackScan]
  | cons s rest ih =>
    have ihr := fun c => ih c (fun x hx => hall x (List.mem_cons_of_mem _ hx))
    by_cases hname : StringValue s.StackName = stackName
    · have hs := hall s (List.mem_cons_self _ _) hname
      simp only [isCompleteStatus, Bool.or_eq_true, beq_iff_eq] at hs
      have hbeq : (StringValue s.StackName == stackName) = true := by simpa using hname
      rcases hs with (hs | hs) | hs
      · simp [trackStackScan, hbeq, hs, ihr, StackStatusCreateInProgress,
          StackStatusRollbackInProgress, StackStatusRollbackComplete, StackStatusCreateFailed,
          StackStatusUpdateInProgress, StackStatusUpdateCompleteCleanupInProgress,
          StackStatusUpdateRollbackInProgress, StackStatusUpdateRollbackCompleteCleanupInProgress,
          StackStatusUpdateRollbackComplete, StackStatusUpdateRollbackFailed,
          StackStatusDeleteInProgress, StackStatusDeleteFailed, StackStatusCreateComplete,
          StackStatusUpdateComplete, StackStatusDeleteComplete]
      · simp [trackStackScan, hbeq, hs, ihr, StackStatusCreateInProgress,
          StackStatusRollbackInProgress, StackStatusRollbackComplete, StackStatusCreateFailed,
          StackStatusUpdateInProgress, StackStatusUpdateCompleteCleanupInProgress,
          StackStatusUpdateRollbackInProgress, StackStatusUpdateRollbackCompleteCleanupInProgress,
          StackStatusUpdateRollbackComplete, StackStatusUpdateRollbackFailed,
          StackStatusDeleteInProgress, StackStatusDeleteFailed, StackStatusCreateComplete,
          StackStatusUpdateComplete, StackStatusDeleteComplete]
      · simp [trackStackScan, hbeq, hs, ihr, StackStatusCreateInProgress,
          StackStatusRollbackInProgress, StackStatusRollbackComplete, StackStatusCreateFailed,
          StackStatusUpdateInProgress, StackStatusUpdateCompleteCleanupInProgress,
          StackStatusUpdateRollbackInProgress, StackStatusUpdateRollbackCompleteCleanupInProgress,
          StackStatusUpdateRollbackComplete, StackStatusUpdateRollbackFailed,
          StackStatusDeleteInProgress, StackStatusDeleteFailed, StackStatusCreateComplete,
          StackStatusUpdateComplete, StackStatusDeleteComplete]
    · have hbeq : (StringValue s.StackName == stackName) = false := by simpa using hname
      simp [trackStackScan, hbeq, ihr]

theorem trackStackScan_cons (stackName : String) (s : StackDescription)
    (rest : List StackDescription) (completed : Bool) (r : Except GoError Bool)
    (hr : trackStackScan stackName (s :: rest) completed = r) :
    r = trackStackScan stackName rest completed ∨ (∃ e, r = .error e) ∨
      ((StringValue s.StackName == stackName &&
          isCompleteStatus (StringValue s.StackStatus)) = true ∧
        r = trackStackScan stackName rest true) := by
  simp only [trackStackScan] at hr
  by_cases hn : (StringValue s.StackName == stackName) = true
  swap
  · rw [if_neg hn] at hr
    exact Or.inl hr.symm
  rw [if_pos hn] at hr
  by_cases h0 : (StringValue s.StackStatus == StackStatusCreateInProgress) = true
  · rw [if_pos h0] at hr
    exact Or.inl hr.symm
  rw [if_neg h0] at hr
  by_cases h1 : (StringValue s.StackStatus == StackStatusRollbackInProgress) = true
  · rw [if_pos h1] at hr
    exact Or.inl hr.symm
  rw [if_neg h1] at hr
  by_cases h2 : (StringValue s.StackStatus == StackStatusRollbackComplete) = true
  · rw [if_pos h2] at hr
    exact Or.inr (Or.inl ⟨_, hr.symm⟩)
  rw [if_neg h2] at hr
  by_cases h3 : (StringValue s.StackStatus == StackStatusCreateFailed) = true
  · rw [if_pos h3] at hr
    exact Or.inr (Or.inl ⟨_, hr.symm⟩)
  rw [if_neg h3] at hr
  by_cases h4 : (StringValue s.StackStatus == StackStatusUpdateInProgress) = true
  · rw [if_pos h4] at hr
    exact Or.inl hr.symm
  rw [if_neg h4] at hr
  by_cases h5 : (StringValue s.StackStatus == StackStatusUpdateCompleteCleanupInProgress) = true
  · rw [if_pos h5] at hr
    exact Or.inl hr.symm
  rw [if_neg h5] at hr
  by_cases h6 : (StringValue s.StackStatus == StackStatusUpdateRollbackInProgress) = true
  · rw [if_pos h6] at hr
    exact Or.inl hr.symm
  rw [if_neg h6] at hr
  by_cases h7 : (StringValue s.StackStatus == StackStatusUpdateRollbackCompleteCleanupInProgress) = true
  · rw [if_pos h7] at hr
    exact Or.inl hr.symm
  rw [if_neg h7] at hr
  by_cases h8 : (StringValue s.StackStatus == StackStatusUpdateRollbackComplete) = true
  · rw [if_pos h8] at hr
    exact Or.inr (Or.inl ⟨_, hr.symm⟩)
  rw [if_neg h8] at hr
  by_cases h9 : (StringValue s.StackStatus == StackStatusUpdateRollbackFailed) = true
  · rw [if_pos h9] at hr
    exact Or.inr (Or.inl ⟨_, hr.symm⟩)
  rw [if_neg h9] at hr
  by_cases h10 : (StringValue s.StackStatus == StackStatusDeleteInProgress) = true
  · rw [if_pos h10] at hr
    exact Or.inl hr.symm
  rw [if_neg h10] at hr
  by_cases h11 : (StringValue s.StackStatus == StackStatusDeleteFailed) = true
  · rw [if_pos h11] at hr
    exact Or.inr (Or.inl ⟨_, hr.symm⟩)
  rw [if_neg h11] at hr
  by_cases h12 : (StringValue s.StackStatus == StackStatusCreateComplete) = true
  · rw [if_pos h12] at hr
    refine Or.inr (Or.inr ⟨?_, hr.symm⟩)
    simp only [isCompleteStatus, hn, h12, Bool.true_and, Bool.or_true, Bool.true_or]
  rw [if_neg h12] at hr
  by_cases h13 : (StringValue s.StackStatus == StackStatusUpdateComplete) = true
  · rw [if_pos h13] at hr
    refine Or.inr (Or.inr ⟨?_, hr.symm⟩)
    simp only [isCompleteStatus, hn, h13, Bool.true_and, Bool.or_true, Bool.true_or]
  rw [if_neg h13] at hr
  by_cases h14 : (StringValue s.StackStatus == StackStatusDeleteComplete) = true
  · rw [if_pos h14] at hr
    refine Or.inr (Or.inr ⟨?_, hr.symm⟩)
    simp only [isCompleteStatus, hn, h14, Bool.true_and, Bool.or_true, Bool.true_or]
  rw [if_neg h14] at hr
  exact Or.inl hr.symm

theorem trackStackScan_true (stackName : String) (listed : List StackDescription)
    (completed : Bool) (h : trackStackScan stackName listed completed = .ok true) :
    completed = true ∨
      listed.any (fun s =>
        StringValue s.StackName == stackName && isCompleteStatus (StringValue s.StackStatus)) =
        true := by
  induction listed generalizing completed with
  | nil =>
    simp only [trackStackScan, Except.ok.injEq] at h
    exact Or.inl h
  | cons s rest ih =>
    rcases trackStackScan_cons stackName s rest completed _ h with h1 | ⟨e, h1⟩ | ⟨h1, _⟩
    · rcases ih completed h1.symm with h3 | h3
      · exact Or.inl h3
      · exact Or.inr (by simp only [List.any_cons, h3, Bool.or_true])
    · simp at h1
    · exact Or.inr (by simp only [List.any_cons, h1, Bool.true_or])

theorem trackStack_nil_only (stackName : String)
    (events : List (Select (Except GoError (List StackDescription))))
    (h : (trackStackCreateUpdateStatus stackName events).map Prod.fst = some none) :
    ∃ e ∈ events, endsTrackingAsSuccess stackName e = true := by
  induction events with
  | nil => simp [trackStackCreateUpdateStatus] at h
  | cons e rest ih =>
    have later : (withCalls [Call.clientDescribeStacks stackName]
          (trackStackCreateUpdateStatus stackName rest)).map Prod.fst = some none →
        ∃ x ∈ e :: rest, endsTrackingAsSuccess stackName x = true := by
      intro h2
      rw [withCalls_map_fst] at h2
      obtain ⟨x, hx, hx2⟩ := ih h2
      exact ⟨x, List.mem_cons_of_mem _ hx, hx2⟩
    cases e with
    | timeout => simp [trackStackCreateUpdateStatus] at h
    | tick resp =>
      cases resp with
      | error err =>
        cases err with
        | plain message => simp [trackStackCreateUpdateStatus] at h
        | aws code message =>
          simp only [trackStackCreateUpdateStatus] at h
          split_ifs at h with h1 h2 h3 h4
          · exact later h
          · exact later h
          · refine ⟨_, List.mem_cons_self _ _, ?_⟩
            simp only [endsTrackingAsSuccess, h3, h4, Bool.and_self]
          · simp at h
          · simp at h
      | ok listed =>
        simp only [trackStackCreateUpdateStatus] at h
        split at h
        · simp at h
        · rename_i hscan
          refine ⟨_, List.mem_cons_self _ _, ?_⟩
          rcases trackStackScan_true stackName listed false hscan with h3 | h3
          · simp at h3
          · simpa [endsTrackingAsSuccess] using h3
        · exact later h

theorem containsChars_append (pre sub post : List Char) :
    containsChars (pre ++ (sub ++ post)) sub = true := by
  induction pre with
  | nil =>
    have hp : sub.isPrefixOf (sub ++ post) = true := by
      rw [List.isPrefixOf_iff_prefix]
      exact List.prefix_append _ _
    cases hsp : sub ++ post with
    | nil =>
      rw [hsp] at hp
      simpa [containsChars] using hp
    | cons c cs =>
      rw [hsp] at hp
      simp [containsChars, hp]
  | cons x xs ih =>
    rw [List.cons_append, containsChars, ih, Bool.or_true]

/-! ## Lemmas on `uploadTemplate` -/

theorem uploadTemplate_TemplateUrl (lib : GoLib) (s : Stack) (env : UploadEnv) :
    (s.uploadTemplate lib env).1.TemplateUrl = (s.setTemplateLocation lib).TemplateUrl := by
  unfold Stack.uploadTemplate
  rcases env.isServerlessTemplate with err | b
  · rfl
  · cases b with
    | false => rfl
    | true =>
      simp only [if_true]
      rcases env.packaged.2 with _ | err
      · rfl
      · rfl
/-! ## Lemmas on a deploy with an unresolved parameter -/

theorem resolveParameters_missing (lib : GoLib) (cf : CloudFormation) (stackName k v : String)
    (params : List (String × String)) (hmem : (k, v) ∈ params) (href : isReference v = true)
    (hmiss : cf.values cf.region stackName (stringsTrimSpace (referenceBody v)) = none)
    (hlib : ∀ t e, lib.unquote t = .error e → ∃ m, e = .plain m) :
    ∃ m, resolveParameters lib cf stackName params = .error (.plain m) := by
  induction params with
  | nil => simp at hmem
  | cons p rest ih =>
    obtain ⟨k2, v2⟩ := p
    rcases List.mem_cons.1 hmem with h | h
    · simp only [Prod.mk.injEq] at h
      obtain ⟨hk, hv⟩ := h
      subst hk
      subst hv
      refine ⟨"Value " ++ stringsTrimSpace (referenceBody v) ++ " for parameter " ++ k ++
        " not found in values", ?_⟩
      simp only [resolveParameters, href, hmiss, if_true]
    · obtain ⟨m, hm⟩ := ih h
      simp only [resolveParameters, hm]
      split
      · split
        · exact ⟨_, rfl⟩
        · split
          · rename_i e he
            obtain ⟨m2, hm2⟩ := hlib _ _ he
            exact ⟨m2, by rw [hm2]⟩
          · exact ⟨m, rfl⟩
      · exact ⟨m, rfl⟩

theorem GetStackChanges_unresolved (lib : GoLib) (cf : CloudFormation)
    (opts : GetStackChangesOpts) (env : GetStackChangesEnv) (e : GoError)
    (h : resolveParameters lib cf opts.StackName opts.Parameters = .error e) :
    GetStackChanges lib cf opts env = some (.error e, [.cfGetStackChanges opts]) := by
  simp [GetStackChanges, h, withCalls]

theorem CreateNewStack_unresolved (lib : GoLib) (cf : CloudFormation) (opts : CreateStackOpts)
    (env : CreateNewStackEnv) (e : GoError)
    (h : resolveParameters lib cf opts.StackName opts.Parameters = .error e) :
    CreateNewStack lib cf opts env = some (some e, [.cfCreateNewStack opts]) := by
  simp [CreateNewStack, h, withCalls]

theorem deployAction_unresolved (lib : GoLib) (s : Stack) (stackExists : Bool) (env : DeployEnv)
    (m : String) (haction : s.Action ≠ "DELETE")
    (h : resolveParameters lib s.Deployer s.StackName s.Parameters = .error (.plain m)) :
    (∃ err, lib.marshalPolicy s.StackPolicy = .error err ∧
      s.deployAction lib stackExists env = some (some err, [])) ∨
    ∃ p c, lib.marshalPolicy s.StackPolicy = .ok p ∧
      s.deployAction lib stackExists env = some (some (.plain m), [c]) ∧
      Call.resolvesParameters c = true ∧ Call.needsParameters c = false := by
  have hact : (s.Action == "DELETE") = false := by simpa using haction
  unfold Stack.deployAction
  rw [hact]
  simp only [Bool.false_eq_true, if_false]
  cases stackExists with
  | true =>
    simp only [if_true]
    unfold Stack.update
    cases hp : lib.marshalPolicy s.StackPolicy with
    | error err => exact Or.inl ⟨err, rfl, rfl⟩
    | ok stackPolicy =>
      have hg := GetStackChanges_unresolved lib s.Deployer (s.updateChangesOpts stackPolicy)
        env.update.getStackChanges _ h
      simp only [hg, Stack.updateChangesError]
      exact Or.inr ⟨stackPolicy, _, rfl, rfl, rfl, rfl⟩
  | false =>
    simp only [Bool.false_eq_true, if_false]
    unfold Stack.create
    cases hp : lib.marshalPolicy s.StackPolicy with
    | error err => exact Or.inl ⟨err, rfl, rfl⟩
    | ok stackPolicy =>
      have hg := CreateNewStack_unresolved lib s.Deployer (s.createStackOpts stackPolicy)
        env.create _ h
      simp only [hg]
      exact Or.inr ⟨stackPolicy, _, rfl, rfl, rfl, rfl⟩

theorem setTemplateLocation_keeps (lib : GoLib) (s : Stack) :
    (s.setTemplateLocation lib).StackName = s.StackName ∧
    (s.setTemplateLocation lib).Parameters = s.Parameters ∧
    (s.setTemplateLocation lib).Deployer = s.Deployer ∧
    (s.setTemplateLocation lib).Action = s.Action ∧
    (s.setTemplateLocation lib).StackPolicy = s.StackPolicy := by
  unfold Stack.setTemplateLocation
  by_cases habs : filepathIsAbs s.TemplatePath = true <;> by_cases hr : s.Region = "us-east-1" <;>
    simp [habs, hr]

theorem uploadTemplate_keeps (lib : GoLib) (s : Stack) (env : UploadEnv) :
    (s.uploadTemplate lib env).1.StackName = s.StackName ∧
    (s.uploadTemplate lib env).1.Parameters = s.Parameters ∧
    (s.uploadTemplate lib env).1.Deployer = s.Deployer ∧
    (s.uploadTemplate lib env).1.Action = s.Action ∧
    (s.uploadTemplate lib env).1.StackPolicy = s.StackPolicy ∧
    (∀ c ∈ (s.uploadTemplate lib env).2.2,
      Call.needsParameters c = false ∧ Call.resolvesParameters c = false) ∧
    ((s.uploadTemplate lib env).2.1 = none →
      (s.uploadTemplate lib env).2.2.any Call.isUpload = true) := by
  obtain ⟨h1, h2, h3, h4, h5⟩ := setTemplateLocation_keeps lib s
  unfold Stack.uploadTemplate
  rcases env.isServerlessTemplate with err | b
  · exact ⟨h1, h2, h3, h4, h5, by simp, by simp⟩
  · cases b with
    | false =>
      exact ⟨h1, h2, h3, h4, h5, by simp [Call.needsParameters, Call.resolvesParameters],
        by simp [Call.isUpload]⟩
    | true =>
      simp only [if_true]
      rcases env.packaged.2 with _ | err
      · exact ⟨h1, h2, h3, h4, h5, by simp [Call.needsParameters, Call.resolvesParameters],
          by simp [Call.isUpload]⟩
      · exact ⟨h1, h2, h3, h4, h5, by simp, by simp⟩

theorem StackExists_log (stackName : String)
    (events : List (Select (Except GoError (List StackDescription))))
    (r : Bool × Option GoError) (log : List Call)
    (h : StackExists stackName events = some (r, log)) :
    (∀ c ∈ log, c = Call.clientDescribeStacks stackName) ∧
      (r.2 = none → Call.clientDescribeStacks stackName ∈ log) := by
  induction events generalizing r log with
  | nil => simp [StackExists] at h
  | cons e rest ih =>
    have key : ∀ (x : Option ((Bool × Option GoError) × List Call)), x = some (r, log) →
        (x = withCalls [Call.clientDescribeStacks stackName] (StackExists stackName rest) ∨
          (∃ r0, x = some (r0, [Call.clientDescribeStacks stackName])) ∨
          ∃ b0 e0, x = some ((b0, some e0), [])) →
        (∀ c ∈ log, c = Call.clientDescribeStacks stackName) ∧
          (r.2 = none → Call.clientDescribeStacks stackName ∈ log) := by
      intro x hx hcase
      rcases hcase with h1 | ⟨r0, h1⟩ | ⟨b0, e0, h1⟩
      · rw [h1] at hx
        obtain ⟨log0, h2, h3⟩ := mem_withCalls hx
        rw [h3]
        refine ⟨fun c hc => ?_, fun _ => by simp⟩
        simp only [List.singleton_append, List.mem_cons] at hc
        rcases hc with hc | hc
        · exact hc
        · exact (ih r log0 h2).1 c hc
      · rw [h1] at hx
        simp only [Option.some.injEq, Prod.mk.injEq] at hx
        rw [← hx.2]
        exact ⟨fun c hc => by simpa using hc, fun _ => by simp⟩
      · rw [h1] at hx
        simp only [Option.some.injEq, Prod.mk.injEq] at hx
        rw [← hx.2, ← hx.1]
        exact ⟨fun c hc => by simp at hc, fun h0 => by simp at h0⟩
    apply key _ h
    cases e with
    | timeout => exact Or.inr (Or.inr ⟨_, _, rfl⟩)
    | tick resp =>
      cases resp with
      | error err =>
        cases err with
        | plain message => exact Or.inr (Or.inl ⟨_, rfl⟩)
        | aws code message =>
          simp only [StackExists]
          split
          · exact Or.inl rfl
          · split
            · split
              · exact Or.inl rfl
              · exact Or.inr (Or.inl ⟨_, rfl⟩)
            · split
              · exact Or.inl rfl
              · exact Or.inr (Or.inl ⟨_, rfl⟩)
      | ok listed =>
        simp only [StackExists]
        split
        · exact Or.inr (Or.inl ⟨_, rfl⟩)
        · exact Or.inr (Or.inl ⟨_, rfl⟩)

theorem uploadTemplate_other_parameters (lib : GoLib) (s : Stack) (env : UploadEnv)
    (params : List (String × String)) (deployer : CloudFormation) :
    Stack.uploadTemplate lib { s with Parameters := params, Deployer := deployer } env =
      ({ (s.uploadTemplate lib env).1 with Parameters := params, Deployer := deployer },
        (s.uploadTemplate lib env).2) := by
  unfold Stack.uploadTemplate Stack.setTemplateLocation
  by_cases habs : filepathIsAbs s.TemplatePath = true <;> by_cases hr : s.Region = "us-east-1" <;>
    rcases env.isServerlessTemplate with err | b
  all_goals first
    | (simp [habs, hr]; done)
    | (cases b <;> simp [habs, hr]
       rcases env.packaged.2 with _ | err <;> simp)

/-! ## Lemmas on worker pools -/

theorem nestedRun_single {J K : Type} (innerWorkers : J → List Int) (innerJobs : J → List K)
    (events : List NestedEvent) :
    ∀ (queue : List J) (steps : List (NestedStep J K)) (st : NestedState J K),
      (∀ job ∈ queue, innerWorkers job = [1] ∨ (innerWorkers job = [] ∧ innerJobs job = [])) →
      (nestedRun [1] innerWorkers innerJobs { queue := queue, busy := [] } events =
          some (steps, st) →
        steps <+: serialSteps 1 1 innerJobs queue ∧ st.inProgress ≤ 1) ∧
      (∀ (job : J) (jobs : List K),
        (innerWorkers job = [1] ∨ (innerWorkers job = [] ∧ jobs = [])) →
        nestedRun [1] innerWorkers innerJobs
            { queue := queue, busy := [(1, job, { queue := jobs, busy := [] })] } events =
          some (steps, st) →
        steps <+: (serialTrace 1 jobs).map (.inner 1) ++
            .finished 1 job :: serialSteps 1 1 innerJobs queue ∧
          st.inProgress ≤ 1) ∧
      ∀ (job : J) (jobs : List K) (held : K), innerWorkers job = [1] →
        nestedRun [1] innerWorkers innerJobs
            { queue := queue, busy := [(1, job, { queue := jobs, busy := [(1, held)] })] }
            events = some (steps, st) →
        steps <+: .inner 1 (.finished 1 held) :: ((serialTrace 1 jobs).map (.inner 1) ++
            .finished 1 job :: serialSteps 1 1 innerJobs queue) ∧
          st.inProgress ≤ 1 := by
  induction events with
  | nil =>
    intro queue steps st _
    refine ⟨fun h => ?_, fun job jobs _ h => ?_, fun job jobs held _ h => ?_⟩
    all_goals
      simp only [nestedRun, Option.some.injEq, Prod.mk.injEq] at h
      obtain ⟨h1, h2⟩ := h
      rw [← h1, ← h2]
      exact ⟨List.nil_prefix, by simp [NestedState.inProgress]⟩
  | cons e rest ih =>
    intro queue steps st hinner
    have step_cons : ∀ (x : NestedStep J K) (next : NestedState J K) (target : List (NestedStep J K)),
        (∀ steps2, nestedRun [1] innerWorkers innerJobs next rest = some (steps2, st) →
          steps2 <+: target ∧ st.inProgress ≤ 1) →
        (match nestedRun [1] innerWorkers innerJobs next rest with
          | none => none
          | some (steps2, final) => some (x :: steps2, final)) = some (steps, st) →
        steps <+: x :: target ∧ st.inProgress ≤ 1 := by
      intro x next target hnext h
      cases hr : nestedRun [1] innerWorkers innerJobs next rest with
      | none => rw [hr] at h; cases h
      | some p =>
        obtain ⟨steps2, final⟩ := p
        rw [hr] at h
        simp only [Option.some.injEq, Prod.mk.injEq] at h
        obtain ⟨h1, h2⟩ := h
        subst h2
        obtain ⟨h3, h4⟩ := hnext steps2 hr
        rw [← h1]
        exact ⟨(List.prefix_cons_inj x).2 h3, h4⟩
    refine ⟨fun h => ?_, fun job jobs hjob h => ?_, fun job jobs held hjob h => ?_⟩
    · cases e with
      | take v =>
        by_cases hv : v = 1
        · subst hv
          cases queue with
          | nil => simp [nestedRun, nestedStep] at h
          | cons job q =>
            simp only [nestedRun, nestedStep, List.contains_cons, beq_self_eq_true, Bool.true_or,
              List.lookup, Option.isNone_none, Bool.and_self, if_true, List.nil_append] at h
            exact step_cons _ _ _ (fun steps2 h2 =>
              (ih q steps2 st (fun x hx => hinner x (List.mem_cons_of_mem _ hx))).2.1 job
                (innerJobs job) (hinner job (List.mem_cons_self _ _)) h2) h
        · simp [nestedRun, nestedStep, hv] at h
      | inner v e2 => simp [nestedRun, nestedStep, List.lookup] at h
      | finish v => simp [nestedRun, nestedStep, List.lookup] at h
    · cases e with
      | take v =>
        by_cases hv : v = 1
        · subst hv
          simp [nestedRun, nestedStep, List.lookup] at h
        · simp [nestedRun, nestedStep, hv] at h
      | inner v e2 =>
        by_cases hv : v = 1
        · subst hv
          rcases hjob with hw | ⟨hw, hj⟩
          · cases e2 with
            | take u =>
              by_cases hu : u = 1
              · subst hu
                cases jobs with
                | nil => simp [nestedRun, nestedStep, poolStep, List.lookup, hw] at h
                | cons k ks =>
                  simp only [nestedRun, nestedStep, poolStep, List.lookup, beq_self_eq_true, hw,
                    List.contains_cons, Bool.true_or, Option.isNone_none, Bool.and_self, if_true,
                    List.nil_append, List.map_cons, List.map_nil] at h
                  have := step_cons _ _ _ (fun steps2 h2 =>
                    (ih queue steps2 st hinner).2.2 job ks k hw h2) h
                  simpa [serialTrace] using this
              · simp [nestedRun, nestedStep, poolStep, List.lookup, hw, hu] at h
            | finish u => simp [nestedRun, nestedStep, poolStep, List.lookup] at h
          · subst hj
            cases e2 with
            | take u => simp [nestedRun, nestedStep, poolStep, List.lookup, hw] at h
            | finish u => simp [nestedRun, nestedStep, poolStep, List.lookup] at h
        · have hb : (v == 1) = false := by simpa using hv
          simp [nestedRun, nestedStep, List.lookup, hb] at h
      | finish v =>
        by_cases hv : v = 1
        · subst hv
          cases jobs with
          | nil =>
            simp only [nestedRun, nestedStep, List.lookup, beq_self_eq_true, List.isEmpty_nil,
              Bool.and_self, if_true, List.filter, bne_self_eq_false] at h
            have := step_cons _ _ _ (fun steps2 h2 => (ih queue steps2 st hinner).1 h2) h
            simpa [serialTrace] using this
          | cons k ks => simp [nestedRun, nestedStep, List.lookup] at h
        · have hb : (v == 1) = false := by simpa using hv
          simp [nestedRun, nestedStep, List.lookup, hb] at h
    · cases e with
      | take v =>
        by_cases hv : v = 1
        · subst hv
          simp [nestedRun, nestedStep, List.lookup] at h
        · simp [nestedRun, nestedStep, hv] at h
      | inner v e2 =>
        by_cases hv : v = 1
        · subst hv
          cases e2 with
          | take u =>
            by_cases hu : u = 1
            · subst hu
              simp [nestedRun, nestedStep, poolStep, List.lookup, hjob] at h
            · simp [nestedRun, nestedStep, poolStep, List.lookup, hjob, hu] at h
          | finish u =>
            by_cases hu : u = 1
            · subst hu
              simp only [nestedRun, nestedStep, poolStep, List.lookup, beq_self_eq_true,
                List.filter, bne_self_eq_false, List.map_cons, List.map_nil, if_true] at h
              exact step_cons _ _ _ (fun steps2 h2 =>
                (ih queue steps2 st hinner).2.1 job jobs (Or.inl hjob) h2) h
            · have hb : (u == 1) = false := by simpa using hu
              simp [nestedRun, nestedStep, poolStep, List.lookup, hb] at h
        · have hb : (v == 1) = false := by simpa using hv
          simp [nestedRun, nestedStep, List.lookup, hb] at h
      | finish v =>
        by_cases hv : v = 1
        · subst hv
          simp [nestedRun, nestedStep, List.lookup] at h
        · have hb : (v == 1) = false := by simpa using hv
          simp [nestedRun, nestedStep, List.lookup, hb] at h

theorem nestedRun_inner_serial {J K : Type} (innerWorkers : J → List Int)
    (innerJobs : J → List K) (queue : List J) (job : J) (tail : List NestedEvent)
    (jobs : List K) (hjob : innerWorkers job = [1] ∨ jobs = []) :
    nestedRun [1] innerWorkers innerJobs
        { queue := queue, busy := [(1, job, { queue := jobs, busy := [] })] }
        ((serialSchedule 1 jobs).map (.inner 1) ++ tail) =
      (nestedRun [1] innerWorkers innerJobs
        { queue := queue, busy := [(1, job, { queue := [], busy := [] })] } tail).map
        (fun r => ((serialTrace 1 jobs).map (.inner 1) ++ r.1, r.2)) := by
  induction jobs with
  | nil =>
    simp only [serialSchedule, serialTrace, List.map_nil, List.nil_append]
    cases nestedRun [1] innerWorkers innerJobs
        { queue := queue, busy := [(1, job, { queue := [], busy := [] })] } tail with
    | none => rfl
    | some r => rfl
  | cons k ks ih =>
    have hw : innerWorkers job = [1] := by
      rcases hjob with h | h
      · exact h
      · cases h
    have ih2 := ih (Or.inl hw)
    simp only [serialSchedule, serialTrace, List.map_cons, List.cons_append, nestedRun,
      nestedStep, poolStep, List.lookup, beq_self_eq_true, hw, List.contains_cons, Bool.true_or,
      Option.isNone_none, Bool.and_self, if_true, List.nil_append, List.map_nil, List.filter,
      bne_self_eq_false, List.append_eq]
    rw [ih2]
    cases nestedRun [1] innerWorkers innerJobs
        { queue := queue, busy := [(1, job, { queue := [], busy := [] })] } tail with
    | none => rfl
    | some r => rfl

theorem nestedRun_serialEvents {J K : Type} (innerWorkers : J → List Int)
    (innerJobs : J → List K)
    (queue : List J)
    (hinner : ∀ job ∈ queue,
      innerWorkers job = [1] ∨ (innerWorkers job = [] ∧ innerJobs job = [])) :
    nestedRun [1] innerWorkers innerJobs { queue := queue, busy := [] }
        (serialEvents 1 1 innerJobs queue) =
      some (serialSteps 1 1 innerJobs queue, { queue := [], busy := [] }) := by
  induction queue with
  | nil => rfl
  | cons job rest ih =>
    have ih := ih (fun x hx => hinner x (List.mem_cons_of_mem _ hx))
    have hjob : innerWorkers job = [1] ∨ innerJobs job = [] := by
      rcases hinner job (List.mem_cons_self _ _) with h | ⟨_, h⟩
      · exact Or.inl h
      · exact Or.inr h
    simp only [serialEvents, serialSteps, nestedRun, nestedStep, List.contains_cons,
      beq_self_eq_true, Bool.true_or, List.lookup, Option.isNone_none, Bool.and_self, if_true,
      List.nil_append, List.append_eq]
    rw [nestedRun_inner_serial innerWorkers innerJobs rest job _ (innerJobs job) hjob]
    simp only [nestedRun, nestedStep, List.lookup, beq_self_eq_true, List.isEmpty_nil,
      Bool.and_self, if_true, List.filter, bne_self_eq_false, ih, Option.map_some']

/-! ## Lemmas on the object key of the template URL -/

theorem dropWhile_append_of_all {α : Type} (p : α → Bool) (a b : List α)
    (h : ∀ x ∈ a, p x = true) : (a ++ b).dropWhile p = b.dropWhile p := by
  induction a with
  | nil => rfl
  | cons x xs ih =>
    have hx : p x = true := h x (List.mem_cons_self _ _)
    simp only [List.cons_append, List.dropWhile_cons, hx, if_true]
    exact ih (fun y hy => h y (List.mem_cons_of_mem _ hy))

theorem replaceChars_of_not_contains (old new : List Char) (l : List Char)
    (h : containsChars l old = false) : replaceChars old new 0 l = l := by
  induction l with
  | nil => rfl
  | cons c cs ih =>
    simp only [containsChars, Bool.or_eq_false_iff] at h
    simp only [replaceChars, h.1, Bool.false_eq_true, if_false, ih h.2]

/-- The characters of the URL `uploadTemplate` assigns: scheme, host, slash, bucket,
slash and key, when the rewrite for us-east-1 finds nothing to replace after the host. -/
theorem setTemplateLocation_url_key (lib : GoLib) (s : Stack)
    (heast : s.Region = "us-east-1" →
      stringsContains (s.Bucket ++ "/" ++ s.UID ++
        (if filepathIsAbs s.TemplatePath then "" else "/") ++ s.TemplatePath)
        "https://s3-" = false) :
    (s.setTemplateLocation lib).TemplateUrl.toList =
      "https://".toList ++
        (if s.Region = "us-east-1" then "s3.us-east-1.amazonaws.com".toList
          else "s3-".toList ++ s.Region.toList ++ ".amazonaws.com".toList) ++
        '/' :: (s.Bucket.toList ++ '/' :: (s.UID ++
          (if filepathIsAbs s.TemplatePath then "" else "/") ++ s.TemplatePath).toList) := by
  rw [setTemplateLocation_TemplateUrl]
  have hkey : (s.Bucket ++ "/" ++ s.UID ++
        (if filepathIsAbs s.TemplatePath then "" else "/") ++ s.TemplatePath).toList =
      s.Bucket.toList ++ '/' :: (s.UID ++
        (if filepathIsAbs s.TemplatePath then "" else "/") ++ s.TemplatePath).toList := by
    simp [String.toList, String.data_append]
  by_cases hr : s.Region = "us-east-1"
  · rw [if_pos hr, if_pos hr]
    have hno := heast hr
    unfold stringsContains at hno
    rw [hkey] at hno
    have hlist : ("https://s3-" ++ s.Region ++ ".amazonaws.com/" ++ s.Bucket ++ "/" ++ s.UID ++
          (if filepathIsAbs s.TemplatePath then "" else "/") ++ s.TemplatePath).toList =
        "https://s3-us-east-1.amazonaws.com/".toList ++ (s.Bucket.toList ++ '/' :: (s.UID ++
          (if filepathIsAbs s.TemplatePath then "" else "/") ++ s.TemplatePath).toList) := by
      rw [hr]
      simp [String.toList, String.data_append]
    unfold stringsReplaceAll
    show replaceChars _ _ 0 _ = _
    rw [hlist, replace_usEast1_prefix, replaceChars_of_not_contains _ _ _ hno]
    rfl
  · rw [if_neg hr, if_neg hr]
    simp [String.toList, String.data_append]

theorem urlObjectKey_of_parts (url bucket key : String) (host : List Char)
    (hhost : ∀ c ∈ host, c ≠ '/')
    (hurl : url.toList = "https://".toList ++ host ++ '/' :: (bucket.toList ++ '/' :: key.toList)) :
    urlObjectKey url bucket = key := by
  unfold urlObjectKey
  apply String.ext
  show List.drop (1 + bucket.length + 1)
      (List.dropWhile (fun c => c != '/') (List.drop "https://".length url.toList)) = key.data
  have hdrop : ∀ X : List Char, List.drop "https://".length ("https://".toList ++ X) = X := by
    intro X
    exact List.drop_left _ _
  rw [hurl, List.append_assoc, hdrop, dropWhile_append_of_all]
  · have hlen : 1 + bucket.length + 1 = (bucket.toList ++ ['/']).length + 1 := by
      have h0 : bucket.length = bucket.toList.length := rfl
      rw [List.length_append, List.length_singleton, h0]
      omega
    simp only [List.dropWhile_cons, bne_self_eq_false, Bool.false_eq_true, if_false]
    rw [hlen, List.drop_succ_cons]
    have : bucket.toList ++ '/' :: key.toList = (bucket.toList ++ ['/']) ++ key.toList := by simp
    rw [this, List.drop_left]
    rfl
  · intro x hx
    simpa using hhost x hx

/-! ## Lemmas on the results a region diff worker reads -/

/-- C1: when the marshalled policy and the changeset diff are obtained and the diff has no
resource changes, no policy change and no forced update, `Stack.update` returns nil having
made exactly the calls of `GetStackChanges`; none of them enters `UpdateExistingStack` or
`SetStackPolicy` or is an `UpdateStack` or `SetStackPolicy` request. -/
theorem update_without_changes_submits_nothing (lib : GoLib) (s : Stack) (env : UpdateEnv)
    (stackPolicy : String) (changes : Changes) (log : List Call)
    (hmarshal : lib.marshalPolicy s.StackPolicy = .ok stackPolicy)
    (hchanges : GetStackChanges lib s.Deployer (s.updateChangesOpts stackPolicy)
      env.getStackChanges = some (.ok changes, log))
    (hres : changes.Resources = []) (hpol : changes.StackPolicyChange = false)
    (hforce : changes.ForceStackUpdate = false) :
    s.update lib env = some (none, log) ∧ ∀ c ∈ log, c.submitsUpdate = false := by
  refine ⟨?_, fun c hc =>
    not_submitsUpdate_of_isChangeSetCall c (GetStackChanges_log _ _ _ _ _ _ hchanges c hc)⟩
  unfold Stack.update
  rw [hmarshal]
  simp only [hchanges, hres, hpol, hforce]
  simp

/-- Witness for C1: an update of `vpc` whose changeset fails with the no-change reason. -/
theorem update_without_changes_submits_nothing_witness :
    (stackIn "eu-west-1").update sampleLib
        { getStackChanges := noChangeEnv, setStackPolicy := none
          updateExistingStack := { submit := [], describeStacks := [] } } =
      some (none,
        [.cfGetStackChanges ((stackIn "eu-west-1").updateChangesOpts "\x7b\x7d"),
          .clientGetStackPolicy "vpc",
          .clientCreateChangeSet
            (createChangeSetInput ((stackIn "eu-west-1").updateChangesOpts "\x7b\x7d") []),
          .clientDescribeChangeSet "changeset-run1-vpc" "vpc",
          .clientDeleteChangeSet "changeset-run1-vpc" "vpc"]) ∧
    ∀ c ∈
        [Call.cfGetStackChanges ((stackIn "eu-west-1").updateChangesOpts "\x7b\x7d"),
          .clientGetStackPolicy "vpc",
          .clientCreateChangeSet
            (createChangeSetInput ((stackIn "eu-west-1").updateChangesOpts "\x7b\x7d") []),
          .clientDescribeChangeSet "changeset-run1-vpc" "vpc",
          .clientDeleteChangeSet "changeset-run1-vpc" "vpc"],
      c.submitsUpdate = false :=
  update_without_changes_submits_nothing sampleLib (stackIn "eu-west-1") _ "\x7b\x7d"
    { Status := "", StatusReason := "", Resources := [], StackPolicyChange := false
      ForceStackUpdate := false } _ rfl rfl rfl rfl rfl

/-- C2: when the operation is throttled, the deadline then fires, and the operation
succeeds on the next tick, `stackDeployWorker` and `stackDiffWorker` each reach two sends
for the one job (the deadline error, then the outcome): the deadline case sends a result
and stays in the loop. -/
theorem worker_sends_two_results_after_deadline :
    (stackDeployWorker (fun s (e : Option GoError) => (e, s)) (stackIn "eu-west-1")
        throttledThenDeadline).1.map (fun r => r.Err) =
      [some (.plain "too many AWS API calls. Try again later"), none] ∧
    (stackDiffWorker (fun s (e : Option GoError) => (e, s)) (stackIn "eu-west-1")
        throttledThenDeadline).1.map (fun r => r.Err) =
      [some (.plain "too many AWS API calls. Try again later"), none] := by
  constructor <;> rfl

/-- C4: for a region other than us-east-1 the template URL starts with
`https://s3-<region>.amazonaws.com/`, and its host is `s3-<region>.amazonaws.com` when the
region name has no slash; for us-east-1 the host is `s3.us-east-1.amazonaws.com`, which
does not contain `s3-<region>`. -/
theorem templateUrl_host (lib : GoLib) (s : Stack) :
    (s.Region ≠ "us-east-1" →
      hasPrefix (s.setTemplateLocation lib).TemplateUrl
          ("https://s3-" ++ s.Region ++ ".amazonaws.com/") = true ∧
      ((∀ c ∈ s.Region.toList, c ≠ '/') →
        urlHost (s.setTemplateLocation lib).TemplateUrl =
          "s3-" ++ s.Region ++ ".amazonaws.com")) ∧
    (s.Region = "us-east-1" →
      urlHost (s.setTemplateLocation lib).TemplateUrl = "s3.us-east-1.amazonaws.com" ∧
      stringsContains (urlHost (s.setTemplateLocation lib).TemplateUrl) ("s3-" ++ s.Region) =
        false) := by
  obtain ⟨rest, h1, h2⟩ := setTemplateLocation_url lib s
  have hdrop : ∀ X : List Char, List.drop "https://".length ("https://".toList ++ X) = X := by
    intro X
    exact List.drop_left _ _
  constructor
  · intro hr
    constructor
    · unfold hasPrefix
      rw [h1 hr, List.isPrefixOf_iff_prefix]
      refine ⟨rest, ?_⟩
      simp [String.toList, String.data_append]
    · intro hslash
      unfold urlHost
      rw [h1 hr, List.append_assoc, hdrop, takeWhile_append_of_all]
      · apply String.ext
        simp [String.toList, String.data_append]
      · intro x hx
        simp only [List.mem_append] at hx
        rcases hx with (hx | hx) | hx
        · revert x; decide
        · simpa using hslash x hx
        · revert x; decide
  · intro hr
    have hhost : urlHost (s.setTemplateLocation lib).TemplateUrl = "s3.us-east-1.amazonaws.com" := by
      unfold urlHost
      rw [h2 hr, List.append_assoc, hdrop, takeWhile_append_of_all]
      · apply String.ext
        simp [String.toList]
      · decide
    rw [hhost, hr]
    exact ⟨rfl, by decide⟩

/-- Witness for C4: a stack in eu-west-1 and one in us-east-1. -/
theorem templateUrl_host_witness :
    urlHost ((stackIn "eu-west-1").setTemplateLocation sampleLib).TemplateUrl =
      "s3-" ++ (stackIn "eu-west-1").Region ++ ".amazonaws.com" ∧
    urlHost ((stackIn "us-east-1").setTemplateLocation sampleLib).TemplateUrl =
      "s3.us-east-1.amazonaws.com" :=
  ⟨((templateUrl_host sampleLib (stackIn "eu-west-1")).1 (by decide)).2 (by decide),
    ((templateUrl_host sampleLib (stackIn "us-east-1")).2 rfl).1⟩

/-- C5: once `DescribeChangeSet` reports `FAILED` with the no-change reason (after any
number of polls that keep the loop waiting), `trackChangeSetCreateStatus` returns an empty
resource list, `forceUpdate = false` and a nil error; and a `GetStackChanges` whose
parameters resolve, whose policy lookup succeeds and whose `CreateChangeSet` is accepted
then returns `Changes` with no resources and `ForceStackUpdate = false`, not an error. -/
theorem no_change_reason_is_success (stackName changeSetName : String)
    (waiting later : List (Select (Except GoError DescribeChangeSetOutput)))
    (res : DescribeChangeSetOutput)
    (hwait : ∀ e ∈ waiting, keepsTrackingChangeSet e = true)
    (hstatus : StringValue res.Status = ChangeSetStatusFailed)
    (hreason : StringValue res.StatusReason = noChangeErrorReason) :
    (∃ log, trackChangeSetCreateStatus stackName changeSetName
        (waiting ++ .tick (.ok res) :: later) = some (([], false, none), log)) ∧
    ∀ (lib : GoLib) (cf : CloudFormation) (opts : GetStackChangesOpts)
      (env : GetStackChangesEnv),
      (∃ ps, resolveParameters lib cf opts.StackName opts.Parameters = .ok ps) →
      (opts.Type_ = "UPDATE" → ∃ body s, env.getStackPolicy = .ok body ∧
        lib.reserialisePolicy (StringValue body) = .ok s) →
      env.createChangeSet = none →
      env.describeChangeSet = waiting ++ .tick (.ok res) :: later →
      ∃ changes log, GetStackChanges lib cf opts env = some (.ok changes, log) ∧
        changes.Resources = [] ∧ changes.ForceStackUpdate = false := by
  have htrack : ∀ n c, trackChangeSetCreateStatus n c (waiting ++ .tick (.ok res) :: later) =
      some (([], false, none),
        List.replicate waiting.length (.clientDescribeChangeSet c n) ++
          [.clientDescribeChangeSet c n]) := by
    intro n c
    rw [trackChangeSet_after_waiting n c waiting _ hwait]
    simp [trackChangeSetCreateStatus, hstatus, hreason, withCalls]
  refine ⟨⟨_, htrack stackName changeSetName⟩, ?_⟩
  intro lib cf opts env ⟨ps, hps⟩ hpolicy hcreate hdescribe
  have hsubmit : ∀ b, ∃ changes log,
      submitChangeSet opts (createChangeSetInput opts ps) b env = some (.ok changes, log) ∧
        changes.Resources = [] ∧ changes.ForceStackUpdate = false := by
    intro b
    simp only [submitChangeSet, hcreate, hdescribe, htrack]
    exact ⟨_, _, rfl, rfl, rfl⟩
  unfold GetStackChanges
  rw [hps]
  by_cases htype : opts.Type_ = "UPDATE"
  · obtain ⟨body, s, hbody, hs⟩ := hpolicy htype
    obtain ⟨changes, log, h1, h2, h3⟩ :=
      hsubmit (opts.StackPolicy != s && opts.StackPolicy != "\x7b\x7d")
    simp only [htype, beq_self_eq_true, if_true, hbody, hs, h1, withCalls]
    exact ⟨_, _, rfl, h2, h3⟩
  · obtain ⟨changes, log, h1, h2, h3⟩ := hsubmit false
    have : (opts.Type_ == "UPDATE") = false := by simpa using htype
    simp only [this, h1, withCalls]
    exact ⟨_, _, rfl, h2, h3⟩

/-- Witness for C5: one pending poll, then `FAILED` with the no-change reason. -/
theorem no_change_reason_is_success_witness :
    (∃ log, trackChangeSetCreateStatus "vpc" "changeset-run1-vpc"
        ([.tick (.ok pendingAnswer)] ++ .tick (.ok noChangeAnswer) :: []) =
          some (([], false, none), log)) ∧
    ∃ changes log, GetStackChanges sampleLib (stackIn "eu-west-1").Deployer
        ((stackIn "eu-west-1").updateChangesOpts "\x7b\x7d")
        { noChangeEnv with
          describeChangeSet := [.tick (.ok pendingAnswer)] ++ .tick (.ok noChangeAnswer) :: [] } =
          some (.ok changes, log) ∧
        changes.Resources = [] ∧ changes.ForceStackUpdate = false :=
  have h := no_change_reason_is_success "vpc" "changeset-run1-vpc" [.tick (.ok pendingAnswer)] []
    noChangeAnswer (by decide) (by decide) (by decide)
  ⟨h.1, h.2 sampleLib _ _ _ ⟨[], rfl⟩ (fun _ => ⟨some "\x7b\x7d", "\x7b\x7d", rfl, rfl⟩) rfl rfl⟩

/-- C6: once `DescribeChangeSet` reports `CREATE_COMPLETE` (after any number of polls that
keep the loop waiting), `trackChangeSetCreateStatus` returns a nil error, one
`ChangeResource` per listed change in the same order, carrying the change's logical id,
resource type, action and replacement, and `forceUpdate` is true exactly when no change is
listed. -/
theorem create_complete_lists_changes (stackName changeSetName : String)
    (waiting later : List (Select (Except GoError DescribeChangeSetOutput)))
    (res : DescribeChangeSetOutput)
    (hwait : ∀ e ∈ waiting, keepsTrackingChangeSet e = true)
    (hstatus : StringValue res.Status = ChangeSetStatusCreateComplete) :
    ∃ log, trackChangeSetCreateStatus stackName changeSetName
        (waiting ++ .tick (.ok res) :: later) =
      some ((res.Changes.map (fun change =>
                { Name := StringValue change.ResourceChange.LogicalResourceId
                  Type_ := StringValue change.ResourceChange.ResourceType
                  Action := StringValue change.ResourceChange.Action
                  Replacement := StringValue change.ResourceChange.Replacement }),
              res.Changes.isEmpty, none), log) := by
  rw [trackChangeSet_after_waiting stackName changeSetName waiting _ hwait]
  have hne : ¬ (ChangeSetStatusCreateComplete = ChangeSetStatusFailed) := by decide
  cases hch : res.Changes with
  | nil =>
    simp [trackChangeSetCreateStatus, hstatus, hne, hch, withCalls]
  | cons c cs =>
    simp [trackChangeSetCreateStatus, hstatus, hne, hch, withCalls, foldl_append_singleton,
      changeResourceOf]

/-- Witness for C6: a completed changeset listing two changes. -/
theorem create_complete_lists_changes_witness :
    ∃ log, trackChangeSetCreateStatus "vpc" "changeset-run1-vpc"
        ([.tick (.ok pendingAnswer)] ++ .tick (.ok twoChangesAnswer) :: []) =
      some (([⟨"Bucket", "AWS::S3::Bucket", "Modify", "False"⟩,
              ⟨"Queue", "AWS::SQS::Queue", "Add", ""⟩], false, none), log) :=
  create_complete_lists_changes "vpc" "changeset-run1-vpc" [.tick (.ok pendingAnswer)] []
    twoChangesAnswer (by decide) (by decide)

/-- C7, counterexample: the create of `vpc` is tracked to `ROLLBACK_COMPLETE`, so tracking
fails with "Failed to create stack vpc" and the stack is then listed in
`ROLLBACK_COMPLETE`; the automatic delete fails, and `CreateNewStack` returns the delete's
error, not the original create error. -/
theorem create_rollback_returns_delete_error :
    (trackStackCreateUpdateStatus "vpc"
        (rollbackEnv deleteFailsEnv).create.describeStacks).map Prod.fst =
      some (some (.plain "Failed to create stack vpc")) ∧
    ((rollbackEnv deleteFailsEnv).describeAfterFailure.toOption.map
        (fun listed => listed.filter (isRolledBack "vpc"))) =
      some (vpcListed StackStatusRollbackComplete "") ∧
    (CreateNewStack sampleLib ⟨"eu-west-1", fun _ _ _ => none⟩ vpcCreateOpts
        (rollbackEnv deleteFailsEnv)).map Prod.fst =
      some (some (.plain "Failed to delete stack vpc\nReason: bucket not empty")) ∧
    (CreateNewStack sampleLib ⟨"eu-west-1", fun _ _ _ => none⟩ vpcCreateOpts
        (rollbackEnv deleteFailsEnv)).map Prod.fst ≠
      some (some (.plain "Failed to create stack vpc")) := by
  refine ⟨rfl, rfl, rfl, ?_⟩
  decide

/-- C7, amended: when the create call is accepted, status tracking fails with `err`, and
`DescribeStacks` then lists exactly one stack of that name in `ROLLBACK_COMPLETE`, a
`CreateNewStack` whose automatic delete completes has entered `DeleteStack` exactly once,
for the same stack name, and returns `err` when the delete succeeded and the delete's error
when it failed. -/
theorem create_rollback_deletes_once (lib : GoLib) (cf : CloudFormation) (opts : CreateStackOpts)
    (env : CreateNewStackEnv) (ps : List Parameter) (log1 log2 log3 : List Call) (err : GoError)
    (listed : List StackDescription) (r : Option GoError)
    (hparams : resolveParameters lib cf opts.StackName opts.Parameters = .ok ps)
    (hsubmit : submitLoop opts.StackName (.clientCreateStack (createStackInput opts ps))
      env.create.submit = some (none, log1))
    (htrack : trackStackCreateUpdateStatus opts.StackName env.create.describeStacks =
      some (some err, log2))
    (hlisted : env.describeAfterFailure = .ok listed)
    (hone : (listed.filter (isRolledBack opts.StackName)).length = 1)
    (hdelete : DeleteStack { StackName := opts.StackName, RoleArn := "" } (env.deletes 0) =
      some (r, log3)) :
    ∃ log, CreateNewStack lib cf opts env =
        some (some (match r with
          | none => err
          | some err2 => err2), log) ∧
      log.filter Call.isDeleteStackEntry =
        [.cfDeleteStack { StackName := opts.StackName, RoleArn := "" }] := by
  have hrb := deleteRolledBack_one opts.StackName env.deletes listed 0 hone
  rw [hdelete] at hrb
  have h1 : ∀ c ∈ log1, c.isDeleteStackEntry = false := by
    intro c hc
    rw [submitLoop_log _ _ _ _ _ hsubmit c hc]; rfl
  have h2 : ∀ c ∈ log2, c.isDeleteStackEntry = false := by
    intro c hc
    rw [trackStack_log _ _ _ _ htrack c hc]; rfl
  have h3 := DeleteStack_log _ _ _ _ hdelete
  have hf1 : log1.filter Call.isDeleteStackEntry = [] := by
    rw [List.filter_eq_nil_iff]; intro c hc; rw [h1 c hc]; simp
  have hf2 : log2.filter Call.isDeleteStackEntry = [] := by
    rw [List.filter_eq_nil_iff]; intro c hc; rw [h2 c hc]; simp
  unfold CreateNewStack
  rw [hparams]
  simp only [hsubmit, htrack, hlisted, hrb]
  cases r with
  | none =>
    refine ⟨_, rfl, ?_⟩
    simp [List.filter_append, hf1, hf2, h3, Call.isDeleteStackEntry]
  | some err2 =>
    refine ⟨_, rfl, ?_⟩
    simp [List.filter_append, hf1, hf2, h3, Call.isDeleteStackEntry]

/-- Witness for C7: the automatic delete succeeds and the create error is returned. -/
theorem create_rollback_deletes_once_witness :
    ∃ log, CreateNewStack sampleLib ⟨"eu-west-1", fun _ _ _ => none⟩ vpcCreateOpts
        (rollbackEnv deleteSucceedsEnv) = some (some (.plain "Failed to create stack vpc"), log) ∧
      log.filter Call.isDeleteStackEntry = [.cfDeleteStack { StackName := "vpc", RoleArn := "" }] :=
  create_rollback_deletes_once sampleLib ⟨"eu-west-1", fun _ _ _ => none⟩ vpcCreateOpts
    (rollbackEnv deleteSucceedsEnv) [] _ _ _ (.plain "Failed to create stack vpc")
    (vpcListed StackStatusRollbackComplete "") none rfl rfl rfl rfl (by decide) rfl

/-- C8: `DeployOpts.Run` starts one region worker when `ParallelDeployment` is false and
one per region when it is true.  After a successful `preRun` of a serial manifest the stack
worker count is 1, the region jobs are sent in manifest order, and for each of them
`RegionDeployWorker` starts exactly one stack worker (none for a region without stacks) and
sends the stacks in manifest order.  However the workers are then scheduled, what happens
is a beginning of: the first region is taken, its stacks are taken and ended one after the
other in manifest order, the region is ended, the next region is taken, and so on; at most
one stack is in progress at any time; and the schedule that goes through all regions and
stacks can happen. -/
theorem deploy_pool_sizes (opts : DeployOpts) :
    (opts.manifest.ParallelDeployment = false → opts.Run_spawn = [1]) ∧
    (opts.manifest.ParallelDeployment = true →
      opts.Run_spawn.length = opts.manifest.Regions.length) ∧
    ∀ (lib : GoLib) (env : PreRunEnv) (before : DeployOpts),
      before.preRun lib env = .ok opts → opts.manifest.ParallelDeployment = false →
      opts.workers = 1 ∧
      opts.Run_jobs.map (fun job => (job.Region, job.Stacks.map (fun s => s.StackName))) =
        opts.manifest.Regions.map (fun r => (r.Name, r.Stacks.map (fun s => s.StackName))) ∧
      (∀ job ∈ opts.Run_jobs,
        RegionDeployWorker_spawn job = (if job.Stacks.length = 0 then [] else [1]) ∧
        ∀ bucket, (RegionDeployWorker_dispatch job bucket).map (fun j => j.stack.StackName) =
          job.Stacks.map (fun s => s.StackName)) ∧
      ∀ bucket : String → String,
        (∀ events steps st,
          nestedRun opts.Run_spawn RegionDeployWorker_spawn
              (fun job => RegionDeployWorker_dispatch job (bucket job.Region))
              { queue := opts.Run_jobs, busy := [] } events = some (steps, st) →
          steps <+: serialSteps 1 1
              (fun job => RegionDeployWorker_dispatch job (bucket job.Region)) opts.Run_jobs ∧
            st.inProgress ≤ 1) ∧
        nestedRun opts.Run_spawn RegionDeployWorker_spawn
            (fun job => RegionDeployWorker_dispatch job (bucket job.Region))
            { queue := opts.Run_jobs, busy := [] }
            (serialEvents 1 1 (fun job => RegionDeployWorker_dispatch job (bucket job.Region))
              opts.Run_jobs) =
          some (serialSteps 1 1 (fun job => RegionDeployWorker_dispatch job (bucket job.Region))
            opts.Run_jobs, { queue := [], busy := [] }) := by
  have hone : spawnIds 1 = [1] := by decide
  have hserial : opts.manifest.ParallelDeployment = false → opts.Run_spawn = [1] := by
    intro h
    simp [DeployOpts.Run_spawn, h, hone]
  refine ⟨hserial, ?_, ?_⟩
  · intro h
    simp [DeployOpts.Run_spawn, h, spawnIds_length]
  · intro lib env before hpre hser
    have hw := preRun_serial_workers lib before opts env hpre hser
    have hspawn : ∀ job ∈ opts.Run_jobs,
        RegionDeployWorker_spawn job = (if job.Stacks.length = 0 then [] else [1]) := by
      intro job hjob
      have hjw : job.StackDeployWorkers = 1 := by
        simp only [DeployOpts.Run_jobs, List.mem_map] at hjob
        obtain ⟨r, _, hr⟩ := hjob
        rw [← hr]
        exact hw
      unfold RegionDeployWorker_spawn
      rw [hjw]
      by_cases hlen : job.Stacks.length = 0
      · simp [hlen, spawnIds]
      · have hlt : ¬ ((job.Stacks.length : Int) < 1) := by omega
        simp [hlen, hlt, hone]
    have hinner : ∀ bucket : String → String, ∀ job ∈ opts.Run_jobs,
        RegionDeployWorker_spawn job = [1] ∨
          (RegionDeployWorker_spawn job = [] ∧
            RegionDeployWorker_dispatch job (bucket job.Region) = []) := by
      intro bucket job hjob
      rw [hspawn job hjob]
      by_cases hlen : job.Stacks.length = 0
      · right
        have : job.Stacks = [] := List.length_eq_zero.mp hlen
        simp [RegionDeployWorker_dispatch, this]
      · left
        rw [if_neg hlen]
    refine ⟨hw, ?_, ?_, ?_⟩
    · simp [DeployOpts.Run_jobs, List.map_map, Function.comp_def]
    · intro job hjob
      refine ⟨hspawn job hjob, fun bucket => ?_⟩
      unfold RegionDeployWorker_dispatch
      rw [List.map_map]
      conv_rhs => rw [← List.enum_map_snd job.Stacks]
      rw [List.map_map]
      rfl
    · intro bucket
      rw [hserial hser]
      exact ⟨fun events steps st h =>
          (nestedRun_single RegionDeployWorker_spawn _ events opts.Run_jobs steps st
            (hinner bucket)).1 h,
        nestedRun_serialEvents RegionDeployWorker_spawn _ opts.Run_jobs (hinner bucket)⟩

/-- Witness for C8: a serial manifest of two regions with one stack each; eu-west-1 is
taken, its stack is taken and ended, eu-west-1 is ended, and then the same for
us-east-1. -/
theorem deploy_pool_sizes_witness :
    ∃ opts, sampleDeployOpts.preRun sampleLib (samplePreRunEnv (twoRegions false)) = .ok opts ∧
      opts.Run_spawn = [1] ∧ opts.workers = 1 ∧
      opts.Run_jobs.map (fun job => (job.Region, job.Stacks.map (fun s => s.StackName))) =
        [("eu-west-1", ["vpc"]), ("us-east-1", ["vpc"])] ∧
      (∀ job ∈ opts.Run_jobs,
        RegionDeployWorker_spawn job = (if job.Stacks.length = 0 then [] else [1])) ∧
      (nestedRun opts.Run_spawn RegionDeployWorker_spawn
          (fun job => RegionDeployWorker_dispatch job "templates")
          { queue := opts.Run_jobs, busy := [] }
          (serialEvents 1 1 (fun job => RegionDeployWorker_dispatch job "templates")
            opts.Run_jobs)).map (fun r => deploySteps r.1) =
        some [("region", true, "eu-west-1"), ("stack", true, "eu-west-1/vpc"),
          ("stack", false, "eu-west-1/vpc"), ("region", false, "eu-west-1"),
          ("region", true, "us-east-1"), ("stack", true, "us-east-1/vpc"),
          ("stack", false, "us-east-1/vpc"), ("region", false, "us-east-1")] :=
  ⟨_, rfl, by decide,
    ((deploy_pool_sizes _).2.2 sampleLib (samplePreRunEnv (twoRegions false)) sampleDeployOpts
      rfl rfl).1,
    ((deploy_pool_sizes _).2.2 sampleLib (samplePreRunEnv (twoRegions false)) sampleDeployOpts
      rfl rfl).2.1,
    fun job hjob =>
      (((deploy_pool_sizes _).2.2 sampleLib (samplePreRunEnv (twoRegions false)) sampleDeployOpts
        rfl rfl).2.2.1 job hjob).1,
    by
      rw [(((deploy_pool_sizes _).2.2 sampleLib (samplePreRunEnv (twoRegions false))
        sampleDeployOpts rfl rfl).2.2.2 (fun _ => "templates")).2]
      rfl⟩

/-- C9, counterexample: a region job of two stacks asking for -1 stack workers starts no
worker, which is not min(-1, 2). -/
theorem deploy_workers_negative_count :
    (RegionDeployWorker_spawn (deployJobOf (-1) 2)).length = 0 ∧
    ((RegionDeployWorker_spawn (deployJobOf (-1) 2)).length : Int) ≠
      min (deployJobOf (-1) 2).StackDeployWorkers ((deployJobOf (-1) 2).Stacks.length : Int) := by
  decide

/-- C9, amended: the number of stack deploy workers `RegionDeployWorker` starts is
min(StackDeployWorkers, number of stacks), or zero when that is negative. -/
theorem deploy_workers_clamped (job : RegionDeployWorkerJob) :
    ((RegionDeployWorker_spawn job).length : Int) =
      max 0 (min job.StackDeployWorkers (job.Stacks.length : Int)) := by
  unfold RegionDeployWorker_spawn
  rw [spawnIds_length]
  split <;> omega

/-- C10: a region diff job of ten stacks asking for two stack workers starts ten workers,
and one of sixty stacks asking for a hundred starts a hundred: the count is compared with
`MaxWorker`, not with the requested count. -/
theorem diff_workers_not_clamped :
    (RegionDiffWorker_spawn (diffJobOf 2 10)).length = 10 ∧
    min (diffJobOf 2 10).StackDiffWorker ((diffJobOf 2 10).Stacks.length : Int) = 2 ∧
    (RegionDiffWorker_spawn (diffJobOf 100 60)).length = 100 ∧
    min (diffJobOf 100 60).StackDiffWorker ((diffJobOf 100 60).Stacks.length : Int) = 60 := by
  decide

/-- C11: one `RegionDeployWorker` takes two region jobs in turn; the stack of eu-west-1
fails and the stack of us-east-1 deploys, yet the result sent for us-east-1 carries the
error of eu-west-1: `errResult` is declared before the job loop and never reset. -/
theorem region_error_carried_to_next_region :
    (RegionDeployWorker failingThenHealthy).map
        (fun t => t.results.map (fun r => (r.Region, r.Err))) =
      [[("eu-west-1",
          some (.plain "Deployments failed for stack(s) vpc in region eu-west-1"))],
        [("us-east-1",
          some (.plain "Deployments failed for stack(s) vpc in region eu-west-1"))]] := by
  rfl

/-- C12: when the bucket lookup fails, `RegionDeployWorker` and `RegionDiffWorker` send
the setup error and mark the job done, then go on: the region's stack is dispatched with an
empty bucket, a second result is sent and the job is marked done a second time. -/
theorem bucket_failure_reported_twice :
    ((RegionDeployWorker_job none (serialJobOf "eu-west-1") bucketLookupFails
        (deployResultsOf (serialJobOf "eu-west-1") ""
          (some (.plain "upload failed")))).1.results.map (fun r => (r.Region, r.Err)) =
      [("eu-west-1", some (.plain "cfstack-Init stack doesnt exist")),
        ("eu-west-1",
          some (.plain "Deployments failed for stack(s) vpc in region eu-west-1"))] ∧
    (RegionDeployWorker_job none (serialJobOf "eu-west-1") bucketLookupFails
        (deployResultsOf (serialJobOf "eu-west-1") ""
          (some (.plain "upload failed")))).1.done = 2 ∧
    (RegionDeployWorker_job none (serialJobOf "eu-west-1") bucketLookupFails
        (deployResultsOf (serialJobOf "eu-west-1") ""
          (some (.plain "upload failed")))).1.dispatched.map
            (fun j => (j.stack.StackName, j.bucket)) = [("vpc", "")]) ∧
    ((RegionDiffWorker_job none (diffJobOf 2 1) bucketLookupFails
        (diffResultsOf (diffJobOf 2 1) ""
          (some (.plain "upload failed")))).1.results.map (fun r => (r.Region, r.Err)) =
      [("eu-west-1", some (.plain "cfstack-Init stack doesnt exist")),
        ("eu-west-1", some (.plain "diff for few stacks in eu-west-1 region has failed"))] ∧
    (RegionDiffWorker_job none (diffJobOf 2 1) bucketLookupFails
        (diffResultsOf (diffJobOf 2 1) ""
          (some (.plain "upload failed")))).1.done = 2 ∧
    (RegionDiffWorker_job none (diffJobOf 2 1) bucketLookupFails
        (diffResultsOf (diffJobOf 2 1) ""
          (some (.plain "upload failed")))).1.dispatched.map
            (fun j => (j.stack.StackName, j.bucket)) = [("vpc", "")]) := by
  refine ⟨⟨rfl, rfl, rfl⟩, rfl, rfl, rfl⟩

/-- C13, counterexample: a manifest that lists eu-west-1 twice passes validation; when the
stack fails in both runs, the region worker sends two results with an error for eu-west-1
and `DeployOpts.Run` names the region twice. -/
theorem failed_region_named_twice :
    (manifestOf ["eu-west-1", "eu-west-1"]).validateManifestFile sampleManifestLib = none ∧
    ((RegionDeployWorker sameRegionTwice).map (fun t => t.results.map (fun r => r.Region))).flatten =
      ["eu-west-1", "eu-west-1"] ∧
    DeployOpts.Run_result ((RegionDeployWorker sameRegionTwice).map (fun t => t.results)).flatten =
      some (.plain "Deployment failed in region(s): eu-west-1, eu-west-1") := by
  refine ⟨by decide, rfl, rfl⟩

/-- C13, amended: `DeployOpts.Run` returns an error exactly when some region result carries
one; the error is "Deployment failed in region(s): " followed by the region of each result
with an error, one entry per such result, in the order received and joined by ", ".  A
region is named as many times as results with an error carry its name, and a region
without such a result is not named. -/
theorem deploy_run_error (results : List RegionDeployWorkerResult) :
    ((DeployOpts.Run_result results).isSome = true ↔ ∃ r ∈ results, r.Err.isSome = true) ∧
    (∀ e, DeployOpts.Run_result results = some e →
      e = .plain ("Deployment failed in region(s): " ++
        stringsJoin ((results.filter (fun r => r.Err.isSome)).map (fun r => r.Region)) ", ")) ∧
    (∀ name : String,
      ((results.filter (fun r => r.Err.isSome)).map (fun r => r.Region)).count name =
        (results.filter (fun r => r.Err.isSome && r.Region == name)).length) ∧
    (∀ name ∈ (results.filter (fun r => r.Err.isSome)).map (fun r => r.Region),
      ∃ r ∈ results, r.Region = name ∧ r.Err.isSome = true) := by
  have hcount : ∀ name : String,
      ((results.filter (fun r => r.Err.isSome)).map (fun r => r.Region)).count name =
        (results.filter (fun r => r.Err.isSome && r.Region == name)).length := by
    intro name
    induction results with
    | nil => rfl
    | cons r rest ih =>
      by_cases he : r.Err.isSome = true
      · by_cases hn : r.Region = name
        · simp [List.filter_cons, he, hn, ih]
        · have hb : (r.Region == name) = false := by simpa using hn
          have hne : name ≠ r.Region := fun h => hn h.symm
          simp [List.filter_cons, he, hb, ih, List.count_cons_of_ne hne]
      · have he2 : r.Err.isSome = false := by simpa using he
        simp [List.filter_cons, he2, ih]
  have hcollect := DeployOpts_Run_collect_eq results []
  simp only [List.nil_append] at hcollect
  refine ⟨?_, ?_, ?_, ?_⟩
  · unfold DeployOpts.Run_result
    rw [hcollect]
    by_cases hex : ∃ r ∈ results, r.Err.isSome = true
    · obtain ⟨r, hr, he⟩ := hex
      have hmem : r ∈ results.filter (fun r => r.Err.isSome) := List.mem_filter.mpr ⟨hr, he⟩
      have hpos : ((results.filter (fun r => r.Err.isSome)).map (fun r => r.Region)).length > 0 := by
        rw [List.length_map]
        exact List.length_pos_of_mem hmem
      simp only [hpos, if_true, Option.isSome_some, true_iff]
      exact ⟨r, hr, he⟩
    · have hnil : results.filter (fun r => r.Err.isSome) = [] := by
        rw [List.filter_eq_nil_iff]
        intro r hr he
        exact hex ⟨r, hr, he⟩
      simp only [hnil, List.map_nil, List.length_nil, gt_iff_lt, lt_self_iff_false, if_false,
        Option.isSome_none, Bool.false_eq_true, false_iff]
      exact hex
  · intro e he
    unfold DeployOpts.Run_result at he
    rw [hcollect] at he
    simp only at he
    split at he
    · simp only [Option.some.injEq] at he
      exact he.symm
    · cases he
  · intro name
    exact hcount name
  · intro name hname
    obtain ⟨r, hr, hrn⟩ := List.mem_map.1 hname
    obtain ⟨hr1, hr2⟩ := List.mem_filter.1 hr
    exact ⟨r, hr1, hrn, hr2⟩

/-- Witness for C13: of three regions read as eu-west-1, us-east-1, ap-south-1 the first
and the last failed. -/
theorem deploy_run_error_witness :
    (DeployOpts.Run_result threeRegionResults).isSome = true ∧
    GoError.plain "Deployment failed in region(s): eu-west-1, ap-south-1" =
      .plain ("Deployment failed in region(s): " ++
        stringsJoin ((threeRegionResults.filter (fun r => r.Err.isSome)).map
          (fun r => r.Region)) ", ") :=
  ⟨(deploy_run_error threeRegionResults).1.mpr
      ⟨{ Region := "eu-west-1"
         Err := some (.plain "Deployments failed for stack(s) vpc in region eu-west-1") },
        by unfold threeRegionResults; exact List.mem_cons_self _ _, rfl⟩,
    (deploy_run_error threeRegionResults).2.1 _ rfl⟩

/-- C14: when the diffs of eu-west-1 and us-east-1 both report an error, the error
`DiffOpts.Run` returns names us-east-1 only: each failed region overwrites `errResult`. -/
theorem diff_run_names_last_region_only :
    DiffOpts.Run_result sampleDiffOpts writesDiff twoFailedDiffs =
      some (.plain "diff for us-east-1 has failed with a few errors") ∧
    stringsContains "diff for us-east-1 has failed with a few errors" "eu-west-1" = false := by
  refine ⟨rfl, by decide⟩

/-- C16: once `DescribeStacks` succeeds (after any number of polls that keep the loop
waiting), `StackExists` returns `(false, nil)` when a listed stack has the requested name
and status `REVIEW_IN_PROGRESS`, and `(true, nil)` when no listed stack has. -/
theorem stackExists_review_in_progress (stackName : String)
    (waiting later : List (Select (Except GoError (List StackDescription))))
    (listed : List StackDescription)
    (hwait : ∀ e ∈ waiting, keepsCheckingExists e = true) :
    ((∃ s ∈ listed, StringValue s.StackName = stackName ∧
        StringValue s.StackStatus = "REVIEW_IN_PROGRESS") →
      ∃ log, StackExists stackName (waiting ++ .tick (.ok listed) :: later) =
        some ((false, none), log)) ∧
    ((¬ ∃ s ∈ listed, StringValue s.StackName = stackName ∧
        StringValue s.StackStatus = "REVIEW_IN_PROGRESS") →
      ∃ log, StackExists stackName (waiting ++ .tick (.ok listed) :: later) =
        some ((true, none), log)) := by
  have hiff := listsReviewInProgress_iff stackName listed
  rw [StackExists_after_waiting stackName waiting _ hwait]
  constructor
  · intro hex
    have hl : listsReviewInProgress stackName listed = true := hiff.mpr hex
    simp [StackExists, hl, withCalls]
  · intro hex
    have hl : listsReviewInProgress stackName listed = false := by
      cases hb : listsReviewInProgress stackName listed with
      | false => rfl
      | true => exact absurd (hiff.mp hb) hex
    simp [StackExists, hl, withCalls]

/-- Witness for C16: after a throttled poll, a stack in `REVIEW_IN_PROGRESS` does not
exist and a stack in `CREATE_COMPLETE` does. -/
theorem stackExists_review_in_progress_witness :
    (∃ log, StackExists "vpc"
        ([.tick (.error (.aws "Throttling" "Rate exceeded"))] ++
          .tick (.ok (vpcListed "REVIEW_IN_PROGRESS" "")) :: []) = some ((false, none), log)) ∧
    (∃ log, StackExists "vpc"
        ([.tick (.error (.aws "Throttling" "Rate exceeded"))] ++
          .tick (.ok (vpcListed "CREATE_COMPLETE" "")) :: []) = some ((true, none), log)) :=
  ⟨(stackExists_review_in_progress "vpc" [.tick (.error (.aws "Throttling" "Rate exceeded"))] []
      (vpcListed "REVIEW_IN_PROGRESS" "") (by decide)).1 (by decide),
    (stackExists_review_in_progress "vpc" [.tick (.error (.aws "Throttling" "Rate exceeded"))] []
      (vpcListed "CREATE_COMPLETE" "") (by decide)).2 (by decide)⟩

/-- C17: on a tick whose operation returns the error `err`, `stackDeployWorker` and
`stackDiffWorker` send nothing and go on with the next event when `err` is an AWS error
with code `Throttling`, `RequestError` or `ChangeSetNotFound` or a `ValidationError`
containing "S3 error: Access Denied"; for every other error they send one result carrying
`err` and leave the loop. -/
theorem worker_retries_transient_errors {E : Type} (op : Stack → E → Option GoError × Stack)
    (s s' : Stack) (e : E) (rest : List (Select E)) (err : GoError)
    (hop : op s e = (some err, s')) :
    (retriedByWorker err = true →
      stackDeployWorker op s (.tick e :: rest) = stackDeployWorker op s' rest ∧
      stackDiffWorker op s (.tick e :: rest) = stackDiffWorker op s' rest) ∧
    (retriedByWorker err = false →
      stackDeployWorker op s (.tick e :: rest) = ([{ Stack := s', Err := some err }], true) ∧
      stackDiffWorker op s (.tick e :: rest) = ([{ Stack := s', Err := some err }], true)) := by
  cases err with
  | plain message =>
    constructor
    · intro h; simp [retriedByWorker] at h
    · intro _
      constructor
      · simp [stackDeployWorker, hop]
      · simp [stackDiffWorker, hop]
  | aws code message =>
    constructor
    · intro h
      simp only [retriedByWorker, Bool.or_eq_true, Bool.and_eq_true, beq_iff_eq] at h
      rcases h with ((h1 | h1) | h1) | ⟨h1, h2⟩
      · constructor
        · simp [stackDeployWorker, hop, h1]
        · simp [stackDiffWorker, hop, h1]
      · have ht : ¬ code = "Throttling" := by rw [h1]; decide
        have hv : ¬ code = "ValidationError" := by rw [h1]; decide
        constructor
        · simp [stackDeployWorker, hop, ht, hv, h1]
        · simp [stackDiffWorker, hop, ht, hv, h1]
      · have ht : ¬ code = "Throttling" := by rw [h1]; decide
        have hv : ¬ code = "ValidationError" := by rw [h1]; decide
        have hq : ¬ code = "RequestError" := by rw [h1]; decide
        constructor
        · simp [stackDeployWorker, hop, ht, hv, hq, h1]
        · simp [stackDiffWorker, hop, ht, hv, hq, h1]
      · have ht : ¬ code = "Throttling" := by rw [h1]; decide
        constructor
        · simp [stackDeployWorker, hop, ht, h1, h2]
        · simp [stackDiffWorker, hop, ht, h1, h2]
    · intro h
      simp only [retriedByWorker, Bool.or_eq_false_iff, Bool.and_eq_false_imp, beq_eq_false_iff_ne,
        ne_eq, beq_iff_eq] at h
      obtain ⟨⟨⟨ht, hq⟩, hc⟩, hv⟩ := h
      by_cases hval : code = "ValidationError"
      · have hm := hv hval
        constructor
        · simp [stackDeployWorker, hop, ht, hval, hm]
        · simp [stackDiffWorker, hop, ht, hval, hm]
      · constructor
        · simp [stackDeployWorker, hop, ht, hq, hc, hval]
        · simp [stackDiffWorker, hop, ht, hq, hc, hval]

/-- Witness for C17: a throttled tick is passed over, a failed rollback is reported. -/
theorem worker_retries_transient_errors_witness :
    (stackDeployWorker (fun s (e : Option GoError) => (e, s)) (stackIn "eu-west-1")
        (.tick (some (.aws "Throttling" "Rate exceeded")) :: [.tick none]) =
      stackDeployWorker (fun s (e : Option GoError) => (e, s)) (stackIn "eu-west-1")
        [.tick none]) ∧
    (stackDiffWorker (fun s (e : Option GoError) => (e, s)) (stackIn "eu-west-1")
        (.tick (some (.plain "Failed to update stack vpc")) :: [.tick none]) =
      ([{ Stack := stackIn "eu-west-1", Err := some (.plain "Failed to update stack vpc") }],
        true)) :=
  ⟨((worker_retries_transient_errors (fun s (e : Option GoError) => (e, s)) (stackIn "eu-west-1")
      (stackIn "eu-west-1") (some (.aws "Throttling" "Rate exceeded")) [.tick none]
      (.aws "Throttling" "Rate exceeded") rfl).1 (by decide)).1,
    ((worker_retries_transient_errors (fun s (e : Option GoError) => (e, s)) (stackIn "eu-west-1")
      (stackIn "eu-west-1") (some (.plain "Failed to update stack vpc")) [.tick none]
      (.plain "Failed to update stack vpc") rfl).2 (by decide)).2⟩

/-- C18: on an existing stack, a `Throttling` error of the policy read and a `RequestError`
of `CreateChangeSet` each come back from `Stack.Deploy` as the plain error "Unhandled AWS
error for stack vpc ...", and the stack deploy worker, on the tick where `Deploy` returns
that, sends a failed result and leaves the loop without trying the next tick. -/
theorem transient_update_error_is_reported :
    (Stack.Deploy sampleLib (stackIn "eu-west-1") (existingStackEnv policyThrottled)).map
        (fun r =>
          ((stackDeployWorker returned (stackIn "eu-west-1")
              [.tick (r.1, r.2.1), .tick (none, r.2.1)]).1.map (fun x => x.Err),
            (stackDeployWorker returned (stackIn "eu-west-1")
              [.tick (r.1, r.2.1), .tick (none, r.2.1)]).2)) =
      some ([some (.plain "Unhandled AWS error for stack vpc\nRate exceeded")], true) ∧
    (Stack.Deploy sampleLib (stackIn "eu-west-1")
        (existingStackEnv createChangeSetRequestError)).map
        (fun r =>
          ((stackDeployWorker returned (stackIn "eu-west-1")
              [.tick (r.1, r.2.1), .tick (none, r.2.1)]).1.map (fun x => x.Err),
            (stackDeployWorker returned (stackIn "eu-west-1")
              [.tick (r.1, r.2.1), .tick (none, r.2.1)]).2)) =
      some ([some (.plain "Unhandled AWS error for stack vpc\nsend request failed")], true) := by
  constructor <;> rfl

/-- C19: when changeset tracking ends with a fatal `FAILED` status, with a describe error
or with the deadline, `GetStackChanges` has sent `CreateChangeSet` and returns an error
without any `DeleteChangeSet` call. -/
theorem changeset_not_deleted_after_failed_tracking :
    changeSetSummary (GetStackChanges sampleLib (stackIn "eu-west-1").Deployer
        ((stackIn "eu-west-1").updateChangesOpts "\x7b\x7d")
        (trackedEnv [.tick (.ok failedAnswer)])) = some (false, true, false) ∧
    changeSetSummary (GetStackChanges sampleLib (stackIn "eu-west-1").Deployer
        ((stackIn "eu-west-1").updateChangesOpts "\x7b\x7d")
        (trackedEnv [.tick (.error (.aws "AccessDenied" "not authorized"))])) =
      some (false, true, false) ∧
    changeSetSummary (GetStackChanges sampleLib (stackIn "eu-west-1").Deployer
        ((stackIn "eu-west-1").updateChangesOpts "\x7b\x7d")
        (trackedEnv [.timeout])) = some (false, true, false) := by
  decide

/-- C20: when `GetStackChanges` returns `Changes`, for type `UPDATE` the flag
`StackPolicyChange` is true exactly when the desired policy differs from the current
policy as re-serialised and is not the empty object; for any other type, `CREATE` among
them, the flag is false. -/
theorem stack_policy_change_flag (lib : GoLib) (cf : CloudFormation) (opts : GetStackChangesOpts)
    (env : GetStackChangesEnv) (changes : Changes) (log : List Call)
    (h : GetStackChanges lib cf opts env = some (.ok changes, log)) :
    (opts.Type_ = "UPDATE" →
      ∀ body s, env.getStackPolicy = .ok body →
        lib.reserialisePolicy (StringValue body) = .ok s →
        (changes.StackPolicyChange = true ↔
          opts.StackPolicy ≠ s ∧ opts.StackPolicy ≠ "\x7b\x7d")) ∧
    (opts.Type_ ≠ "UPDATE" → changes.StackPolicyChange = false) ∧
    (opts.Type_ = "CREATE" → changes.StackPolicyChange = false) := by
  unfold GetStackChanges at h
  obtain ⟨log0, h0, _⟩ := mem_withCalls h
  have hmain : (opts.Type_ = "UPDATE" →
      ∃ body s, env.getStackPolicy = .ok body ∧
        lib.reserialisePolicy (StringValue body) = .ok s ∧
        (changes.StackPolicyChange = true ↔
          opts.StackPolicy ≠ s ∧ opts.StackPolicy ≠ "\x7b\x7d")) ∧
    (opts.Type_ ≠ "UPDATE" → changes.StackPolicyChange = false) := by
    split at h0
    · simp at h0
    · by_cases htype : opts.Type_ = "UPDATE"
      · simp only [htype, beq_self_eq_true, if_true] at h0
        refine ⟨fun _ => ?_, fun hne => absurd htype hne⟩
        split at h0
        · simp at h0
        · rename_i body hbody
          split at h0
          · simp at h0
          · rename_i s hs
            obtain ⟨log1, h1, _⟩ := mem_withCalls h0
            have hflag := submitChangeSet_policyFlag _ _ _ _ _ _ h1
            refine ⟨body, s, hbody, hs, ?_⟩
            rw [hflag]
            simp
      · have hb : (opts.Type_ == "UPDATE") = false := by simpa using htype
        simp only [hb, Bool.false_eq_true, if_false] at h0
        exact ⟨fun ht => absurd ht htype, fun _ => submitChangeSet_policyFlag _ _ _ _ _ _ h0⟩
  refine ⟨?_, hmain.2, fun hc => hmain.2 ?_⟩
  · intro htype body s hbody hs
    obtain ⟨body0, s0, hbody0, hs0, hiff⟩ := hmain.1 htype
    rw [hbody0] at hbody
    cases hbody
    rw [hs0] at hs
    cases hs
    exact hiff
  · rw [hc]
    decide

/-- Witness for C20: an update whose desired policy differs from the applied empty one. -/
theorem stack_policy_change_flag_witness :
    ∃ changes log, GetStackChanges sampleLib (stackIn "eu-west-1").Deployer
        ((stackIn "eu-west-1").updateChangesOpts denyAllPolicy) noChangeEnv =
          some (.ok changes, log) ∧
      changes.StackPolicyChange = true :=
  ⟨_, _, rfl,
    ((stack_policy_change_flag sampleLib (stackIn "eu-west-1").Deployer
      ((stackIn "eu-west-1").updateChangesOpts denyAllPolicy) noChangeEnv _ _ rfl).1 rfl
        (some "\x7b\x7d") "\x7b\x7d" rfl rfl).mpr ⟨by decide, by decide⟩⟩

/-- C21, counterexample: the parameter `Env` of the stack `vpc` refers to a value the
store does not hold.  `Stack.Deploy` returns the error for the missing value after it has
uploaded the template and called `ValidateTemplate` and `DescribeStacks`; and when the
stack is to be deleted, the parameters are not looked at and `Deploy` returns nil. -/
theorem missing_value_found_after_remote_calls :
    (Stack.Deploy sampleLib missingValueStack (existingStackEnv noChangeEnv)).map
        (fun r => (r.1, r.2.2.take 3)) =
      some (some (.plain "Value env for parameter Env not found in values"),
        [.UploadToS3 "templates" "/vpc/vpc.json" "run1/vpc/vpc.json",
          .clientValidateTemplate "https://s3-eu-west-1.amazonaws.com/templates/run1/vpc/vpc.json",
          .clientDescribeStacks "vpc"]) ∧
    (Stack.Deploy sampleLib missingValueDelete deleteExistingEnv).map (fun r => r.1) =
      some none := by
  constructor <;> rfl

/-- C21, amended: take a stack whose parameter map contains an indirect reference with no
entry in the values store for that region and stack, and a `StackExists` that answers.
When the stack is not to be deleted, `Stack.Deploy` returns an error and calls none of
`GetStackPolicy`, `CreateChangeSet`, `CreateStack` and `UpdateStack`.  The parameters are
resolved last: an entry into `GetStackChanges`, `CreateNewStack` or `UpdateExistingStack`
ends the calls, and `ValidateTemplate`, `DescribeStacks` and, for a stack without a
template URL, the upload come before it; and when the upload, `ValidateTemplate`,
`StackExists` and the serialisation of the policy succeed, that entry is made and the
error returned is the one of the parameter resolution.  When the stack is to be deleted,
the error and the calls of `Deploy` do not depend on the parameters or the values store. -/
theorem unresolved_parameter_stops_deploy (lib : GoLib) (s : Stack) (env : DeployEnv)
    (k v : String) (hmem : (k, v) ∈ s.Parameters) (href : isReference v = true)
    (hmiss : s.Deployer.values s.Deployer.region s.StackName
      (stringsTrimSpace (referenceBody v)) = none)
    (hlib : ∀ t e, lib.unquote t = .error e → ∃ m, e = .plain m)
    (hexists : (StackExists s.StackName env.describeStacks).isSome = true) :
    (s.Action ≠ "DELETE" →
      ∃ err s2 log, s.Deploy lib env = some (some err, s2, log) ∧
        (∀ c ∈ log, Call.needsParameters c = false) ∧
        (∀ c ∈ log, Call.resolvesParameters c = true →
          ∃ before, log = before ++ [c] ∧
            Call.clientValidateTemplate s2.TemplateUrl ∈ before ∧
            Call.clientDescribeStacks s.StackName ∈ before ∧
            (s.TemplateUrl.length = 0 → before.any Call.isUpload = true)) ∧
        ((s.TemplateUrl.length = 0 → (s.uploadTemplate lib env.upload).2.1 = none) →
          env.validateTemplate = none →
          (∃ b log2, StackExists s.StackName env.describeStacks = some ((b, none), log2)) →
          (∃ p, lib.marshalPolicy s.StackPolicy = .ok p) →
          resolveParameters lib s.Deployer s.StackName s.Parameters = .error err ∧
            log.any Call.resolvesParameters = true)) ∧
    (s.Action = "DELETE" →
      ∀ (params : List (String × String)) (deployer : CloudFormation),
        (Stack.Deploy lib { s with Parameters := params, Deployer := deployer } env).map
            (fun r => (r.1, r.2.2)) =
          (s.Deploy lib env).map (fun r => (r.1, r.2.2))) := by
  constructor
  · intro haction
    have main : ∀ (s1 : Stack) (log1 : List Call), s1.StackName = s.StackName →
        s1.Parameters = s.Parameters → s1.Deployer = s.Deployer → s1.Action = s.Action →
        s1.StackPolicy = s.StackPolicy →
        (∀ c ∈ log1, Call.needsParameters c = false ∧ Call.resolvesParameters c = false) →
        (s.TemplateUrl.length = 0 → log1.any Call.isUpload = true) →
        ∃ err s2 log,
          (match s1.validateAndCheck env.validateTemplate env.describeStacks with
            | none => none
            | some (.error err, log2) => some (some err, s1, log1 ++ log2)
            | some (.ok stackExists, log2) =>
              match s1.deployAction lib stackExists env with
              | none => none
              | some (err, log3) => some (err, s1, log1 ++ log2 ++ log3)) =
            some (some err, s2, log) ∧
          (∀ c ∈ log, Call.needsParameters c = false) ∧
          (∀ c ∈ log, Call.resolvesParameters c = true →
            ∃ before, log = before ++ [c] ∧
              Call.clientValidateTemplate s2.TemplateUrl ∈ before ∧
              Call.clientDescribeStacks s.StackName ∈ before ∧
              (s.TemplateUrl.length = 0 → before.any Call.isUpload = true)) ∧
          (env.validateTemplate = none →
            (∃ b log2, StackExists s.StackName env.describeStacks = some ((b, none), log2)) →
            (∃ p, lib.marshalPolicy s.StackPolicy = .ok p) →
            resolveParameters lib s.Deployer s.StackName s.Parameters = .error err ∧
              log.any Call.resolvesParameters = true) := by
      intro s1 log1 hn hp hd ha hpol hlog1 hup
      have hclean : ∀ (l : List Call),
          (∀ c ∈ l, Call.needsParameters c = false ∧ Call.resolvesParameters c = false) →
          ∀ (err : GoError) (s2 : Stack),
            (∀ c ∈ l, Call.needsParameters c = false) ∧
            (∀ c ∈ l, Call.resolvesParameters c = true →
              ∃ before, l = before ++ [c] ∧
                Call.clientValidateTemplate s2.TemplateUrl ∈ before ∧
                Call.clientDescribeStacks s.StackName ∈ before ∧
                (s.TemplateUrl.length = 0 → before.any Call.isUpload = true)) := by
        intro l hl err s2
        refine ⟨fun c hc => (hl c hc).1, fun c hc hres => ?_⟩
        rw [(hl c hc).2] at hres
        exact absurd hres (by simp)
      unfold Stack.validateAndCheck ValidateTemplate
      cases hv : env.validateTemplate with
      | some err =>
        have hl : ∀ c ∈ log1 ++ [Call.clientValidateTemplate s1.TemplateUrl],
            Call.needsParameters c = false ∧ Call.resolvesParameters c = false := by
          intro c hc
          rcases List.mem_append.1 hc with hc | hc
          · exact hlog1 c hc
          · simp only [List.mem_singleton] at hc
            rw [hc]
            exact ⟨rfl, rfl⟩
        obtain ⟨h1, h2⟩ := hclean _ hl err s1
        exact ⟨err, s1, _, rfl, h1, h2, fun h0 => by simp at h0⟩
      | none =>
        simp only
        rw [hn]
        cases hse : StackExists s.StackName env.describeStacks with
        | none => simp [hse] at hexists
        | some r =>
          obtain ⟨⟨b, e⟩, log2⟩ := r
          obtain ⟨hlog2, hdesc⟩ := StackExists_log s.StackName env.describeStacks _ _ hse
          have hl2 : ∀ c ∈ log1 ++ ([Call.clientValidateTemplate s1.TemplateUrl] ++ log2),
              Call.needsParameters c = false ∧ Call.resolvesParameters c = false := by
            intro c hc
            rcases List.mem_append.1 hc with hc | hc
            · exact hlog1 c hc
            · simp only [List.singleton_append, List.mem_cons] at hc
              rcases hc with hc | hc
              · rw [hc]
                exact ⟨rfl, rfl⟩
              · rw [hlog2 c hc]
                exact ⟨rfl, rfl⟩
          cases e with
          | some err =>
            obtain ⟨h1, h2⟩ := hclean _ hl2 err s1
            refine ⟨err, s1, _, rfl, h1, h2, fun _ hex => ?_⟩
            obtain ⟨b2, l2, hb2⟩ := hex
            simp at hb2
          | none =>
            simp only
            have hmem1 : (k, v) ∈ s1.Parameters := by
              rw [hp]
              exact hmem
            have hmiss1 : s1.Deployer.values s1.Deployer.region s1.StackName
                (stringsTrimSpace (referenceBody v)) = none := by
              rw [hd, hn]
              exact hmiss
            obtain ⟨m, hm⟩ := resolveParameters_missing lib s1.Deployer s1.StackName k v
              s1.Parameters hmem1 href hmiss1 hlib
            have haction1 : s1.Action ≠ "DELETE" := by
              rw [ha]
              exact haction
            rcases deployAction_unresolved lib s1 b env m haction1 hm with
              ⟨err, hmar, hda⟩ | ⟨p, c0, hmar, hda, hres, hneeds⟩
            · simp only [hda, List.append_nil]
              obtain ⟨h1, h2⟩ := hclean _ hl2 err s1
              refine ⟨err, s1, _, rfl, h1, h2, fun _ _ hex => ?_⟩
              obtain ⟨p, hp2⟩ := hex
              rw [← hpol, hmar] at hp2
              simp at hp2
            · simp only [hda]
              refine ⟨.plain m, s1, _, rfl, ?_, ?_, ?_⟩
              · intro c hc
                rcases List.mem_append.1 hc with hc | hc
                · exact (hl2 c hc).1
                · simp only [List.mem_singleton] at hc
                  rw [hc]
                  exact hneeds
              · intro c hc hcres
                rcases List.mem_append.1 hc with hc | hc
                · rw [(hl2 c hc).2] at hcres
                  exact absurd hcres (by simp)
                · simp only [List.mem_singleton] at hc
                  subst hc
                  refine ⟨log1 ++ ([Call.clientValidateTemplate s1.TemplateUrl] ++ log2), rfl,
                    ?_, ?_, ?_⟩
                  · simp
                  · have := hdesc rfl
                    simp [this]
                  · intro hlen
                    have := hup hlen
                    simp only [List.any_append, this, Bool.true_or]
              · intro _ _ _
                refine ⟨?_, ?_⟩
                · rw [← hd, ← hn, ← hp]
                  exact hm
                · simp only [List.any_append, List.any_cons, hres, Bool.true_or, Bool.or_true]
    unfold Stack.Deploy
    by_cases hlen : (s.TemplateUrl.length == 0) = true
    · simp only [hlen, if_true]
      have hlen0 : s.TemplateUrl.length = 0 := by simpa using hlen
      obtain ⟨h1, h2, h3, h4, h5, h6, h7⟩ := uploadTemplate_keeps lib s env.upload
      rcases hupl : s.uploadTemplate lib env.upload with ⟨s1, e1, log1⟩
      rw [hupl] at h1 h2 h3 h4 h5 h6 h7
      cases e1 with
      | some err =>
        refine ⟨err, s1, log1, rfl, fun c hc => (h6 c hc).1, fun c hc hres => ?_, fun h0 => ?_⟩
        · rw [(h6 c hc).2] at hres
          exact absurd hres (by simp)
        · have := h0 hlen0
          simp at this
      | none =>
        obtain ⟨err, s2, log, hrun, p1, p2, p3⟩ := main s1 log1 h1 h2 h3 h4 h5 h6 (fun _ => h7 rfl)
        exact ⟨err, s2, log, hrun, p1, p2, fun _ => p3⟩
    · simp only [hlen, Bool.false_eq_true, if_false]
      have hlen0 : ¬ s.TemplateUrl.length = 0 := by simpa using hlen
      obtain ⟨err, s2, log, hrun, p1, p2, p3⟩ := main s [] rfl rfl rfl rfl rfl (by simp)
        (fun h0 => absurd h0 hlen0)
      exact ⟨err, s2, log, hrun, p1, p2, fun _ => p3⟩
  · intro haction params deployer
    have hact : (s.Action == "DELETE") = true := by simpa using haction
    have hcheck : ∀ (t : Stack) (log1 : List Call), t.Action = s.Action →
        Option.map (fun r : Option GoError × Stack × List Call => (r.1, r.2.2))
          (match Stack.validateAndCheck { t with Parameters := params, Deployer := deployer }
              env.validateTemplate env.describeStacks with
          | none => none
          | some (.error err, log2) =>
            some (some err, ({ t with Parameters := params, Deployer := deployer } : Stack),
              log1 ++ log2)
          | some (.ok stackExists, log2) =>
            match Stack.deployAction lib { t with Parameters := params, Deployer := deployer }
                stackExists env with
            | none => none
            | some (err, log3) =>
              some (err, ({ t with Parameters := params, Deployer := deployer } : Stack),
                log1 ++ log2 ++ log3)) =
          Option.map (fun r : Option GoError × Stack × List Call => (r.1, r.2.2))
          (match t.validateAndCheck env.validateTemplate env.describeStacks with
          | none => none
          | some (.error err, log2) => some (some err, t, log1 ++ log2)
          | some (.ok stackExists, log2) =>
            match t.deployAction lib stackExists env with
            | none => none
            | some (err, log3) => some (err, t, log1 ++ log2 ++ log3)) := by
      intro t log1 hta
      have hvc : Stack.validateAndCheck { t with Parameters := params, Deployer := deployer }
          env.validateTemplate env.describeStacks =
          t.validateAndCheck env.validateTemplate env.describeStacks := rfl
      rw [hvc]
      have htact : (t.Action == "DELETE") = true := by
        rw [hta]
        exact hact
      have hda : ∀ b, Stack.deployAction lib { t with Parameters := params, Deployer := deployer }
          b env = t.deployAction lib b env := by
        intro b
        simp only [Stack.deployAction, htact, if_true]
        rfl
      rcases t.validateAndCheck env.validateTemplate env.describeStacks with _ | ⟨r, log2⟩
      · rfl
      · cases r with
        | error err => rfl
        | ok b =>
          simp only [hda]
          rcases t.deployAction lib b env with _ | ⟨err, log3⟩
          · rfl
          · rfl
    unfold Stack.Deploy
    by_cases hlen : (s.TemplateUrl.length == 0) = true
    · simp only [hlen, if_true]
      rw [uploadTemplate_other_parameters]
      obtain ⟨_, _, _, h4, _⟩ := uploadTemplate_keeps lib s env.upload
      rcases hupl : s.uploadTemplate lib env.upload with ⟨s1, e1, log1⟩
      rw [hupl] at h4
      cases e1 with
      | some err => rfl
      | none => exact hcheck s1 log1 h4
    · simp only [hlen, Bool.false_eq_true, if_false]
      exact hcheck s [] rfl

/-- Witness for C21: the stack `vpc` with the parameter `Env` referring to the value
`env`, deployed on a remote where the stack exists; and the same stack to be deleted. -/
theorem unresolved_parameter_stops_deploy_witness :
    (∃ err s2 log,
      missingValueStack.Deploy sampleLib (existingStackEnv noChangeEnv) =
        some (some err, s2, log) ∧
      (∀ c ∈ log, Call.needsParameters c = false) ∧
      (∀ c ∈ log, Call.resolvesParameters c = true →
        ∃ before, log = before ++ [c] ∧
          Call.clientValidateTemplate s2.TemplateUrl ∈ before ∧
          Call.clientDescribeStacks missingValueStack.StackName ∈ before ∧
          (missingValueStack.TemplateUrl.length = 0 → before.any Call.isUpload = true)) ∧
      ((missingValueStack.TemplateUrl.length = 0 →
          (missingValueStack.uploadTemplate sampleLib
            (existingStackEnv noChangeEnv).upload).2.1 = none) →
        (existingStackEnv noChangeEnv).validateTemplate = none →
        (∃ b log2, StackExists missingValueStack.StackName
          (existingStackEnv noChangeEnv).describeStacks = some ((b, none), log2)) →
        (∃ p, sampleLib.marshalPolicy missingValueStack.StackPolicy = .ok p) →
        resolveParameters sampleLib missingValueStack.Deployer missingValueStack.StackName
            missingValueStack.Parameters = .error err ∧
          log.any Call.resolvesParameters = true)) ∧
    (Stack.Deploy sampleLib
        { missingValueDelete with Parameters := [], Deployer := missingValueDelete.Deployer }
        deleteExistingEnv).map (fun r => (r.1, r.2.2)) =
      (missingValueDelete.Deploy sampleLib deleteExistingEnv).map (fun r => (r.1, r.2.2)) :=
  ⟨(unresolved_parameter_stops_deploy sampleLib missingValueStack (existingStackEnv noChangeEnv)
      "Env" "\x7b\x7benv\x7d\x7d" (by decide) (by decide) rfl
      (fun t e h => by simp [sampleLib] at h) rfl).1 (by decide),
    (unresolved_parameter_stops_deploy sampleLib missingValueDelete deleteExistingEnv
      "Env" "\x7b\x7benv\x7d\x7d" (by decide) (by decide) rfl
      (fun t e h => by simp [sampleLib] at h) rfl).2 rfl [] missingValueDelete.Deployer⟩

/-- C22, counterexample: a delete of `vpc` is accepted and the first poll still lists the
stack in `CREATE_COMPLETE`; `DeleteStack` returns nil. -/
theorem delete_succeeds_on_create_complete :
    (DeleteStack ⟨"vpc", ""⟩
        { submit := [.tick none]
          describeStacks := [.tick (.ok (vpcListed StackStatusCreateComplete ""))] }).map
      Prod.fst = some none := by
  rfl

/-- C22, amended: `trackStackCreateUpdateStatus` is told the stack name only, not the
action.  It returns nil once a poll, after any number of polls that keep it waiting, lists
the stack in `CREATE_COMPLETE`, `UPDATE_COMPLETE` or `DELETE_COMPLETE` and in no other
status; and when it returns nil, some poll reported that the stack does not exist or listed
the stack in one of these three statuses. -/
theorem tracking_succeeds_on_any_complete_status (stackName : String)
    (events : List (Select (Except GoError (List StackDescription)))) :
    (∀ (waiting rest : List (Select (Except GoError (List StackDescription))))
        (listed : List StackDescription),
      events = waiting ++ .tick (.ok listed) :: rest →
      (∀ e ∈ waiting, keepsTrackingStack stackName e = true) →
      (∀ s ∈ listed, StringValue s.StackName = stackName →
        isCompleteStatus (StringValue s.StackStatus) = true) →
      (∃ s ∈ listed, StringValue s.StackName = stackName) →
      (trackStackCreateUpdateStatus stackName events).map Prod.fst = some none) ∧
    ((trackStackCreateUpdateStatus stackName events).map Prod.fst = some none →
      ∃ e ∈ events, endsTrackingAsSuccess stackName e = true) := by
  refine ⟨?_, trackStack_nil_only stackName events⟩
  intro waiting rest listed hevents hwait hall hsome
  rw [hevents, trackStack_after_waiting stackName waiting _ hwait]
  have hscan := trackStackScan_complete stackName listed false hall
  have hany : listed.any (fun s => StringValue s.StackName == stackName) = true := by
    obtain ⟨s, hs, hname⟩ := hsome
    rw [List.any_eq_true]
    exact ⟨s, hs, by simpa using hname⟩
  rw [hany] at hscan
  simp [trackStackCreateUpdateStatus, hscan]

/-- Witness for C22: after a poll that lists `vpc` in `DELETE_IN_PROGRESS`, a poll lists it
in `UPDATE_COMPLETE`. -/
theorem tracking_succeeds_on_any_complete_status_witness :
    (trackStackCreateUpdateStatus "vpc"
        [.tick (.ok (vpcListed StackStatusDeleteInProgress "")),
          .tick (.ok (vpcListed StackStatusUpdateComplete ""))]).map Prod.fst = some none ∧
    ∃ e ∈ [Select.tick (Except.ok (vpcListed StackStatusDeleteInProgress "")),
          Select.tick (Except.ok (vpcListed StackStatusUpdateComplete ""))],
      endsTrackingAsSuccess "vpc" e = true :=
  ⟨(tracking_succeeds_on_any_complete_status "vpc" _).1
      [.tick (.ok (vpcListed StackStatusDeleteInProgress ""))] []
      (vpcListed StackStatusUpdateComplete "") rfl (by decide) (by decide) (by decide),
    (tracking_succeeds_on_any_complete_status "vpc" _).2 rfl⟩

/-- C23, counterexample: the stack is observed in `ROLLBACK_COMPLETE` with the reason
"limit exceeded"; the returned error is "Failed to create stack vpc", which does not
contain the reason. -/
theorem rollback_complete_error_has_no_reason :
    (trackStackCreateUpdateStatus "vpc"
        [.tick (.ok (vpcListed StackStatusRollbackComplete "limit exceeded"))]).map Prod.fst =
      some (some (.plain "Failed to create stack vpc")) ∧
    stringsContains "Failed to create stack vpc" "limit exceeded" = false := by
  refine ⟨rfl, by decide⟩

/-- C23, amended: when a poll, after any number of polls that keep the wait going, lists
the stack first and in one of `ROLLBACK_COMPLETE`, `CREATE_FAILED`,
`UPDATE_ROLLBACK_COMPLETE`, `UPDATE_ROLLBACK_FAILED`, `DELETE_FAILED`,
`trackStackCreateUpdateStatus` returns a non-nil error whose message contains the stack
name.  For `ROLLBACK_COMPLETE` and `UPDATE_ROLLBACK_COMPLETE` the message is
"Failed to create stack <name>" and "Failed to update stack <name>", without the reason;
for the three other statuses it contains the status reason. -/
theorem failure_status_error_message (stackName status : String) (reason : Option String)
    (waiting rest : List (Select (Except GoError (List StackDescription))))
    (others : List StackDescription)
    (hwait : ∀ e ∈ waiting, keepsTrackingStack stackName e = true)
    (hstatus : status = StackStatusRollbackComplete ∨ status = StackStatusCreateFailed ∨
      status = StackStatusUpdateRollbackComplete ∨ status = StackStatusUpdateRollbackFailed ∨
      status = StackStatusDeleteFailed) :
    ∃ err : GoError,
      (trackStackCreateUpdateStatus stackName
          (waiting ++ .tick (.ok (⟨some stackName, some status, reason⟩ :: others)) :: rest)).map
        Prod.fst = some (some err) ∧
      stringsContains err.Error stackName = true ∧
      (status = StackStatusRollbackComplete →
        err = .plain ("Failed to create stack " ++ stackName)) ∧
      (status = StackStatusUpdateRollbackComplete →
        err = .plain ("Failed to update stack " ++ stackName)) ∧
      (status ≠ StackStatusRollbackComplete → status ≠ StackStatusUpdateRollbackComplete →
        stringsContains err.Error (StringValue reason) = true) := by
  rw [trackStack_after_waiting stackName waiting _ hwait]
  have hname : ∀ (pre post : String),
      stringsContains (pre ++ stackName ++ post) stackName = true := by
    intro pre post
    unfold stringsContains
    have : (pre ++ stackName ++ post).toList =
        pre.toList ++ (stackName.toList ++ post.toList) := by
      simp [String.toList, String.data_append]
    rw [this]
    exact containsChars_append _ _ _
  have hname0 : ∀ pre : String, stringsContains (pre ++ stackName) stackName = true := by
    intro pre
    have := hname pre ""
    simpa using this
  have hreason : ∀ (pre post : String),
      stringsContains (pre ++ StringValue reason ++ post) (StringValue reason) = true := by
    intro pre post
    unfold stringsContains
    have : (pre ++ StringValue reason ++ post).toList =
        pre.toList ++ ((StringValue reason).toList ++ post.toList) := by
      simp [String.toList, String.data_append]
    rw [this]
    exact containsChars_append _ _ _
  have hreason0 : ∀ pre : String,
      stringsContains (pre ++ StringValue reason) (StringValue reason) = true := by
    intro pre
    have := hreason pre ""
    simpa using this
  rcases hstatus with h | h | h | h | h
  · refine ⟨.plain ("Failed to create stack " ++ stackName), ?_, hname0 _, fun _ => rfl,
      fun h2 => ?_, fun h2 => absurd h h2⟩
    · subst h
      simp [trackStackCreateUpdateStatus, trackStackScan, StringValue,
        StackStatusCreateInProgress, StackStatusRollbackInProgress, StackStatusRollbackComplete]
    · rw [h] at h2
      exact absurd h2 (by decide)
  · refine ⟨.plain ("Failed to create stack " ++ stackName ++ "\nReason: " ++
        StringValue reason ++ "\n"), ?_, ?_, fun h2 => ?_, fun h2 => ?_, fun _ _ => ?_⟩
    · subst h
      simp [trackStackCreateUpdateStatus, trackStackScan, StringValue,
        StackStatusCreateInProgress, StackStatusRollbackInProgress, StackStatusRollbackComplete,
        StackStatusCreateFailed]
    · have := hname "Failed to create stack " ("\nReason: " ++ StringValue reason ++ "\n")
      simpa [GoError.Error, String.append_assoc] using this
    · rw [h] at h2
      exact absurd h2 (by decide)
    · rw [h] at h2
      exact absurd h2 (by decide)
    · exact hreason _ _
  · refine ⟨.plain ("Failed to update stack " ++ stackName), ?_, hname0 _, fun h2 => ?_,
      fun _ => rfl, fun _ h2 => absurd h h2⟩
    · subst h
      simp [trackStackCreateUpdateStatus, trackStackScan, StringValue,
        StackStatusCreateInProgress, StackStatusRollbackInProgress, StackStatusRollbackComplete,
        StackStatusCreateFailed, StackStatusUpdateInProgress,
        StackStatusUpdateCompleteCleanupInProgress, StackStatusUpdateRollbackInProgress,
        StackStatusUpdateRollbackCompleteCleanupInProgress, StackStatusUpdateRollbackComplete]
    · rw [h] at h2
      exact absurd h2 (by decide)
  · refine ⟨.plain ("Failed to rollback stack " ++ stackName ++ "\nReason: " ++
        StringValue reason), ?_, ?_, fun h2 => ?_, fun h2 => ?_, fun _ _ => hreason0 _⟩
    · subst h
      simp [trackStackCreateUpdateStatus, trackStackScan, StringValue,
        StackStatusCreateInProgress, StackStatusRollbackInProgress, StackStatusRollbackComplete,
        StackStatusCreateFailed, StackStatusUpdateInProgress,
        StackStatusUpdateCompleteCleanupInProgress, StackStatusUpdateRollbackInProgress,
        StackStatusUpdateRollbackCompleteCleanupInProgress, StackStatusUpdateRollbackComplete,
        StackStatusUpdateRollbackFailed]
    · have := hname "Failed to rollback stack " ("\nReason: " ++ StringValue reason)
      simpa [GoError.Error, String.append_assoc] using this
    · rw [h] at h2
      exact absurd h2 (by decide)
    · rw [h] at h2
      exact absurd h2 (by decide)
  · refine ⟨.plain ("Failed to delete stack " ++ stackName ++ "\nReason: " ++
        StringValue reason), ?_, ?_, fun h2 => ?_, fun h2 => ?_, fun _ _ => hreason0 _⟩
    · subst h
      simp [trackStackCreateUpdateStatus, trackStackScan, StringValue,
        StackStatusCreateInProgress, StackStatusRollbackInProgress, StackStatusRollbackComplete,
        StackStatusCreateFailed, StackStatusUpdateInProgress,
        StackStatusUpdateCompleteCleanupInProgress, StackStatusUpdateRollbackInProgress,
        StackStatusUpdateRollbackCompleteCleanupInProgress, StackStatusUpdateRollbackComplete,
        StackStatusUpdateRollbackFailed, StackStatusDeleteInProgress, StackStatusDeleteFailed]
    · have := hname "Failed to delete stack " ("\nReason: " ++ StringValue reason)
      simpa [GoError.Error, String.append_assoc] using this
    · rw [h] at h2
      exact absurd h2 (by decide)
    · rw [h] at h2
      exact absurd h2 (by decide)

/-- Witness for C23: after a poll that lists `vpc` in `DELETE_IN_PROGRESS`, a poll lists it
in `DELETE_FAILED` with the reason "bucket not empty". -/
theorem failure_status_error_message_witness :
    ∃ err : GoError,
      (trackStackCreateUpdateStatus "vpc"
          ([.tick (.ok (vpcListed StackStatusDeleteInProgress ""))] ++
            .tick (.ok (⟨some "vpc", some StackStatusDeleteFailed, some "bucket not empty"⟩ ::
              [])) :: [])).map
        Prod.fst = some (some err) ∧
      stringsContains err.Error "vpc" = true ∧
      (StackStatusDeleteFailed = StackStatusRollbackComplete →
        err = .plain ("Failed to create stack " ++ "vpc")) ∧
      (StackStatusDeleteFailed = StackStatusUpdateRollbackComplete →
        err = .plain ("Failed to update stack " ++ "vpc")) ∧
      (StackStatusDeleteFailed ≠ StackStatusRollbackComplete →
        StackStatusDeleteFailed ≠ StackStatusUpdateRollbackComplete →
        stringsContains err.Error (StringValue (some "bucket not empty")) = true) :=
  failure_status_error_message "vpc" StackStatusDeleteFailed (some "bucket not empty")
    [.tick (.ok (vpcListed StackStatusDeleteInProgress ""))] [] [] (by decide)
    (Or.inr (Or.inr (Or.inr (Or.inr rfl))))

/-- C24, counterexample: for us-east-1 the host of the template URL is
`s3.us-east-1.amazonaws.com`, which is not `s3.amazonaws.com` and contains the region
name. -/
theorem usEast1_host_keeps_region :
    urlHost ((stackIn "us-east-1").uploadTemplate sampleLib uploadsTemplate).1.TemplateUrl =
      "s3.us-east-1.amazonaws.com" ∧
    urlHost ((stackIn "us-east-1").uploadTemplate sampleLib uploadsTemplate).1.TemplateUrl ≠
      "s3.amazonaws.com" ∧
    stringsContains
      (urlHost ((stackIn "us-east-1").uploadTemplate sampleLib uploadsTemplate).1.TemplateUrl)
      "us-east-1" = true := by
  decide

/-- C24, amended: for region us-east-1 the host of the `TemplateUrl` computed by
`uploadTemplate` is `s3.us-east-1.amazonaws.com`: a dot follows `s3`, and the region name
stays in the host.  For every other region, whose name has no slash, the host is
`s3-<region>.amazonaws.com`.  In both cases the host contains the region name. -/
theorem uploadTemplate_host (lib : GoLib) (s : Stack) (env : UploadEnv) :
    (s.Region = "us-east-1" →
      urlHost (s.uploadTemplate lib env).1.TemplateUrl = "s3." ++ s.Region ++ ".amazonaws.com") ∧
    (s.Region ≠ "us-east-1" → (∀ c ∈ s.Region.toList, c ≠ '/') →
      urlHost (s.uploadTemplate lib env).1.TemplateUrl = "s3-" ++ s.Region ++ ".amazonaws.com") ∧
    ((∀ c ∈ s.Region.toList, c ≠ '/') →
      stringsContains (urlHost (s.uploadTemplate lib env).1.TemplateUrl) s.Region = true) := by
  have hurl : (s.uploadTemplate lib env).1.TemplateUrl =
      (s.setTemplateLocation lib).TemplateUrl := uploadTemplate_TemplateUrl lib s env
  rw [hurl]
  obtain ⟨rest, h1, h2⟩ := setTemplateLocation_url lib s
  have hdrop : ∀ X : List Char, List.drop "https://".length ("https://".toList ++ X) = X := by
    intro X
    exact List.drop_left _ _
  have hEast : s.Region = "us-east-1" →
      urlHost (s.setTemplateLocation lib).TemplateUrl = "s3." ++ s.Region ++ ".amazonaws.com" := by
    intro hr
    unfold urlHost
    rw [h2 hr, List.append_assoc, hdrop, takeWhile_append_of_all]
    · rw [hr]
      apply String.ext
      simp [String.toList]
    · decide
  have hOther : s.Region ≠ "us-east-1" → (∀ c ∈ s.Region.toList, c ≠ '/') →
      urlHost (s.setTemplateLocation lib).TemplateUrl =
        "s3-" ++ s.Region ++ ".amazonaws.com" := by
    intro hr hslash
    unfold urlHost
    rw [h1 hr, List.append_assoc, hdrop, takeWhile_append_of_all]
    · apply String.ext
      simp [String.toList, String.data_append]
    · intro x hx
      simp only [List.mem_append] at hx
      rcases hx with (hx | hx) | hx
      · revert x; decide
      · simpa using hslash x hx
      · revert x; decide
  refine ⟨hEast, hOther, fun hslash => ?_⟩
  have hcontains : ∀ pre post : String,
      stringsContains (pre ++ s.Region ++ post) s.Region = true := by
    intro pre post
    unfold stringsContains
    have : (pre ++ s.Region ++ post).toList =
        pre.toList ++ (s.Region.toList ++ post.toList) := by
      simp [String.toList, String.data_append]
    rw [this]
    exact containsChars_append _ _ _
  by_cases hr : s.Region = "us-east-1"
  · rw [hEast hr]
    exact hcontains _ _
  · rw [hOther hr hslash]
    exact hcontains _ _

/-- Witness for C24: a stack in us-east-1 and one in eu-west-1. -/
theorem uploadTemplate_host_witness :
    urlHost ((stackIn "us-east-1").uploadTemplate sampleLib uploadsTemplate).1.TemplateUrl =
      "s3." ++ (stackIn "us-east-1").Region ++ ".amazonaws.com" ∧
    urlHost ((stackIn "eu-west-1").uploadTemplate sampleLib uploadsTemplate).1.TemplateUrl =
      "s3-" ++ (stackIn "eu-west-1").Region ++ ".amazonaws.com" ∧
    stringsContains
      (urlHost ((stackIn "eu-west-1").uploadTemplate sampleLib uploadsTemplate).1.TemplateUrl)
      (stackIn "eu-west-1").Region = true :=
  ⟨(uploadTemplate_host sampleLib (stackIn "us-east-1") uploadsTemplate).1 rfl,
    (uploadTemplate_host sampleLib (stackIn "eu-west-1") uploadsTemplate).2.1 (by decide)
      (by decide),
    (uploadTemplate_host sampleLib (stackIn "eu-west-1") uploadsTemplate).2.2 (by decide)⟩

/-- C25: `UpdateStack` answers the validation error "No updates are to be performed.";
`UpdateExistingStack` returns an "unhandled AWS error", and so does `Stack.update` when the
changeset had completed without listing a change (a forced update).  In diff mode a result
with this error is passed over: nothing is reported and the region error stays nil. -/
theorem nothing_to_update_is_an_error :
    (RegionDiffWorker_receive "eu-west-1" [] none
        ⟨unchangedStack 0, some (.aws "ValidationError" "No updates are to be performed.")⟩).map
      (fun r => (r.1.length, r.2)) = some (0, none) ∧
    (UpdateExistingStack sampleLib (stackIn "eu-west-1").Deployer
        ((stackIn "eu-west-1").createStackOpts "\x7b\x7d") nothingToUpdate).map Prod.fst =
      some (some (.plain
        "unhandled AWS error for stack vpc\nValidationError : No updates are to be performed.")) ∧
    ((stackIn "eu-west-1").update sampleLib
        { getStackChanges := forcedUpdateEnv, setStackPolicy := none
          updateExistingStack := nothingToUpdate }).map Prod.fst =
      some (some (.plain
        "unhandled AWS error for stack vpc\nValidationError : No updates are to be performed.")) := by
  refine ⟨rfl, rfl, rfl⟩

/-- C26, counterexample: a manifest whose only region has the empty name, which is the
identifier of no region, is rejected with "Region name is missing for 0 element", not with
" is not a valid region". -/
theorem empty_region_name_is_reported_missing :
    countRegionIds sampleManifestLib.partitions "" = 0 ∧
    (manifestOf [""]).validateManifestFile sampleManifestLib =
      some (.plain "Region name is missing for 0 element") ∧
    (manifestOf [""]).validateManifestFile sampleManifestLib ≠
      some (.plain ("" ++ " is not a valid region")) := by
  decide

/-- C26, amended: when every earlier region passes validation and a region passes the
struct validation (it has its required fields, a non-empty name among them) but its name is
the identifier of no region of any partition, `validateManifestFile` returns
"<name> is not a valid region". -/
theorem invalid_region_is_rejected (lib : ManifestLib) (manifest : Manifest)
    (pre post : List Region) (region : Region)
    (hregions : manifest.Regions = pre ++ region :: post)
    (hpre : ∀ r ∈ pre, regionPasses lib r = true)
    (hfields : lib.validateRegion region = [])
    (hname : ∀ p ∈ lib.partitions, region.Name ∉ p) :
    manifest.validateManifestFile lib =
      some (.plain (region.Name ++ " is not a valid region")) := by
  unfold Manifest.validateManifestFile
  have hlen : (manifest.Regions.length == 0) = false := by
    rw [hregions]
    simp
  rw [hlen, hregions]
  simp only [Bool.false_eq_true, if_false]
  rw [validateRegions_after_passing lib pre _ 0 hpre]
  have hcnt := countRegionIds_eq_zero lib.partitions region.Name hname
  simp [validateRegions, hfields, hcnt]

/-- Witness for C26: the region `eu-west` after a valid region. -/
theorem invalid_region_is_rejected_witness :
    (manifestOf ["eu-west-1", "eu-west"]).validateManifestFile sampleManifestLib =
      some (.plain ("eu-west" ++ " is not a valid region")) :=
  invalid_region_is_rejected sampleManifestLib (manifestOf ["eu-west-1", "eu-west"])
    [⟨"eu-west-1", [stackIn "eu-west-1"]⟩] [] ⟨"eu-west", [stackIn "eu-west"]⟩ rfl (by decide)
    rfl (by decide)

/-- C27: a manifest without regions is rejected with "No Regions found"; and when every
earlier region passes validation and the region at index `i` has an empty name, for which
the validator reports the required field `Name` first, `validateManifestFile` returns
"Region name is missing for i element". -/
theorem missing_region_name_is_rejected (lib : ManifestLib) (manifest : Manifest) :
    (manifest.Regions = [] →
      manifest.validateManifestFile lib = some (.plain "No Regions found")) ∧
    (∀ (pre post : List Region) (region : Region),
      manifest.Regions = pre ++ region :: post →
      (∀ r ∈ pre, regionPasses lib r = true) →
      region.Name = "" →
      (∀ r : Region, r.Name = "" → ∃ more, lib.validateRegion r = "Name" :: more) →
      manifest.validateManifestFile lib =
        some (.plain ("Region name is missing for " ++ toString pre.length ++ " element"))) := by
  constructor
  · intro h
    simp [Manifest.validateManifestFile, h]
  · intro pre post region hregions hpre hname hrequired
    obtain ⟨more, hmore⟩ := hrequired region hname
    unfold Manifest.validateManifestFile
    have hlen : (manifest.Regions.length == 0) = false := by
      rw [hregions]
      simp
    rw [hlen, hregions]
    simp only [Bool.false_eq_true, if_false]
    rw [validateRegions_after_passing lib pre _ 0 hpre]
    simp [validateRegions, hmore]

/-- Witness for C27: the second region has no name. -/
theorem missing_region_name_is_rejected_witness :
    (manifestOf []).validateManifestFile sampleManifestLib = some (.plain "No Regions found") ∧
    (manifestOf ["eu-west-1", ""]).validateManifestFile sampleManifestLib =
      some (.plain ("Region name is missing for " ++ toString 1 ++ " element")) :=
  ⟨(missing_region_name_is_rejected sampleManifestLib (manifestOf [])).1 rfl,
    (missing_region_name_is_rejected sampleManifestLib (manifestOf ["eu-west-1", ""])).2
      [⟨"eu-west-1", [stackIn "eu-west-1"]⟩] [] ⟨"", [stackIn ""]⟩ rfl (by decide) rfl
      (fun r hr => ⟨[], by simp [sampleManifestLib, hr]⟩)⟩

/-- C28, counterexample: for the absolute template path `/work/vpc/vpc.json` the template
URL encodes the key `run1/work/vpc/vpc.json`, while the key passed to the upload is
`run1//work/vpc/vpc.json`; for the relative path `vpc/vpc.json` both are
`run1/vpc/vpc.json`. -/
theorem absolute_path_url_key_differs_from_upload_key :
    urlObjectKey ((absoluteStackIn "eu-west-1").uploadTemplate sampleLib
        uploadsTemplate).1.TemplateUrl "templates" = "run1/work/vpc/vpc.json" ∧
    uploadKeys ((absoluteStackIn "eu-west-1").uploadTemplate sampleLib uploadsTemplate).2.2 =
      ["run1//work/vpc/vpc.json"] ∧
    urlObjectKey ((stackIn "eu-west-1").uploadTemplate sampleLib
        uploadsTemplate).1.TemplateUrl "templates" = "run1/vpc/vpc.json" ∧
    uploadKeys ((stackIn "eu-west-1").uploadTemplate sampleLib uploadsTemplate).2.2 =
      ["run1/vpc/vpc.json"] := by
  decide

/-- C28, amended: take a region name without a slash and, for us-east-1, a bucket, UID and
template path in which the rewrite of the URL finds no `https://s3-`.  Every upload
`uploadTemplate` requests has the key `UID + "/" + TemplatePath`, and it requests one
unless it returns before the upload.  For a relative template path the key encoded in the
`TemplateUrl` is that same string; for an absolute template path it is
`UID + TemplatePath`, which differs from the upload key. -/
theorem uploadTemplate_url_key (lib : GoLib) (s : Stack) (env : UploadEnv)
    (hregion : ∀ c ∈ s.Region.toList, c ≠ '/')
    (heast : s.Region = "us-east-1" →
      stringsContains (s.Bucket ++ "/" ++ s.UID ++
        (if filepathIsAbs s.TemplatePath then "" else "/") ++ s.TemplatePath)
        "https://s3-" = false) :
    (∀ key ∈ uploadKeys (s.uploadTemplate lib env).2.2, key = s.UID ++ "/" ++ s.TemplatePath) ∧
    ((s.uploadTemplate lib env).2.1 = none →
      uploadKeys (s.uploadTemplate lib env).2.2 = [s.UID ++ "/" ++ s.TemplatePath]) ∧
    (filepathIsAbs s.TemplatePath = false →
      urlObjectKey (s.uploadTemplate lib env).1.TemplateUrl s.Bucket =
        s.UID ++ "/" ++ s.TemplatePath) ∧
    (filepathIsAbs s.TemplatePath = true →
      urlObjectKey (s.uploadTemplate lib env).1.TemplateUrl s.Bucket = s.UID ++ s.TemplatePath ∧
      urlObjectKey (s.uploadTemplate lib env).1.TemplateUrl s.Bucket ≠
        s.UID ++ "/" ++ s.TemplatePath) := by
  have hkeys : (∀ key ∈ uploadKeys (s.uploadTemplate lib env).2.2,
        key = s.UID ++ "/" ++ s.TemplatePath) ∧
      ((s.uploadTemplate lib env).2.1 = none →
        uploadKeys (s.uploadTemplate lib env).2.2 = [s.UID ++ "/" ++ s.TemplatePath]) := by
    have hfields : (s.setTemplateLocation lib).UID = s.UID ∧
        (s.setTemplateLocation lib).TemplatePath = s.TemplatePath := by
      unfold Stack.setTemplateLocation
      by_cases habs : filepathIsAbs s.TemplatePath = true <;>
        by_cases hr : s.Region = "us-east-1" <;> simp [habs, hr]
    unfold Stack.uploadTemplate
    rcases env.isServerlessTemplate with err | b
    · exact ⟨by simp [uploadKeys], by simp⟩
    · cases b with
      | false => simp [uploadKeys, hfields.1, hfields.2]
      | true =>
        simp only [if_true]
        rcases env.packaged.2 with _ | err
        · simp [uploadKeys, hfields.1, hfields.2]
        · exact ⟨by simp [uploadKeys], by simp⟩
  have hurl := setTemplateLocation_url_key lib s heast
  rw [← uploadTemplate_TemplateUrl lib s env] at hurl
  have hhost : ∀ c ∈ (if s.Region = "us-east-1" then "s3.us-east-1.amazonaws.com".toList
      else "s3-".toList ++ s.Region.toList ++ ".amazonaws.com".toList), c ≠ '/' := by
    by_cases hr : s.Region = "us-east-1"
    · rw [if_pos hr]
      decide
    · rw [if_neg hr]
      intro x hx
      simp only [List.mem_append] at hx
      rcases hx with (hx | hx) | hx
      · revert x; decide
      · exact hregion x hx
      · revert x; decide
  have hkey := urlObjectKey_of_parts (s.uploadTemplate lib env).1.TemplateUrl s.Bucket
    (s.UID ++ (if filepathIsAbs s.TemplatePath then "" else "/") ++ s.TemplatePath) _ hhost hurl
  refine ⟨hkeys.1, hkeys.2, fun hrel => ?_, fun habs => ?_⟩
  · rw [hkey, hrel]
    simp
  · rw [hkey, habs]
    simp only [if_true, String.append_empty]
    refine ⟨trivial, fun h => ?_⟩
    have hlen := congrArg String.length h
    simp only [String.length_append] at hlen
    have : "/".length = 1 := rfl
    omega

/-- Witness for C28: a relative and an absolute template path in eu-west-1. -/
theorem uploadTemplate_url_key_witness :
    urlObjectKey ((stackIn "eu-west-1").uploadTemplate sampleLib uploadsTemplate).1.TemplateUrl
        (stackIn "eu-west-1").Bucket =
      (stackIn "eu-west-1").UID ++ "/" ++ (stackIn "eu-west-1").TemplatePath ∧
    uploadKeys ((stackIn "eu-west-1").uploadTemplate sampleLib uploadsTemplate).2.2 =
      [(stackIn "eu-west-1").UID ++ "/" ++ (stackIn "eu-west-1").TemplatePath] ∧
    urlObjectKey
        ((absoluteStackIn "eu-west-1").uploadTemplate sampleLib uploadsTemplate).1.TemplateUrl
        (absoluteStackIn "eu-west-1").Bucket ≠
      (absoluteStackIn "eu-west-1").UID ++ "/" ++ (absoluteStackIn "eu-west-1").TemplatePath :=
  ⟨(uploadTemplate_url_key sampleLib (stackIn "eu-west-1") uploadsTemplate (by decide)
      (fun h => absurd h (by decide))).2.2.1 (by decide),
    (uploadTemplate_url_key sampleLib (stackIn "eu-west-1") uploadsTemplate (by decide)
      (fun h => absurd h (by decide))).2.1 rfl,
    ((uploadTemplate_url_key sampleLib (absoluteStackIn "eu-west-1") uploadsTemplate (by decide)
      (fun h => absurd h (by decide))).2.2.2 (by decide)).2⟩

/-- C29: the upload of the template fails with a request error; `Stack.Deploy` returns
that error, which the worker retries, with `TemplateUrl` already set, so the next
`Deploy` on the stack makes no upload and goes on to `ValidateTemplate`. -/
theorem failed_upload_is_not_retried :
    (Stack.Deploy sampleLib (stackIn "eu-west-1")
        { existingStackEnv noChangeEnv with upload := uploadRequestError }).map
      (fun r => (r.1, r.2.1.TemplateUrl)) =
      some (some (.aws "RequestError" "send request failed"),
        "https://s3-eu-west-1.amazonaws.com/templates/run1/vpc/vpc.json") ∧
    retriedByWorker (.aws "RequestError" "send request failed") = true ∧
    (Stack.Deploy sampleLib (stackIn "eu-west-1")
        { existingStackEnv noChangeEnv with upload := uploadRequestError }).bind
      (fun r => (Stack.Deploy sampleLib r.2.1 (existingStackEnv noChangeEnv)).map
        (fun next => (next.1, next.2.2.any Call.isUpload,
          next.2.2.any Call.isValidateTemplate))) =
      some (none, false, true) := by
  refine ⟨rfl, rfl, rfl⟩

end Cfstack
